import Mathlib

/-!
# Intrusive reference counting (`containers/counted.hpp`)

A shallow embedding of `counted_t<T>` and of the two refcount mixins
`single_threaded_shared_mixin_t` and `slow_shared_mixin_t`.

* An object is a heap cell carrying the `refcount_` field of its mixin and a
  ghost counter of how many times `delete` ran on it.  Addresses are indices
  into the heap and are never reused.
* A handle is a slot carrying the `p_` field of a `counted_t` and a ghost flag
  telling whether the slot is between its constructor and its destructor.
* `intptr_t` is the 64-bit two's complement integer type.
-/

namespace Counted

/-! ## Machine integers -/

/-- Largest value of `intptr_t` (64-bit). -/
def INTPTR_MAX : Int := 9223372036854775807

/-- Smallest value of `intptr_t` (64-bit). -/
def INTPTR_MIN : Int := -9223372036854775808

/-- Reduction of a mathematical integer to the `intptr_t` value the atomic
builtins `__sync_add_and_fetch` / `__sync_sub_and_fetch` store: they wrap
around in two's complement. -/
def wrap_intptr (x : Int) : Int :=
  (x + 9223372036854775808) % 18446744073709551616 - 9223372036854775808

/-! ## Faults -/

/-- The ways an execution can stop without completing. -/
inductive Fault where
  /-- A `rassert` whose condition is false. -/
  | rassert_failed
  /-- Overflow of a plain (non-atomic) signed addition: undefined behaviour. -/
  | signed_overflow
  /-- Access to a member through a `NULL` pointer: undefined behaviour. -/
  | null_dereference
  /-- A raw pointer that is neither `NULL` nor the address of an object that
  has been allocated and not deleted. -/
  | invalid_pointer
  /-- A handle used before its constructor or after its destructor. -/
  | dead_handle
  deriving DecidableEq, Repr

/-- Modelled from the spec: the `rassert` macro of `errors.hpp`, which is not
among the sources; the spec calls it a fail-fast assertion that is fatal and
never recovered, so a false condition stops the execution. -/
def rassert (cond : Bool) : Except Fault Unit :=
  if cond then .ok () else .error Fault.rassert_failed

/-! ## Objects and the two mixins -/

/-- The two refcount mixins an owned type can derive from. -/
inductive Mixin where
  | single_threaded_shared_mixin_t
  | slow_shared_mixin_t
  deriving DecidableEq, Repr

/-- An owned object: the `refcount_` field of its mixin, and the number of
times `delete` has been executed on it (ghost). -/
structure Obj where
  refcount_ : Int
  deleted : Nat
  deriving DecidableEq, Repr

/-- The mixin constructors: `refcount_(0)`. -/
def Obj.fresh : Obj := ⟨0, 0⟩

/-- The statement `delete static_cast<T *>(p)`. -/
def Obj.delete (o : Obj) : Obj := { o with deleted := o.deleted + 1 }

/-- The function `counted_t_add_ref`, for either mixin, on the object `p`
points to. -/
def counted_t_add_ref : Mixin → Obj → Except Fault Obj
  | .single_threaded_shared_mixin_t, o =>
    -- p->refcount_ += 1;
    if o.refcount_ = INTPTR_MAX then .error Fault.signed_overflow
    else
      let o1 : Obj := { o with refcount_ := o.refcount_ + 1 }
      -- rassert(p->refcount_ > 0);
      match rassert (decide (o1.refcount_ > 0)) with
      | .error e => .error e
      | .ok _ => .ok o1
  | .slow_shared_mixin_t, o =>
    -- DEBUG_VAR intptr_t res = __sync_add_and_fetch(&p->refcount_, 1);
    let res := wrap_intptr (o.refcount_ + 1)
    let o1 : Obj := { o with refcount_ := res }
    -- rassert(res > 0);
    match rassert (decide (res > 0)) with
    | .error e => .error e
    | .ok _ => .ok o1

/-- The function `counted_t_release`, for either mixin, on the object `p`
points to. -/
def counted_t_release : Mixin → Obj → Except Fault Obj
  | .single_threaded_shared_mixin_t, o =>
    -- rassert(p->refcount_ > 0);
    match rassert (decide (o.refcount_ > 0)) with
    | .error e => .error e
    | .ok _ =>
      -- --p->refcount_;
      let o1 : Obj := { o with refcount_ := o.refcount_ - 1 }
      -- if (p->refcount_ == 0) { delete static_cast<T *>(p); }
      if o1.refcount_ = 0 then .ok o1.delete else .ok o1
  | .slow_shared_mixin_t, o =>
    -- intptr_t res = __sync_sub_and_fetch(&p->refcount_, 1);
    let res := wrap_intptr (o.refcount_ - 1)
    let o1 : Obj := { o with refcount_ := res }
    -- rassert(res >= 0);
    match rassert (decide (res ≥ 0)) with
    | .error e => .error e
    | .ok _ =>
      -- if (res == 0) { delete static_cast<T *>(p); }
      if res = 0 then .ok o1.delete else .ok o1

/-- The function `counted_t_use_count`, for either mixin, on the object `p`
points to. -/
def counted_t_use_count : Mixin → Obj → Except Fault Int
  | .single_threaded_shared_mixin_t, o =>
    -- return p->refcount_;
    .ok o.refcount_
  | .slow_shared_mixin_t, o =>
    -- intptr_t tmp = static_cast<const volatile intptr_t&>(p->refcount_);
    let tmp := o.refcount_
    -- rassert(tmp > 0);
    match rassert (decide (tmp > 0)) with
    | .error e => .error e
    | .ok _ => .ok tmp

/-! ## Handles and program states -/

/-- A handle slot: the field `p_` (`none` is `NULL`), and whether the slot is
between its constructor and its destructor (ghost). -/
structure counted_t where
  p_ : Option Nat
  constructed : Bool
  deriving DecidableEq, Repr

/-- A program state: the heap of owned objects and the handle slots. -/
structure State where
  heap : List Obj
  handles : List counted_t
  deriving DecidableEq, Repr

/-- Number of constructed handles whose `p_` is the address `a`. -/
def State.holders (s : State) (a : Nat) : Nat :=
  s.handles.count ⟨some a, true⟩

/-- Read access to the object `p` points to. -/
def State.read_obj {α : Type} (s : State) (p : Option Nat)
    (f : Obj → Except Fault α) : Except Fault α :=
  match p with
  | none => .error Fault.null_dereference
  | some a =>
    match s.heap[a]? with
    | none => .error Fault.invalid_pointer
    | some o => f o

/-- Read-write access to the object `p` points to. -/
def State.modify_obj (s : State) (p : Option Nat)
    (f : Obj → Except Fault Obj) : Except Fault State :=
  match p with
  | none => .error Fault.null_dereference
  | some a =>
    match s.heap[a]? with
    | none => .error Fault.invalid_pointer
    | some o =>
      match f o with
      | .error e => .error e
      | .ok o1 => .ok { s with heap := s.heap.set a o1 }

/-- The handle in slot `h`, which has to be constructed. -/
def State.handle (s : State) (h : Nat) : Except Fault counted_t :=
  match s.handles[h]? with
  | none => .error Fault.dead_handle
  | some c => if c.constructed then .ok c else .error Fault.dead_handle

/-- The assignment `h.p_ = p`. -/
def State.set_p (s : State) (h : Nat) (p : Option Nat) : State :=
  { s with handles := s.handles.set h ⟨p, true⟩ }

/-- A new handle slot whose member initialiser is `p_(p)`; its index is the
former number of slots. -/
def State.new_handle (s : State) (p : Option Nat) : State :=
  { s with handles := s.handles ++ [⟨p, true⟩] }

/-- The expression `new T(args...)`: a new object at the next address, whose
mixin constructor has run. -/
def State.new_obj (s : State) : State :=
  { s with heap := s.heap ++ [Obj.fresh] }

/-! ## The member functions of `counted_t` -/

/-- The constructor `counted_t() : p_(NULL) { }`. -/
def counted_t.ctor_default (s : State) : State :=
  s.new_handle none

/-- The constructor `explicit counted_t(T *p)`. -/
def counted_t.ctor_ptr (m : Mixin) (s : State) (p : Option Nat) :
    Except Fault State :=
  -- : p_(p)
  let s1 := s.new_handle p
  -- if (p_) { counted_t_add_ref(p_); }
  match p with
  | none => .ok s1
  | some a => s1.modify_obj (some a) (counted_t_add_ref m)

/-- The constructor `counted_t(const counted_t &copyee)`. -/
def counted_t.ctor_copy (m : Mixin) (s : State) (copyee : Nat) :
    Except Fault State :=
  match s.handle copyee with
  | .error e => .error e
  | .ok c =>
    -- : p_(copyee.p_)
    let s1 := s.new_handle c.p_
    -- if (p_) { counted_t_add_ref(p_); }
    match c.p_ with
    | none => .ok s1
    | some a => s1.modify_obj (some a) (counted_t_add_ref m)

/-- The constructor `counted_t(counted_t &&movee)`; the converting constructor
from `counted_t<U> &&` has the same body. -/
def counted_t.ctor_move (s : State) (movee : Nat) : Except Fault State :=
  match s.handle movee with
  | .error e => .error e
  | .ok c =>
    -- : p_(movee.p_)
    let s1 := s.new_handle c.p_
    -- movee.p_ = NULL;
    .ok (s1.set_p movee none)

/-- The destructor `~counted_t()`. -/
def counted_t.dtor (m : Mixin) (s : State) (h : Nat) : Except Fault State :=
  match s.handle h with
  | .error e => .error e
  | .ok c =>
    -- if (p_) { counted_t_release(p_); }
    let r : Except Fault State := match c.p_ with
      | none => .ok s
      | some a => s.modify_obj (some a) (counted_t_release m)
    match r with
    | .error e => .error e
    | .ok s1 => .ok { s1 with handles := s1.handles.set h ⟨c.p_, false⟩ }

/-- The member `void swap(counted_t &other)`. -/
def counted_t.swap (s : State) (this other : Nat) : Except Fault State :=
  match s.handle this with
  | .error e => .error e
  | .ok c =>
    -- T *tmp = p_;
    let tmp := c.p_
    match s.handle other with
    | .error e => .error e
    | .ok d =>
      -- p_ = other.p_;
      let s1 := s.set_p this d.p_
      -- other.p_ = tmp;
      .ok (s1.set_p other tmp)

/-- The member `counted_t &operator=(counted_t &&other)`; the converting
assignment from `counted_t<U> &&` has the same body.  The local `tmp` is the
slot after the existing ones, and its destructor runs when it leaves scope. -/
def counted_t.assign_move (m : Mixin) (s : State) (this other : Nat) :
    Except Fault State :=
  let tmp := s.handles.length
  -- counted_t tmp(std::move(other));
  match counted_t.ctor_move s other with
  | .error e => .error e
  | .ok s1 =>
    -- swap(tmp);
    match counted_t.swap s1 this tmp with
    | .error e => .error e
    | .ok s2 =>
      -- return *this;  and tmp leaves scope
      counted_t.dtor m s2 tmp

/-- The member `counted_t &operator=(const counted_t &other)`. -/
def counted_t.assign_copy (m : Mixin) (s : State) (this other : Nat) :
    Except Fault State :=
  let tmp := s.handles.length
  -- counted_t tmp(other);
  match counted_t.ctor_copy m s other with
  | .error e => .error e
  | .ok s1 =>
    -- swap(tmp);
    match counted_t.swap s1 this tmp with
    | .error e => .error e
    | .ok s2 =>
      -- return *this;  and tmp leaves scope
      counted_t.dtor m s2 tmp

/-- The member `void reset()`. -/
def counted_t.reset (m : Mixin) (s : State) (this : Nat) : Except Fault State :=
  let tmp := s.handles.length
  -- counted_t tmp;
  let s1 := counted_t.ctor_default s
  -- swap(tmp);
  match counted_t.swap s1 this tmp with
  | .error e => .error e
  | .ok s2 =>
    -- tmp leaves scope
    counted_t.dtor m s2 tmp

/-- The member `void reset(T *other)`. -/
def counted_t.reset_ptr (m : Mixin) (s : State) (this : Nat) (other : Option Nat) :
    Except Fault State :=
  let tmp := s.handles.length
  -- counted_t tmp(other);
  match counted_t.ctor_ptr m s other with
  | .error e => .error e
  | .ok s1 =>
    -- swap(tmp);
    match counted_t.swap s1 this tmp with
    | .error e => .error e
    | .ok s2 =>
      -- tmp leaves scope
      counted_t.dtor m s2 tmp

/-- The member `T *get() const`. -/
def counted_t.get (s : State) (h : Nat) : Except Fault (Option Nat) :=
  match s.handle h with
  | .error e => .error e
  | .ok c => .ok c.p_

/-- The member `T *operator->() const`, which returns `p_` like `get()`. -/
def counted_t.arrow (s : State) (h : Nat) : Except Fault (Option Nat) :=
  counted_t.get s h

/-- The member `bool has() const`. -/
def counted_t.has (s : State) (h : Nat) : Except Fault Bool :=
  match s.handle h with
  | .error e => .error e
  | .ok c => .ok (c.p_ != none)

/-- The conversion `operator booleanesque_t*() const`:
`p_ ? &counted_t<T>::dummy_method : 0`; the result is whether the returned
pointer is non-zero. -/
def counted_t.to_booleanesque (s : State) (h : Nat) : Except Fault Bool :=
  match s.handle h with
  | .error e => .error e
  | .ok c =>
    match c.p_ with
    | some _ => .ok true
    | none => .ok false

/-- The member `bool unique() const`. -/
def counted_t.unique (m : Mixin) (s : State) (h : Nat) : Except Fault Bool :=
  match s.handle h with
  | .error e => .error e
  | .ok c =>
    -- return counted_t_use_count(p_) == 1;
    match s.read_obj c.p_ (counted_t_use_count m) with
    | .error e => .error e
    | .ok n => .ok (n == 1)

/-- The function `make_counted`: `return counted_t<T>(new T(args...));`.
The returned handle is the last slot.  With `elide = false` the temporary is
moved into the returned handle and then destroyed; with `elide = true` the
temporary is the returned handle (copy elision). -/
def make_counted (m : Mixin) (elide : Bool) (s : State) : Except Fault State :=
  let p := s.heap.length
  let tmp := s.handles.length
  -- new T(args...)
  let s1 := s.new_obj
  -- counted_t<T>( ... )
  match counted_t.ctor_ptr m s1 (some p) with
  | .error e => .error e
  | .ok s2 =>
    if elide then .ok s2
    else
      match counted_t.ctor_move s2 tmp with
      | .error e => .error e
      | .ok s3 => counted_t.dtor m s3 tmp

/-! ## Programs over handles -/

/-- One operation of a client program on handle slots: `make_counted`, the
four constructors (each makes the next slot), the destructor, `swap`, the two
assignments, `reset()` and `reset(T *)`. -/
inductive Op where
  | make_counted (elide : Bool)
  | ctor_default
  | ctor_ptr (p : Option Nat)
  | ctor_copy (copyee : Nat)
  | ctor_move (movee : Nat)
  | dtor (h : Nat)
  | swap (this other : Nat)
  | assign_move (this other : Nat)
  | assign_copy (this other : Nat)
  | reset (this : Nat)
  | reset_ptr (this : Nat) (other : Option Nat)
  deriving DecidableEq, Repr

/-- Validity of a raw pointer handed to `counted_t(T *)` or `reset(T *)`:
`NULL`, or the address of an object that is allocated and not deleted. -/
def State.valid_ptr (s : State) (p : Option Nat) : Bool :=
  match p with
  | none => true
  | some a =>
    match s.heap[a]? with
    | none => false
    | some o => o.deleted == 0

/-- Execution of one operation.  A raw pointer handed to `counted_t(T *)` or
`reset(T *)` has to be valid: a pointer to a deleted object is a dangling
pointer, whose use is undefined. -/
def step (m : Mixin) (s : State) : Op → Except Fault State
  | .make_counted elide => make_counted m elide s
  | .ctor_default => .ok (counted_t.ctor_default s)
  | .ctor_ptr p =>
    if s.valid_ptr p then counted_t.ctor_ptr m s p else .error Fault.invalid_pointer
  | .ctor_copy copyee => counted_t.ctor_copy m s copyee
  | .ctor_move movee => counted_t.ctor_move s movee
  | .dtor h => counted_t.dtor m s h
  | .swap this other => counted_t.swap s this other
  | .assign_move this other => counted_t.assign_move m s this other
  | .assign_copy this other => counted_t.assign_copy m s this other
  | .reset this => counted_t.reset m s this
  | .reset_ptr this other =>
    if s.valid_ptr other then counted_t.reset_ptr m s this other
    else .error Fault.invalid_pointer

/-- Execution of a sequence of operations, stopping at the first fault. -/
def exec (m : Mixin) (s : State) : List Op → Except Fault State
  | [] => .ok s
  | op :: ops =>
    match step m s op with
    | .error e => .error e
    | .ok s1 => exec m s1 ops

/-- The state with `n` freshly constructed objects (refcount 0) and no
handle. -/
def State.init (n : Nat) : State :=
  ⟨List.replicate n Obj.fresh, []⟩

/-- A chain of moves handing on what the handle `h` holds: each link either
move-constructs a new handle from the current one (`none`) or move-assigns the
current one to the handle `dst` (`some dst`).  The result is the final state
with the handle at the end of the chain. -/
def move_chain (m : Mixin) (s : State) (h : Nat) :
    List (Option Nat) → Except Fault (State × Nat)
  | [] => .ok (s, h)
  | none :: rest =>
    match counted_t.ctor_move s h with
    | .error e => .error e
    | .ok s1 => move_chain m s1 s.handles.length rest
  | some dst :: rest =>
    match counted_t.assign_move m s dst h with
    | .error e => .error e
    | .ok s1 => move_chain m s1 dst rest

/-- Decidable equality of results, to evaluate executions on concrete
inputs. -/
instance instDecidableEqResult {α : Type} [DecidableEq α] :
    DecidableEq (Except Fault α)
  | .ok a, .ok b =>
    if h : a = b then isTrue (by rw [h]) else isFalse (fun e => h (by injection e))
  | .error a, .error b =>
    if h : a = b then isTrue (by rw [h]) else isFalse (fun e => h (by injection e))
  | .ok _, .error _ => isFalse (fun e => by injection e)
  | .error _, .ok _ => isFalse (fun e => by injection e)

/-! ## Invariants -/

/-- The state invariant: every object's refcount is the number of handles
holding it and fits `intptr_t`, no object is deleted twice, a deleted object
has no holder, and no handle points outside the heap. -/
def Inv (s : State) : Prop :=
  (∀ (a : Nat) (o : Obj), s.heap[a]? = some o →
    o.refcount_ = (s.holders a : Int) ∧ o.refcount_ ≤ INTPTR_MAX ∧ o.deleted ≤ 1 ∧
      (o.deleted = 1 → s.holders a = 0)) ∧
  (∀ a, s.heap.length ≤ a → s.holders a = 0)

/-- The object at `a` exists and, unless deleted, is held by a handle: the
condition of an object that came out of `make_counted`. -/
def Made (a : Nat) (s : State) : Prop :=
  ∃ o : Obj, s.heap[a]? = some o ∧ (o.deleted = 0 → 0 < s.holders a)

/-- Objects persist from `s` to `s1` and their deletion counts do not
decrease. -/
def Mono (s s1 : State) : Prop :=
  ∀ (a : Nat) (o : Obj), s.heap[a]? = some o →
    ∃ o1 : Obj, s1.heap[a]? = some o1 ∧ o.deleted ≤ o1.deleted

/-- What every operation preserves, from `s` to `s1`. -/
def Pres (s s1 : State) : Prop :=
  Inv s1 ∧ Mono s s1 ∧ ∀ a, Made a s → Made a s1

end Counted

/-!
# The server lifecycle coordinator and the GC toggler (`server.hpp`)

`server.hpp` declares `server_t` and its nested `gc_toggler_t`; of their
member functions only `interrupt_message_t::on_cpu_switch` has its body in the
header.  The other bodies are modelled from the specification, under the names
the header declares.  Callbacks that collaborators deliver on their own
execution context are marshalled to the coordinator's home context, which
handles one message at a time: every handler below is one atomic step.
-/

namespace Server

/-! ## Data model -/

/-- Modelled from the spec: the Lifecycle Stage of the coordinator (the header
has no stage variable; the specification orders the stages strictly). -/
inductive Stage where
  | Idle
  | StartingLoggers
  | StartingSerializers
  | StartingStore
  | StartingAcceptor
  | Running
  | StoppingAcceptor
  | StoppingStore
  | StoppingSerializers
  | StoppingLoggers
  | FlushingMessages
  | StoppingThreads
  | Stopped
  deriving DecidableEq, Repr

/-- Modelled from the spec: the start and shutdown requests the coordinator
issues to its collaborators (log controller, serializers, store, connection
acceptor, message flush, thread pool); the collaborators are not among the
sources. -/
inductive Request where
  | start_loggers
  | start_serializer (i : Nat)
  | start_store
  | start_conn_acceptor
  | shutdown_conn_acceptor
  | shutdown_store
  | shutdown_serializer (i : Nat)
  | shutdown_loggers
  | message_flush
  | stop_threads
  deriving DecidableEq, Repr

/-- Modelled from the spec: a Serializer Slot, an entry of
`serializers[MAX_SERIALIZERS]`: whether the serializer has been created (the
pointer is non-null), its "started" flag and its "shut down" flag. -/
structure Slot where
  created : Bool
  started : Bool
  shut_down : Bool
  deriving DecidableEq, Repr

/-- The coordinator `server_t`: the number of serializers of `cmd_config`, the
stage, the slots, the completion counter `messages_out`, the interrupt
messages dispatched to the home context and not yet delivered, and the
requests issued so far (ghost). -/
structure server_t where
  n_serializers : Nat
  stage : Stage
  serializers : List Slot
  messages_out : Int
  interrupts_queued : Nat
  issued : List Request
  deriving DecidableEq, Repr

/-- Modelled from the spec: the constructor `server_t(cmd_config, tp)`: the
coordinator is created `Idle`, every slot is null and has neither flag set. -/
def server_t.ctor (n : Nat) : server_t :=
  { n_serializers := n
    stage := Stage.Idle
    serializers := List.replicate n ⟨false, false, false⟩
    messages_out := 0
    interrupts_queued := 0
    issued := [] }

/-- A request is appended to the log of issued requests. -/
def server_t.issue (s : server_t) (r : Request) : server_t :=
  { s with issued := s.issued ++ [r] }

/-! ## Startup -/

/-- Modelled from the spec: `do_start_loggers`: the coordinator moves to
`StartingLoggers` and issues a start request to the log controller. -/
def server_t.do_start_loggers (s : server_t) : server_t :=
  { s with stage := Stage.StartingLoggers }.issue Request.start_loggers

/-- Modelled from the spec: `do_start`, which begins the startup sequence. -/
def server_t.do_start (s : server_t) : server_t :=
  s.do_start_loggers

/-- Modelled from the spec: `do_start_serializers`: the coordinator moves to
`StartingSerializers` and issues a start request to every Serializer Slot;
all `N` operations are now outstanding. -/
def server_t.do_start_serializers (s : server_t) : server_t :=
  { s with
    stage := Stage.StartingSerializers
    messages_out := (s.n_serializers : Int)
    issued := s.issued ++ (List.range s.n_serializers).map Request.start_serializer }

/-- Modelled from the spec: `on_logger_ready`, the ready callback of the log
controller. -/
def server_t.on_logger_ready (s : server_t) : server_t :=
  s.do_start_serializers

/-- Modelled from the spec: `start_a_serializer(i)`, run on the slot's
execution context: the serializer of slot `i` is created and asked to
start. -/
def server_t.start_a_serializer (s : server_t) (i : Nat) : server_t :=
  match s.serializers[i]? with
  | none => s
  | some sl => { s with serializers := s.serializers.set i { sl with created := true } }

/-- Modelled from the spec: `do_start_store`: the coordinator moves to
`StartingStore` and starts the store. -/
def server_t.do_start_store (s : server_t) : server_t :=
  { s with stage := Stage.StartingStore }.issue Request.start_store

/-- Modelled from the spec: `have_started_a_serializer`, run on the home
context for every ready callback: one operation less is outstanding, and the
stage advances only once every slot has reported. -/
def server_t.have_started_a_serializer (s : server_t) : server_t :=
  let s1 := { s with messages_out := s.messages_out - 1 }
  if s1.messages_out = 0 then s1.do_start_store else s1

/-- Modelled from the spec: `on_serializer_ready`, the ready callback of the
serializer of slot `i`: the slot's "started" flag is set and the report is
marshalled to the home context. -/
def server_t.on_serializer_ready (s : server_t) (i : Nat) : server_t :=
  match s.serializers[i]? with
  | none => s.have_started_a_serializer
  | some sl =>
    { s with serializers := s.serializers.set i { sl with started := true }
      }.have_started_a_serializer

/-- Modelled from the spec: `do_start_conn_acceptor`: the coordinator moves to
`StartingAcceptor` and starts the connection acceptor. -/
def server_t.do_start_conn_acceptor (s : server_t) : server_t :=
  { s with stage := Stage.StartingAcceptor }.issue Request.start_conn_acceptor

/-- Modelled from the spec: `on_store_ready`, the ready callback of the
store. -/
def server_t.on_store_ready (s : server_t) : server_t :=
  s.do_start_conn_acceptor

/-- Modelled from the spec: the ready signal of the connection acceptor, on
which the coordinator reaches `Running`. -/
def server_t.on_conn_acceptor_ready (s : server_t) : server_t :=
  { s with stage := Stage.Running }

/-! ## Shutdown -/

/-- Modelled from the spec: `shutdown()`, callable from any execution
context (`from_home` tells whether the caller is on the home context): it
dispatches the interrupt message to the home context and mutates nothing
else. -/
def server_t.shutdown (s : server_t) (_from_home : Bool) : server_t :=
  { s with interrupts_queued := s.interrupts_queued + 1 }

/-- Modelled from the spec: `do_shutdown_conn_acceptor`: the coordinator moves
to `StoppingAcceptor` and stops the connection acceptor. -/
def server_t.do_shutdown_conn_acceptor (s : server_t) : server_t :=
  { s with stage := Stage.StoppingAcceptor }.issue Request.shutdown_conn_acceptor

/-- Modelled from the spec: `do_shutdown`, which runs the shutdown sequence;
it has no guard on the current stage. -/
def server_t.do_shutdown (s : server_t) : server_t :=
  s.do_shutdown_conn_acceptor

/-- The handler `interrupt_message_t::on_cpu_switch`, whose body is in the
header: `server->do_shutdown();`. -/
def interrupt_message_t.on_cpu_switch (server : server_t) : server_t :=
  server.do_shutdown

/-- Modelled from the spec: delivery by Cross-Context Dispatch of a queued
interrupt message to the home context, which runs its handler. -/
def server_t.deliver_interrupt (s : server_t) : server_t :=
  match s.interrupts_queued with
  | 0 => s
  | n + 1 => interrupt_message_t.on_cpu_switch { s with interrupts_queued := n }

/-- Modelled from the spec: `do_shutdown_store`: the coordinator moves to
`StoppingStore` and stops the store. -/
def server_t.do_shutdown_store (s : server_t) : server_t :=
  { s with stage := Stage.StoppingStore }.issue Request.shutdown_store

/-- Modelled from the spec: `on_conn_acceptor_shutdown`, the shutdown callback
of the connection acceptor. -/
def server_t.on_conn_acceptor_shutdown (s : server_t) : server_t :=
  s.do_shutdown_store

/-- Modelled from the spec: `do_shutdown_serializers`: the coordinator moves
to `StoppingSerializers` and issues a shutdown request to every slot; all `N`
confirmations are now outstanding. -/
def server_t.do_shutdown_serializers (s : server_t) : server_t :=
  { s with
    stage := Stage.StoppingSerializers
    messages_out := (s.n_serializers : Int)
    issued := s.issued ++ (List.range s.n_serializers).map Request.shutdown_serializer }

/-- Modelled from the spec: `on_store_shutdown`, the shutdown callback of the
store. -/
def server_t.on_store_shutdown (s : server_t) : server_t :=
  s.do_shutdown_serializers

/-- Modelled from the spec: `shutdown_a_serializer(i)`, run on the slot's
execution context: the serializer of slot `i` is asked to shut down; the
coordinator's own state does not change. -/
def server_t.shutdown_a_serializer (s : server_t) (_i : Nat) : server_t :=
  s

/-- Modelled from the spec: `do_shutdown_loggers`: the coordinator moves to
`StoppingLoggers` and stops the log controller. -/
def server_t.do_shutdown_loggers (s : server_t) : server_t :=
  { s with stage := Stage.StoppingLoggers }.issue Request.shutdown_loggers

/-- Modelled from the spec: `have_shutdown_a_serializer`, run on the home
context for every shutdown confirmation: one confirmation less is
outstanding, and the stage advances only once every slot has confirmed. -/
def server_t.have_shutdown_a_serializer (s : server_t) : server_t :=
  let s1 := { s with messages_out := s.messages_out - 1 }
  if s1.messages_out = 0 then s1.do_shutdown_loggers else s1

/-- Modelled from the spec: `on_serializer_shutdown`, the shutdown callback of
the serializer of slot `i`: the slot's "shut down" flag is set, its serializer
is released, and the confirmation is marshalled to the home context. -/
def server_t.on_serializer_shutdown (s : server_t) (i : Nat) : server_t :=
  match s.serializers[i]? with
  | none => s.have_shutdown_a_serializer
  | some sl =>
    { s with serializers := s.serializers.set i { sl with created := false, shut_down := true }
      }.have_shutdown_a_serializer

/-- Modelled from the spec: `do_message_flush`: the coordinator moves to
`FlushingMessages` and starts the final message flush. -/
def server_t.do_message_flush (s : server_t) : server_t :=
  { s with stage := Stage.FlushingMessages }.issue Request.message_flush

/-- Modelled from the spec: `on_logger_shutdown`, the shutdown callback of the
log controller. -/
def server_t.on_logger_shutdown (s : server_t) : server_t :=
  s.do_message_flush

/-- Modelled from the spec: `do_stop_threads`: the coordinator moves to
`StoppingThreads` and has the surrounding pool of execution contexts
stopped. -/
def server_t.do_stop_threads (s : server_t) : server_t :=
  { s with stage := Stage.StoppingThreads }.issue Request.stop_threads

/-- Modelled from the spec: `on_message_flush`, the completion of the message
flush. -/
def server_t.on_message_flush (s : server_t) : server_t :=
  s.do_stop_threads

/-- Modelled from the spec: the pool of execution contexts has stopped and the
coordinator reaches `Stopped`. -/
def server_t.on_threads_stopped (s : server_t) : server_t :=
  { s with stage := Stage.Stopped }

/-! ## Runs of the coordinator -/

/-- The calls and callbacks the coordinator receives. -/
inductive Event where
  | do_start
  | logger_ready
  | start_a_serializer (i : Nat)
  | serializer_ready (i : Nat)
  | store_ready
  | conn_acceptor_ready
  | shutdown (from_home : Bool)
  | interrupt_delivered
  | conn_acceptor_shutdown
  | store_shutdown
  | shutdown_a_serializer (i : Nat)
  | serializer_shutdown (i : Nat)
  | logger_shutdown
  | message_flushed
  | threads_stopped
  deriving DecidableEq, Repr

/-- The coordinator's reaction to one event. -/
def server_t.handle (s : server_t) : Event → server_t
  | .do_start => s.do_start
  | .logger_ready => s.on_logger_ready
  | .start_a_serializer i => s.start_a_serializer i
  | .serializer_ready i => s.on_serializer_ready i
  | .store_ready => s.on_store_ready
  | .conn_acceptor_ready => s.on_conn_acceptor_ready
  | .shutdown h => s.shutdown h
  | .interrupt_delivered => s.deliver_interrupt
  | .conn_acceptor_shutdown => s.on_conn_acceptor_shutdown
  | .store_shutdown => s.on_store_shutdown
  | .shutdown_a_serializer i => s.shutdown_a_serializer i
  | .serializer_shutdown i => s.on_serializer_shutdown i
  | .logger_shutdown => s.on_logger_shutdown
  | .message_flushed => s.on_message_flush
  | .threads_stopped => s.on_threads_stopped

/-- The coordinator's reaction to a sequence of events, in order. -/
def server_t.run (s : server_t) : List Event → server_t
  | [] => s
  | e :: es => (s.handle e).run es

/-- Whether the slot `i` has its "started" flag set. -/
def server_t.slot_started (s : server_t) (i : Nat) : Bool :=
  match s.serializers[i]? with
  | none => false
  | some sl => sl.started

/-- Whether the slot `i` has its "shut down" flag set. -/
def server_t.slot_shut_down (s : server_t) (i : Nat) : Bool :=
  match s.serializers[i]? with
  | none => false
  | some sl => sl.shut_down

/-- The events of the `StartingSerializers` stage: a serializer being created
on its own context, or a ready callback. -/
def Event.is_serializer_startup : Event → Bool
  | .start_a_serializer _ => true
  | .serializer_ready _ => true
  | _ => false

/-- The slots whose ready callbacks occur in a sequence of events, in order of
arrival. -/
def ready_slots : List Event → List Nat
  | [] => []
  | .serializer_ready i :: es => i :: ready_slots es
  | _ :: es => ready_slots es

/-- The events of the `StoppingSerializers` stage: a serializer being asked to
shut down on its own context, or a shutdown callback. -/
def Event.is_serializer_shutdown : Event → Bool
  | .shutdown_a_serializer _ => true
  | .serializer_shutdown _ => true
  | _ => false

/-- The slots whose shutdown callbacks occur in a sequence of events, in order
of arrival. -/
def shutdown_slots : List Event → List Nat
  | [] => []
  | .serializer_shutdown i :: es => i :: shutdown_slots es
  | _ :: es => shutdown_slots es

/-! ## The GC toggler -/

/-- The callback `all_gc_disabled_callback_t` of the header: its flag
`multiple_users_seen`, and the identity of the callback object (ghost). -/
structure all_gc_disabled_callback_t where
  id : Nat
  multiple_users_seen : Bool
  deriving DecidableEq, Repr

/-- The constructor `all_gc_disabled_callback_t() : multiple_users_seen(false)`
of the header. -/
def all_gc_disabled_callback_t.ctor (id : Nat) : all_gc_disabled_callback_t :=
  ⟨id, false⟩

/-- Modelled from the spec: the toggler marks a callback with
`multiple_users_seen = true`. -/
def all_gc_disabled_callback_t.mark (cb : all_gc_disabled_callback_t) :
    all_gc_disabled_callback_t :=
  { cb with multiple_users_seen := true }

/-- The enumeration `toggle_state_t` of the header. -/
inductive toggle_state_t where
  | enabled
  | disabling
  | disabled
  deriving DecidableEq, Repr

/-- Modelled from the spec: a request the toggler issues to the serializer of
slot `i` (the serializers are not among the sources). -/
inductive GcRequest where
  | disable_gc (i : Nat)
  | enable_gc (i : Nat)
  deriving DecidableEq, Repr

/-- The toggler `gc_toggler_t` of the header: `state_`,
`num_disabled_serializers_` and `callbacks_`; the number of serializers it
reads through `server_`; and, as ghost state, the invocations of
`on_gc_disabled()` made so far (each callback with the flag it carried) and
the requests issued to the serializers. -/
structure gc_toggler_t where
  state_ : toggle_state_t
  num_disabled_serializers_ : Int
  callbacks_ : List all_gc_disabled_callback_t
  n_serializers : Nat
  invoked : List all_gc_disabled_callback_t
  requests : List GcRequest
  deriving DecidableEq, Repr

/-- Modelled from the spec: the constructor `gc_toggler_t(server_t *)`: GC is
enabled and no callback is pending. -/
def gc_toggler_t.ctor (n : Nat) : gc_toggler_t :=
  { state_ := toggle_state_t.enabled
    num_disabled_serializers_ := 0
    callbacks_ := []
    n_serializers := n
    invoked := []
    requests := [] }

/-- Modelled from the spec: the original requester's callback, the first of
the queue, is marked with `multiple_users_seen = true`. -/
def mark_original : List all_gc_disabled_callback_t → List all_gc_disabled_callback_t
  | [] => []
  | cb :: rest => cb.mark :: rest

/-- Modelled from the spec: `gc_toggler_t::disable_gc(cb)`; the result tells
whether the callback fired synchronously.
* `Enabled`: transition to `Disabling`, reset the confirmation count to zero,
  enqueue the callback, issue a disable request to every serializer.
* `Disabling`: enqueue the callback, and mark it and the original requester's
  callback with `multiple_users_seen = true`.
* `Disabled`: invoke the callback immediately, with `multiple_users_seen =
  true` if another caller is tracked in the queue and `false` otherwise. -/
def gc_toggler_t.disable_gc (t : gc_toggler_t) (cb : all_gc_disabled_callback_t) :
    gc_toggler_t × Bool :=
  match t.state_ with
  | .enabled =>
    ({ t with
       state_ := toggle_state_t.disabling
       num_disabled_serializers_ := 0
       callbacks_ := t.callbacks_ ++ [cb]
       requests := t.requests ++ (List.range t.n_serializers).map GcRequest.disable_gc },
     false)
  | .disabling =>
    ({ t with callbacks_ := mark_original t.callbacks_ ++ [cb.mark] }, false)
  | .disabled =>
    ({ t with
       invoked := t.invoked ++ [{ cb with multiple_users_seen := !t.callbacks_.isEmpty }] },
     true)

/-- Modelled from the spec: `gc_toggler_t::on_gc_disabled()`, the disable
confirmation of one serializer: the confirmation count goes up by one; when it
reaches `N` the state becomes `Disabled` and `on_gc_disabled()` is invoked once
on every queued callback, which carries its flag.  The callbacks stay in the
queue until `enable_gc`, which reports how many callers had been waiting. -/
def gc_toggler_t.on_gc_disabled (t : gc_toggler_t) : gc_toggler_t :=
  let t1 := { t with num_disabled_serializers_ := t.num_disabled_serializers_ + 1 }
  if t1.num_disabled_serializers_ = (t1.n_serializers : Int) then
    { t1 with
      state_ := toggle_state_t.disabled
      invoked := t1.invoked ++ t1.callbacks_ }
  else t1

/-- Modelled from the spec: `gc_toggler_t::enable_gc(out_multiple_users)`,
valid only from `Disabled` (anything else is a contract violation, `none`):
an enable request goes to every serializer, the state returns to `Enabled`
without waiting for confirmations, the result tells whether more than one
caller had been waiting on the disable queue, and the queue is emptied. -/
def gc_toggler_t.enable_gc (t : gc_toggler_t) : Option (gc_toggler_t × Bool) :=
  match t.state_ with
  | .disabled =>
    some ({ t with
            state_ := toggle_state_t.enabled
            callbacks_ := []
            requests := t.requests ++ (List.range t.n_serializers).map GcRequest.enable_gc },
          decide (1 < t.callbacks_.length))
  | _ => none

/-- The calls and confirmations the toggler receives while GC is being
disabled. -/
inductive GcEvent where
  | disable_gc (cb : all_gc_disabled_callback_t)
  | confirmation
  deriving DecidableEq, Repr

/-- The toggler's reaction to one event. -/
def gc_toggler_t.handle (t : gc_toggler_t) : GcEvent → gc_toggler_t
  | .disable_gc cb => (t.disable_gc cb).1
  | .confirmation => t.on_gc_disabled

/-- The toggler's reaction to a sequence of events, in order. -/
def gc_toggler_t.run (t : gc_toggler_t) : List GcEvent → gc_toggler_t
  | [] => t
  | e :: es => (t.handle e).run es

/-- The callbacks passed to `disable_gc` in a sequence of events, in order. -/
def disable_calls : List GcEvent → List all_gc_disabled_callback_t
  | [] => []
  | .disable_gc cb :: es => cb :: disable_calls es
  | .confirmation :: es => disable_calls es

/-- The number of confirmations in a sequence of events. -/
def confirmations : List GcEvent → Nat
  | [] => 0
  | .confirmation :: es => confirmations es + 1
  | .disable_gc _ :: es => confirmations es

end Server

namespace Counted

/-! ## Arithmetic of the two mixins -/


theorem wrap_intptr_eq {x : Int} (h1 : INTPTR_MIN ≤ x) (h2 : x ≤ INTPTR_MAX) :
    wrap_intptr x = x := by
  unfold wrap_intptr
  unfold INTPTR_MIN at h1
  unfold INTPTR_MAX at h2
  omega

theorem count_set_add {α : Type} [DecidableEq α] (l : List α) (i : Nat) (x y c : α)
    (h : l[i]? = some c) :
    (l.set i y).count x + (if c = x then 1 else 0) = l.count x + (if y = x then 1 else 0) := by
  induction l generalizing i with
  | nil => simp at h
  | cons z t ih =>
    cases i with
    | zero =>
      simp at h
      subst h
      simp [List.count_cons]
      omega
    | succ j =>
      simp at h
      have := ih j h
      simp [List.count_cons]
      omega

theorem count_pos_of_get {α : Type} [DecidableEq α] (l : List α) (i : Nat) (c : α)
    (h : l[i]? = some c) : 0 < l.count c := by
  rw [List.count_pos_iff]
  exact List.getElem?_mem h

theorem add_ref_ok (m : Mixin) (o : Obj) (h0 : 0 ≤ o.refcount_) (h1 : o.refcount_ < INTPTR_MAX) :
    counted_t_add_ref m o = .ok ⟨o.refcount_ + 1, o.deleted⟩ := by
  have hw : wrap_intptr (o.refcount_ + 1) = o.refcount_ + 1 :=
    wrap_intptr_eq (by unfold INTPTR_MIN; omega) (by omega)
  have hp : 0 < o.refcount_ + 1 := by omega
  have hne : o.refcount_ ≠ INTPTR_MAX := by omega
  cases m <;> simp [counted_t_add_ref, rassert, hw, hp, hne]

theorem add_ref_inv (m : Mixin) (o o1 : Obj) (h0 : 0 ≤ o.refcount_) (h1 : o.refcount_ ≤ INTPTR_MAX)
    (h : counted_t_add_ref m o = .ok o1) :
    o.refcount_ < INTPTR_MAX ∧ o1 = ⟨o.refcount_ + 1, o.deleted⟩ := by
  by_cases hlt : o.refcount_ < INTPTR_MAX
  · rw [add_ref_ok m o h0 hlt] at h
    exact ⟨hlt, by injection h with h; exact h.symm⟩
  · have he : o.refcount_ = INTPTR_MAX := by omega
    exfalso
    cases m
    · simp [counted_t_add_ref, he] at h
    · simp [counted_t_add_ref, he, rassert, wrap_intptr, INTPTR_MAX] at h

theorem release_ok (m : Mixin) (o : Obj) (h0 : 0 < o.refcount_) (h1 : o.refcount_ ≤ INTPTR_MAX) :
    counted_t_release m o =
      .ok ⟨o.refcount_ - 1, if o.refcount_ = 1 then o.deleted + 1 else o.deleted⟩ := by
  have hw : wrap_intptr (o.refcount_ - 1) = o.refcount_ - 1 :=
    wrap_intptr_eq (by unfold INTPTR_MIN; omega) (by omega)
  have hp : 0 ≤ o.refcount_ - 1 := by omega
  by_cases h : o.refcount_ = 1
  · have hz : wrap_intptr 0 = 0 := by decide
    cases m <;> simp [counted_t_release, rassert, hz, h, Obj.delete]
  · have h2 : o.refcount_ - 1 ≠ 0 := by omega
    cases m <;> simp [counted_t_release, rassert, hw, hp, h0, h, h2]

/-! ## Preservation of the invariant -/


theorem Pres.trans {s s1 s2 : State} (h1 : Pres s s1) (h2 : Pres s1 s2) : Pres s s2 := by
  refine ⟨h2.1, ?_, fun a h => h2.2.2 a (h1.2.2 a h)⟩
  intro a o ho
  obtain ⟨o1, ho1, hd1⟩ := h1.2.1 a o ho
  obtain ⟨o2, ho2, hd2⟩ := h2.2.1 a o1 ho1
  exact ⟨o2, ho2, le_trans hd1 hd2⟩

theorem handle_ok {s : State} {h : Nat} {c : counted_t} (hc : s.handle h = .ok c) :
    s.handles[h]? = some c ∧ c.constructed = true := by
  unfold State.handle at hc
  cases hh : s.handles[h]? with
  | none => simp [hh] at hc
  | some d =>
    simp [hh] at hc
    by_cases hd : d.constructed = true
    · simp [hd] at hc
      subst hc
      exact ⟨rfl, hd⟩
    · simp [hd] at hc

theorem handle_ok_eta {s : State} {h : Nat} {c : counted_t} (hc : s.handle h = .ok c) :
    s.handles[h]? = some ⟨c.p_, true⟩ := by
  obtain ⟨h1, h2⟩ := handle_ok hc
  rw [h1]
  cases c
  simp_all

theorem holders_new_handle (s : State) (p : Option Nat) (a : Nat) :
    (s.new_handle p).holders a = s.holders a + if p = some a then 1 else 0 := by
  simp [State.holders, State.new_handle, List.count_append, List.count_cons]

theorem holders_set (s : State) (h : Nat) (p : Option Nat) (y : counted_t) (a : Nat)
    (hc : s.handles[h]? = some ⟨p, true⟩) :
    (List.count ⟨some a, true⟩ (s.handles.set h y)) + (if p = some a then 1 else 0) =
      s.holders a + (if y = ⟨some a, true⟩ then 1 else 0) := by
  have := count_set_add s.handles h ⟨some a, true⟩ y ⟨p, true⟩ hc
  simp [State.holders]
  simp at this
  omega

theorem pres_same {s s' : State} (hi : Inv s) (hh : s'.heap = s.heap)
    (hc : ∀ a, s'.holders a = s.holders a) : Pres s s' := by
  refine ⟨?_, ?_, ?_⟩
  · refine ⟨?_, ?_⟩
    · intro a o ho
      rw [hh] at ho
      rw [hc a]
      exact hi.1 a o ho
    · intro a ha
      rw [hh] at ha
      rw [hc a]
      exact hi.2 a ha
  · intro a o ho
    exact ⟨o, by rw [hh]; exact ho, le_refl _⟩
  · rintro a ⟨o, ho, hp⟩
    exact ⟨o, by rw [hh]; exact ho, by rw [hc a]; exact hp⟩

theorem pres_acquire {s s' : State} {a : Nat} {o : Obj} (hi : Inv s)
    (ho : s.heap[a]? = some o) (hd : o.deleted = 0) (hlt : o.refcount_ < INTPTR_MAX)
    (hh : s'.heap = s.heap.set a ⟨o.refcount_ + 1, o.deleted⟩)
    (hc : ∀ b, s'.holders b = s.holders b + if b = a then 1 else 0) :
    Pres s s' ∧ Made a s' := by
  have hlen : a < s.heap.length := by
    rcases List.getElem?_eq_some.mp ho with ⟨h, _⟩
    exact h
  have hget : ∀ b, s'.heap[b]? = if a = b then some ⟨o.refcount_ + 1, o.deleted⟩ else s.heap[b]? := by
    intro b
    rw [hh, List.getElem?_set]
    simp [hlen]
  refine ⟨⟨⟨?_, ?_⟩, ?_, ?_⟩, ?_⟩
  · intro b o' ho'
    rw [hget b] at ho'
    rw [hc b]
    by_cases hab : a = b
    · subst hab
      simp at ho'
      subst ho'
      have := hi.1 a o ho
      simp
      refine ⟨by omega, by omega, by omega, by omega⟩
    · simp [hab] at ho'
      have := hi.1 b o' ho'
      have hba : ¬ b = a := fun h => hab h.symm
      simpa [hba] using this
  · intro b hb
    rw [hh, List.length_set] at hb
    rw [hc b]
    have : ¬ b = a := by omega
    simp [this]
    exact hi.2 b hb
  · intro b o' ho'
    rw [hget b]
    by_cases hab : a = b
    · subst hab
      rw [ho] at ho'
      injection ho' with ho'
      subst ho'
      exact ⟨⟨o.refcount_ + 1, o.deleted⟩, by simp, le_refl _⟩
    · exact ⟨o', by simp [hab, ho'], le_refl _⟩
  · rintro b ⟨o', ho', hp⟩
    by_cases hab : a = b
    · subst hab
      exact ⟨⟨o.refcount_ + 1, o.deleted⟩, by rw [hget]; simp, by intro; rw [hc a]; simp⟩
    · exact ⟨o', by rw [hget]; simp [hab, ho'], by intro h; have := hp h; rw [hc b]; omega⟩
  · exact ⟨⟨o.refcount_ + 1, o.deleted⟩, by rw [hget]; simp, by intro; rw [hc a]; simp⟩

theorem pres_release {s s' : State} {a : Nat} {o : Obj} (hi : Inv s)
    (ho : s.heap[a]? = some o) (hpos : 0 < s.holders a)
    (hh : s'.heap = s.heap.set a
      ⟨o.refcount_ - 1, if o.refcount_ = 1 then o.deleted + 1 else o.deleted⟩)
    (hc : ∀ b, s'.holders b + (if b = a then 1 else 0) = s.holders b) :
    Pres s s' := by
  have hlen : a < s.heap.length := by
    rcases List.getElem?_eq_some.mp ho with ⟨h, _⟩
    exact h
  have hget : ∀ b, s'.heap[b]? = if a = b then
      some ⟨o.refcount_ - 1, if o.refcount_ = 1 then o.deleted + 1 else o.deleted⟩
      else s.heap[b]? := by
    intro b
    rw [hh, List.getElem?_set]
    simp [hlen]
  have hia := hi.1 a o ho
  have hca := hc a
  simp at hca
  refine ⟨⟨?_, ?_⟩, ?_, ?_⟩
  · intro b o' ho'
    rw [hget b] at ho'
    by_cases hab : a = b
    · subst hab
      simp at ho'
      subst ho'
      simp
      by_cases h1 : o.refcount_ = 1
      · simp [h1]
        omega
      · simp [h1]
        omega
    · simp [hab] at ho'
      have := hi.1 b o' ho'
      have hba : ¬ b = a := fun h => hab h.symm
      have hcb := hc b
      simp [hba] at hcb
      rw [hcb]
      exact this
  · intro b hb
    rw [hh, List.length_set] at hb
    have hcb := hc b
    have : ¬ b = a := by omega
    simp [this] at hcb
    rw [hcb]
    exact hi.2 b hb
  · intro b o' ho'
    rw [hget b]
    by_cases hab : a = b
    · subst hab
      rw [ho] at ho'
      injection ho' with ho'
      subst ho'
      refine ⟨⟨o.refcount_ - 1, if o.refcount_ = 1 then o.deleted + 1 else o.deleted⟩,
        by simp, ?_⟩
      simp
      split_ifs <;> omega
    · exact ⟨o', by simp [hab, ho'], le_refl _⟩
  · rintro b ⟨o', ho', hp⟩
    by_cases hab : a = b
    · subst hab
      rw [ho] at ho'
      injection ho' with ho'
      subst ho'
      refine ⟨⟨o.refcount_ - 1, if o.refcount_ = 1 then o.deleted + 1 else o.deleted⟩,
        by rw [hget]; simp, ?_⟩
      simp
      by_cases h1 : o.refcount_ = 1
      · simp [h1]
      · simp [h1]
        intro hd
        omega
    · have hba : ¬ b = a := fun h => hab h.symm
      have hcb := hc b
      simp [hba] at hcb
      exact ⟨o', by rw [hget]; simp [hab, ho'], by rw [hcb]; exact hp⟩

theorem pres_new_obj {s : State} (hi : Inv s) : Pres s s.new_obj := by
  have hget : ∀ b, b < s.heap.length → s.new_obj.heap[b]? = s.heap[b]? := by
    intro b hb
    simp [State.new_obj, List.getElem?_append, hb]
  have hc : ∀ b, s.new_obj.holders b = s.holders b := fun b => rfl
  refine ⟨⟨?_, ?_⟩, ?_, ?_⟩
  · intro b o ho
    rw [hc b]
    by_cases hb : b < s.heap.length
    · rw [hget b hb] at ho
      exact hi.1 b o ho
    · have h0 := hi.2 b (by omega)
      simp [State.new_obj, List.getElem?_append, hb] at ho
      rcases List.getElem?_eq_some.mp ho with ⟨h, he⟩
      simp at h
      have : b - s.heap.length = 0 := by omega
      simp [this] at he
      subst he
      simp [Obj.fresh, h0, INTPTR_MAX]
  · intro b hb
    simp [State.new_obj] at hb
    rw [hc b]
    exact hi.2 b (by omega)
  · intro b o ho
    have hb : b < s.heap.length := by
      rcases List.getElem?_eq_some.mp ho with ⟨h, _⟩
      exact h
    exact ⟨o, by rw [hget b hb]; exact ho, le_refl _⟩
  · rintro b ⟨o, ho, hp⟩
    have hb : b < s.heap.length := by
      rcases List.getElem?_eq_some.mp ho with ⟨h, _⟩
      exact h
    exact ⟨o, by rw [hget b hb]; exact ho, by rw [hc b]; exact hp⟩

theorem inv_held {s : State} {h : Nat} {c : counted_t} {a : Nat} (hi : Inv s)
    (hc : s.handle h = .ok c) (hp : c.p_ = some a) :
    ∃ o : Obj, s.heap[a]? = some o ∧ 0 < s.holders a ∧ o.refcount_ = (s.holders a : Int) ∧
      o.refcount_ ≤ INTPTR_MAX ∧ o.deleted = 0 := by
  have hget := handle_ok_eta hc
  rw [hp] at hget
  have hpos : 0 < s.holders a := count_pos_of_get _ _ _ hget
  have hlen : a < s.heap.length := by
    by_contra hn
    have := hi.2 a (by omega)
    omega
  have ho : s.heap[a]? = some s.heap[a] := List.getElem?_eq_getElem hlen
  obtain ⟨h1, h2, h3, h4⟩ := hi.1 a _ ho
  refine ⟨_, ho, hpos, h1, h2, ?_⟩
  by_contra hd
  have := h4 (by omega)
  omega

theorem modify_obj_ok {s : State} {a : Nat} {o o1 : Obj} {f : Obj → Except Fault Obj}
    (ho : s.heap[a]? = some o) (hf : f o = .ok o1) :
    s.modify_obj (some a) f = .ok ⟨s.heap.set a o1, s.handles⟩ := by
  simp [State.modify_obj, ho, hf]

theorem modify_obj_inv {s s' : State} {a : Nat} {o : Obj} {f : Obj → Except Fault Obj}
    (ho : s.heap[a]? = some o) (h : s.modify_obj (some a) f = .ok s') :
    ∃ o1, f o = .ok o1 ∧ s' = ⟨s.heap.set a o1, s.handles⟩ := by
  simp only [State.modify_obj, ho] at h
  cases hf : f o with
  | error e => simp [hf] at h
  | ok o1 =>
    simp [hf] at h
    exact ⟨o1, rfl, h.symm⟩

/-- Effect of the acquiring constructors on a state satisfying the invariant. -/
theorem acquire_pres {m : Mixin} {s s' : State} {a : Nat} {o : Obj} (hi : Inv s)
    (ho : s.heap[a]? = some o) (hd : o.deleted = 0)
    (h : (s.new_handle (some a)).modify_obj (some a) (counted_t_add_ref m) = .ok s') :
    o.refcount_ < INTPTR_MAX ∧
    s' = ⟨s.heap.set a ⟨o.refcount_ + 1, o.deleted⟩, s.handles ++ [⟨some a, true⟩]⟩ ∧
    Pres s s' ∧ Made a s' := by
  have ho1 : (s.new_handle (some a)).heap[a]? = some o := ho
  obtain ⟨o1, hf, hs⟩ := modify_obj_inv ho1 h
  obtain ⟨h1, h2, _, _⟩ := hi.1 a o ho
  obtain ⟨hlt, ho1e⟩ := add_ref_inv m o o1 (by omega) h2 hf
  subst ho1e
  have hs2 : s' = ⟨s.heap.set a ⟨o.refcount_ + 1, o.deleted⟩, s.handles ++ [⟨some a, true⟩]⟩ := hs
  refine ⟨hlt, hs2, ?_⟩
  apply pres_acquire hi ho hd hlt
  · rw [hs2]
  · intro b
    rw [hs2]
    have := holders_new_handle s (some a) b
    simp [State.new_handle] at this
    simp [State.holders] at *
    rw [this]
    by_cases hab : a = b
    · subst hab; simp
    · have : ¬ b = a := fun h => hab h.symm
      simp [hab, this]

theorem ctor_default_pres {s : State} (hi : Inv s) : Pres s (counted_t.ctor_default s) := by
  refine pres_same hi rfl ?_
  intro a
  simp [counted_t.ctor_default, holders_new_handle]

theorem ctor_ptr_pres {m : Mixin} {s s' : State} {p : Option Nat} (hi : Inv s)
    (hv : s.valid_ptr p = true) (h : counted_t.ctor_ptr m s p = .ok s') : Pres s s' := by
  cases p with
  | none =>
    simp [counted_t.ctor_ptr] at h
    subst h
    exact ctor_default_pres hi
  | some a =>
    simp only [State.valid_ptr] at hv
    cases ho : s.heap[a]? with
    | none => simp [ho] at hv
    | some o =>
      simp [ho] at hv
      simp only [counted_t.ctor_ptr] at h
      exact (acquire_pres hi ho hv h).2.2.1

theorem ctor_copy_pres {m : Mixin} {s s' : State} {copyee : Nat} (hi : Inv s)
    (h : counted_t.ctor_copy m s copyee = .ok s') : Pres s s' := by
  unfold counted_t.ctor_copy at h
  cases hc : s.handle copyee with
  | error e => simp [hc] at h
  | ok c =>
    simp only [hc] at h
    cases hp : c.p_ with
    | none =>
      simp [hp] at h
      subst h
      exact ctor_default_pres hi
    | some a =>
      simp only [hp] at h
      obtain ⟨o, ho, _, _, _, hd⟩ := inv_held hi hc hp
      exact (acquire_pres hi ho hd h).2.2.1

theorem holders_move (s : State) (movee : Nat) (c : counted_t) (a : Nat)
    (hc : s.handle movee = .ok c) :
    List.count (counted_t.mk (some a) true)
        ((s.handles ++ [counted_t.mk c.p_ true]).set movee (counted_t.mk none true)) =
      s.holders a := by
  have hget := handle_ok_eta hc
  have hlen : movee < s.handles.length := by
    rcases List.getElem?_eq_some.mp hget with ⟨h, _⟩
    exact h
  have hget2 : (s.new_handle c.p_).handles[movee]? = some ⟨c.p_, true⟩ := by
    simp [State.new_handle, List.getElem?_append, hlen, hget]
  have h1 := holders_set (s.new_handle c.p_) movee c.p_ ⟨none, true⟩ a hget2
  have h2 := holders_new_handle s c.p_ a
  simp [State.new_handle] at h1
  simp [State.new_handle] at h2
  omega

theorem ctor_move_eq {s : State} {movee : Nat} {c : counted_t} (hc : s.handle movee = .ok c) :
    counted_t.ctor_move s movee =
      .ok ⟨s.heap, (s.handles ++ [counted_t.mk c.p_ true]).set movee ⟨none, true⟩⟩ := by
  simp [counted_t.ctor_move, hc, State.set_p, State.new_handle]

theorem ctor_move_pres {s s' : State} {movee : Nat} (hi : Inv s)
    (h : counted_t.ctor_move s movee = .ok s') : Pres s s' := by
  cases hc : s.handle movee with
  | error e => simp [counted_t.ctor_move, hc] at h
  | ok c =>
    rw [ctor_move_eq hc] at h
    injection h with h
    subst h
    refine pres_same hi rfl ?_
    intro a
    exact holders_move s movee c a hc

theorem swap_eq {s : State} {this other : Nat} {c d : counted_t}
    (hc : s.handle this = .ok c) (hd : s.handle other = .ok d) :
    counted_t.swap s this other =
      .ok ⟨s.heap, (s.handles.set this ⟨d.p_, true⟩).set other ⟨c.p_, true⟩⟩ := by
  simp [counted_t.swap, hc, hd, State.set_p]

theorem holders_swap (s : State) (this other : Nat) (c d : counted_t) (a : Nat)
    (hc : s.handle this = .ok c) (hd : s.handle other = .ok d) :
    List.count (counted_t.mk (some a) true)
        ((s.handles.set this (counted_t.mk d.p_ true)).set other (counted_t.mk c.p_ true)) =
      s.holders a := by
  have hgc := handle_ok_eta hc
  have hgd := handle_ok_eta hd
  have hlen : this < s.handles.length := by
    rcases List.getElem?_eq_some.mp hgc with ⟨h, _⟩
    exact h
  have h1 := holders_set s this c.p_ ⟨d.p_, true⟩ a hgc
  by_cases hto : this = other
  · subst hto
    have hcd : c = d := by
      rw [hc] at hd
      injection hd
    subst hcd
    rw [List.set_set]
    have := holders_set s this c.p_ ⟨c.p_, true⟩ a hgc
    simp at this
    omega
  · have hget2 : (s.set_p this d.p_).handles[other]? = some ⟨d.p_, true⟩ := by
      simp [State.set_p, List.getElem?_set, hto, hgd]
    have h2 := holders_set (s.set_p this d.p_) other d.p_ ⟨c.p_, true⟩ a hget2
    simp [State.set_p, State.holders] at h1 h2 ⊢
    omega

theorem swap_pres {s s' : State} {this other : Nat} (hi : Inv s)
    (h : counted_t.swap s this other = .ok s') : Pres s s' := by
  cases hc : s.handle this with
  | error e => simp [counted_t.swap, hc] at h
  | ok c =>
    cases hd : s.handle other with
    | error e => simp [counted_t.swap, hc, hd] at h
    | ok d =>
      rw [swap_eq hc hd] at h
      injection h with h
      subst h
      refine pres_same hi rfl ?_
      intro a
      exact holders_swap s this other c d a hc hd

theorem dtor_null_eq {m : Mixin} {s : State} {h : Nat} {c : counted_t}
    (hc : s.handle h = .ok c) (hp : c.p_ = none) :
    counted_t.dtor m s h = .ok ⟨s.heap, s.handles.set h ⟨none, false⟩⟩ := by
  simp [counted_t.dtor, hc, hp]

theorem dtor_held_eq {m : Mixin} {s : State} {h a : Nat} {c : counted_t} {o : Obj}
    (hc : s.handle h = .ok c) (hp : c.p_ = some a) (ho : s.heap[a]? = some o)
    (h0 : 0 < o.refcount_) (h1 : o.refcount_ ≤ INTPTR_MAX) :
    counted_t.dtor m s h =
      .ok ⟨s.heap.set a ⟨o.refcount_ - 1, if o.refcount_ = 1 then o.deleted + 1 else o.deleted⟩,
        s.handles.set h ⟨some a, false⟩⟩ := by
  simp [counted_t.dtor, hc, hp, modify_obj_ok ho (release_ok m o h0 h1)]

theorem dtor_pres {m : Mixin} {s s' : State} {h : Nat} (hi : Inv s)
    (hr : counted_t.dtor m s h = .ok s') : Pres s s' := by
  cases hc : s.handle h with
  | error e => simp [counted_t.dtor, hc] at hr
  | ok c =>
    have hget := handle_ok_eta hc
    cases hp : c.p_ with
    | none =>
      rw [dtor_null_eq hc hp] at hr
      injection hr with hr
      subst hr
      refine pres_same hi rfl ?_
      intro a
      rw [hp] at hget
      have := holders_set s h none ⟨none, false⟩ a hget
      simp at this
      simpa [State.holders] using this
    | some a =>
      obtain ⟨o, ho, hpos, hrc, hmax, hd⟩ := inv_held hi hc hp
      rw [dtor_held_eq hc hp ho (by omega) hmax] at hr
      injection hr with hr
      subst hr
      apply pres_release hi ho hpos rfl
      intro b
      rw [hp] at hget
      have := holders_set s h (some a) ⟨some a, false⟩ b hget
      simp at this
      simp [State.holders] at this ⊢
      by_cases hab : a = b
      · subst hab
        simpa using this
      · have hba : ¬ b = a := fun h => hab h.symm
        simpa [hab, hba] using this

theorem Pres.refl {s : State} (hi : Inv s) : Pres s s :=
  pres_same hi rfl (fun _ => rfl)

theorem assign_move_pres {m : Mixin} {s s' : State} {this other : Nat} (hi : Inv s)
    (h : counted_t.assign_move m s this other = .ok s') : Pres s s' := by
  unfold counted_t.assign_move at h
  cases h1 : counted_t.ctor_move s other with
  | error e => simp [h1] at h
  | ok s1 =>
    simp only [h1] at h
    cases h2 : counted_t.swap s1 this s.handles.length with
    | error e => simp [h2] at h
    | ok s2 =>
      simp only [h2] at h
      have p1 := ctor_move_pres hi h1
      have p2 := swap_pres p1.1 h2
      exact (p1.trans p2).trans (dtor_pres p2.1 h)

theorem assign_copy_pres {m : Mixin} {s s' : State} {this other : Nat} (hi : Inv s)
    (h : counted_t.assign_copy m s this other = .ok s') : Pres s s' := by
  unfold counted_t.assign_copy at h
  cases h1 : counted_t.ctor_copy m s other with
  | error e => simp [h1] at h
  | ok s1 =>
    simp only [h1] at h
    cases h2 : counted_t.swap s1 this s.handles.length with
    | error e => simp [h2] at h
    | ok s2 =>
      simp only [h2] at h
      have p1 := ctor_copy_pres hi h1
      have p2 := swap_pres p1.1 h2
      exact (p1.trans p2).trans (dtor_pres p2.1 h)

theorem reset_pres {m : Mixin} {s s' : State} {this : Nat} (hi : Inv s)
    (h : counted_t.reset m s this = .ok s') : Pres s s' := by
  unfold counted_t.reset at h
  cases h2 : counted_t.swap (counted_t.ctor_default s) this s.handles.length with
  | error e => simp [h2] at h
  | ok s2 =>
    simp only [h2] at h
    have p1 := ctor_default_pres hi
    have p2 := swap_pres p1.1 h2
    exact (p1.trans p2).trans (dtor_pres p2.1 h)

theorem reset_ptr_pres {m : Mixin} {s s' : State} {this : Nat} {p : Option Nat} (hi : Inv s)
    (hv : s.valid_ptr p = true)
    (h : counted_t.reset_ptr m s this p = .ok s') : Pres s s' := by
  unfold counted_t.reset_ptr at h
  cases h1 : counted_t.ctor_ptr m s p with
  | error e => simp [h1] at h
  | ok s1 =>
    simp only [h1] at h
    cases h2 : counted_t.swap s1 this s.handles.length with
    | error e => simp [h2] at h
    | ok s2 =>
      simp only [h2] at h
      have p1 := ctor_ptr_pres hi hv h1
      have p2 := swap_pres p1.1 h2
      exact (p1.trans p2).trans (dtor_pres p2.1 h)

theorem make_counted_pres {m : Mixin} {elide : Bool} {s s' : State} (hi : Inv s)
    (h : make_counted m elide s = .ok s') : Pres s s' ∧ Made s.heap.length s' := by
  unfold make_counted at h
  have p0 := pres_new_obj hi
  have ho : s.new_obj.heap[s.heap.length]? = some Obj.fresh := by
    simp [State.new_obj]
  cases h1 : counted_t.ctor_ptr m s.new_obj (some s.heap.length) with
  | error e => simp [h1] at h
  | ok s2 =>
    simp only [h1] at h
    have a1 := acquire_pres p0.1 ho rfl h1
    have p1 := p0.trans a1.2.2.1
    cases elide with
    | true =>
      simp at h
      subst h
      exact ⟨p1, a1.2.2.2⟩
    | false =>
      simp only [Bool.false_eq_true, if_false] at h
      cases h3 : counted_t.ctor_move s2 s.handles.length with
      | error e => simp [h3] at h
      | ok s3 =>
        simp only [h3] at h
        have p3 := ctor_move_pres p1.1 h3
        have p4 := dtor_pres p3.1 h
        exact ⟨(p1.trans p3).trans p4, p4.2.2 _ (p3.2.2 _ a1.2.2.2)⟩

theorem step_pres {m : Mixin} {s s' : State} {op : Op} (hi : Inv s)
    (h : step m s op = .ok s') : Pres s s' := by
  cases op with
  | make_counted elide => exact (make_counted_pres hi h).1
  | ctor_default =>
    simp [step] at h
    subst h
    exact ctor_default_pres hi
  | ctor_ptr p =>
    simp only [step] at h
    by_cases hv : s.valid_ptr p = true
    · simp only [hv, if_true] at h
      exact ctor_ptr_pres hi hv h
    · simp [hv] at h
  | ctor_copy copyee => exact ctor_copy_pres hi h
  | ctor_move movee => exact ctor_move_pres hi h
  | dtor h1 => exact dtor_pres hi h
  | swap this other => exact swap_pres hi h
  | assign_move this other => exact assign_move_pres hi h
  | assign_copy this other => exact assign_copy_pres hi h
  | reset this => exact reset_pres hi h
  | reset_ptr this other =>
    simp only [step] at h
    by_cases hv : s.valid_ptr other = true
    · simp only [hv, if_true] at h
      exact reset_ptr_pres hi hv h
    · simp [hv] at h

theorem exec_pres {m : Mixin} {ops : List Op} {s s' : State} (hi : Inv s)
    (h : exec m s ops = .ok s') : Pres s s' := by
  induction ops generalizing s with
  | nil =>
    simp [exec] at h
    subst h
    exact Pres.refl hi
  | cons op ops ih =>
    simp only [exec] at h
    cases h1 : step m s op with
    | error e => simp [h1] at h
    | ok s1 =>
      simp only [h1] at h
      have p1 := step_pres hi h1
      exact p1.trans (ih p1.1 h)

theorem inv_init (k : Nat) : Inv (State.init k) := by
  refine ⟨?_, ?_⟩
  · intro a o ho
    simp [State.init] at ho
    rcases List.getElem?_eq_some.mp ho with ⟨h, he⟩
    simp at he
    subst he
    simp [Obj.fresh, State.holders, State.init, INTPTR_MAX]
  · intro a _
    simp [State.holders, State.init]

theorem inv_reachable {m : Mixin} {k : Nat} {ops : List Op} {s : State}
    (h : exec m (State.init k) ops = .ok s) : Inv s :=
  (exec_pres (inv_init k) h).1

/-! ## Exact results -/

theorem list_set_mid {α : Type} (l t : List α) (x y : α) :
    (l ++ x :: t).set l.length y = l ++ y :: t := by
  induction l with
  | nil => rfl
  | cons z u ih => simp [ih]

theorem list_set_last {α : Type} (l : List α) (x y : α) : (l ++ [x]).set l.length y = l ++ [y] :=
  list_set_mid l [] x y

theorem list_get_mid {α : Type} (l t : List α) (x : α) : (l ++ x :: t)[l.length]? = some x := by
  induction l with
  | nil => simp
  | cons z u ih => simpa using ih

theorem handle_mid (hp : List Obj) (l t : List counted_t) (p : Option Nat) :
    State.handle ⟨hp, l ++ ⟨p, true⟩ :: t⟩ l.length = .ok ⟨p, true⟩ := by
  unfold State.handle
  simp only [list_get_mid]
  rfl

theorem handle_last (hp : List Obj) (l : List counted_t) (p : Option Nat) :
    State.handle ⟨hp, l ++ [⟨p, true⟩]⟩ l.length = .ok ⟨p, true⟩ := by
  simp [State.handle]

theorem make_counted_eq (m : Mixin) (elide : Bool) (s : State) :
    make_counted m elide s = .ok ⟨s.heap ++ [⟨1, 0⟩],
      if elide then s.handles ++ [⟨some s.heap.length, true⟩]
      else s.handles ++ [⟨none, false⟩, ⟨some s.heap.length, true⟩]⟩ := by
  have ho : (s.new_obj.new_handle (some s.heap.length)).heap[s.heap.length]? = some Obj.fresh := by
    simp [State.new_obj, State.new_handle]
  have hadd : counted_t_add_ref m Obj.fresh = .ok ⟨1, 0⟩ :=
    add_ref_ok m Obj.fresh (by decide) (by decide)
  have h1 : counted_t.ctor_ptr m s.new_obj (some s.heap.length) =
      .ok ⟨s.heap ++ [⟨1, 0⟩], s.handles ++ [⟨some s.heap.length, true⟩]⟩ := by
    simp only [counted_t.ctor_ptr]
    rw [modify_obj_ok ho hadd]
    simp [State.new_obj, State.new_handle, list_set_last]
  unfold make_counted
  simp only [h1]
  cases elide with
  | true => simp
  | false =>
    have h2 := handle_last (s.heap ++ [⟨1, 0⟩]) s.handles (some s.heap.length)
    simp only [Bool.false_eq_true, if_false]
    rw [ctor_move_eq h2]
    simp only [List.append_assoc, List.singleton_append, list_set_mid]
    rw [dtor_null_eq (handle_mid _ _ _ _) rfl]
    simp only [list_set_mid]

/-! ## Specifications of the member functions -/

theorem unique_eq {m : Mixin} {s : State} {h a : Nat} {c : counted_t} {o : Obj}
    (hc : s.handle h = .ok c) (hp : c.p_ = some a) (ho : s.heap[a]? = some o)
    (hpos : 0 < o.refcount_) :
    counted_t.unique m s h = .ok (o.refcount_ == 1) := by
  cases m <;> simp [counted_t.unique, hc, hp, State.read_obj, ho, counted_t_use_count, rassert, hpos]

theorem handle_set (hp hp1 : List Obj) (l : List counted_t) (h : Nat) (x : counted_t) (i : Nat)
    (hlt : h < l.length) :
    State.handle ⟨hp, l.set h x⟩ i =
      if i = h then (if x.constructed then .ok x else .error Fault.dead_handle)
      else State.handle ⟨hp1, l⟩ i := by
  unfold State.handle
  simp only [List.getElem?_set]
  by_cases hi : i = h
  · subst hi
    simp [hlt]
  · have : ¬ h = i := fun e => hi e.symm
    simp [hi, this]

theorem handle_append (hp hp1 : List Obj) (l : List counted_t) (x : counted_t) (i : Nat) :
    State.handle ⟨hp, l ++ [x]⟩ i =
      if i = l.length then (if x.constructed then .ok x else .error Fault.dead_handle)
      else State.handle ⟨hp1, l⟩ i := by
  unfold State.handle
  by_cases hi : i = l.length
  · subst hi
    simp [list_get_mid]
  · by_cases hlt : i < l.length
    · simp [hi, List.getElem?_append, hlt]
    · have h1 : (l ++ [x])[i]? = none := by
        apply List.getElem?_eq_none
        simp
        omega
      have h2 : l[i]? = none := by
        apply List.getElem?_eq_none
        omega
      simp [hi, h1, h2]

theorem handle_lt {s : State} {h : Nat} {c : counted_t} (hc : s.handle h = .ok c) :
    h < s.handles.length := by
  rcases List.getElem?_eq_some.mp (handle_ok hc).1 with ⟨h1, _⟩
  exact h1

theorem handle_eta {s : State} {h : Nat} {c : counted_t} (hc : s.handle h = .ok c) :
    c = ⟨c.p_, true⟩ := by
  have := (handle_ok hc).2
  cases c
  simp_all

/-- Specification of the move constructor. -/
theorem ctor_move_spec {s : State} {movee : Nat} {c : counted_t} (hi : Inv s)
    (hc : s.handle movee = .ok c) :
    ∃ s1 : State, counted_t.ctor_move s movee = .ok s1 ∧ Pres s s1 ∧
      s1.handles.length = s.handles.length + 1 ∧
      (∀ i, s1.handle i = if i = movee then .ok ⟨none, true⟩
        else if i = s.handles.length then .ok ⟨c.p_, true⟩ else s.handle i) ∧
      (∀ b, s1.holders b = s.holders b) := by
  have heq := ctor_move_eq hc
  have hlt := handle_lt hc
  refine ⟨_, heq, ctor_move_pres hi heq, by simp, ?_, fun b => holders_move s movee c b hc⟩
  intro i
  rw [handle_set _ s.heap _ _ _ _ (by simp; omega), handle_append _ s.heap]
  simp

/-- Specification of `swap`. -/
theorem swap_spec {s : State} {this other : Nat} {c d : counted_t} (hi : Inv s)
    (hc : s.handle this = .ok c) (hd : s.handle other = .ok d) :
    ∃ s1 : State, counted_t.swap s this other = .ok s1 ∧ Pres s s1 ∧
      s1.handles.length = s.handles.length ∧
      (∀ i, s1.handle i = if i = other then .ok ⟨c.p_, true⟩
        else if i = this then .ok ⟨d.p_, true⟩ else s.handle i) ∧
      (∀ b, s1.holders b = s.holders b) := by
  have heq := swap_eq hc hd
  refine ⟨_, heq, swap_pres hi heq, by simp, ?_, fun b => holders_swap s this other c d b hc hd⟩
  intro i
  rw [handle_set _ s.heap _ _ _ _ (by simp; exact handle_lt hd),
    handle_set _ s.heap _ _ _ _ (handle_lt hc)]
  simp

/-- Specification of the destructor. -/
theorem dtor_spec (m : Mixin) {s : State} {h : Nat} {c : counted_t} (hi : Inv s)
    (hc : s.handle h = .ok c) :
    ∃ s1 : State, counted_t.dtor m s h = .ok s1 ∧ Pres s s1 ∧
      s1.handles.length = s.handles.length ∧
      (∀ i, s1.handle i = if i = h then .error Fault.dead_handle else s.handle i) ∧
      (∀ b, s1.holders b + (if c.p_ = some b then 1 else 0) = s.holders b) := by
  have hget := handle_ok_eta hc
  have hlt := handle_lt hc
  cases hp : c.p_ with
  | none =>
    have heq : counted_t.dtor m s h = _ := dtor_null_eq hc hp
    refine ⟨_, heq, dtor_pres hi heq, by simp, ?_, ?_⟩
    · intro i
      rw [handle_set _ s.heap _ _ _ _ hlt]
      simp
    · intro b
      rw [hp] at hget
      have := holders_set s h none ⟨none, false⟩ b hget
      simp at this
      simpa [State.holders] using this
  | some a =>
    obtain ⟨o, ho, hpos, hrc, hmax, hdel⟩ := inv_held hi hc hp
    have heq : counted_t.dtor m s h = _ := dtor_held_eq hc hp ho (by omega) hmax
    refine ⟨_, heq, dtor_pres hi heq, by simp, ?_, ?_⟩
    · intro i
      rw [handle_set _ s.heap _ _ _ _ hlt]
      simp
    · intro b
      rw [hp] at hget
      have := holders_set s h (some a) ⟨some a, false⟩ b hget
      simp at this
      simp [State.holders] at this ⊢
      exact this

/-- Specification of the copy constructor. -/
theorem ctor_copy_spec (m : Mixin) {s : State} {copyee : Nat} {c : counted_t} (hi : Inv s)
    (hc : s.handle copyee = .ok c)
    (hov : ∀ a, c.p_ = some a → (s.holders a : Int) < INTPTR_MAX) :
    ∃ s1 : State, counted_t.ctor_copy m s copyee = .ok s1 ∧ Pres s s1 ∧
      s1.handles.length = s.handles.length + 1 ∧
      (∀ i, s1.handle i = if i = s.handles.length then .ok ⟨c.p_, true⟩ else s.handle i) ∧
      (∀ b, s1.holders b = s.holders b + if c.p_ = some b then 1 else 0) := by
  cases hp : c.p_ with
  | none =>
    have heq : counted_t.ctor_copy m s copyee = .ok (s.new_handle none) := by
      simp [counted_t.ctor_copy, hc, hp]
    refine ⟨_, heq, ctor_copy_pres hi heq, by simp [State.new_handle], ?_, ?_⟩
    · intro i
      simp only [State.new_handle]
      rw [handle_append _ s.heap]
      simp
    · intro b
      simp [holders_new_handle]
  | some a =>
    obtain ⟨o, ho, hpos, hrc, hmax, hdel⟩ := inv_held hi hc hp
    have hlt : o.refcount_ < INTPTR_MAX := by
      have := hov a hp
      omega
    have ho1 : (s.new_handle (some a)).heap[a]? = some o := ho
    have heq : counted_t.ctor_copy m s copyee =
        .ok ⟨s.heap.set a ⟨o.refcount_ + 1, o.deleted⟩, s.handles ++ [⟨some a, true⟩]⟩ := by
      simp only [counted_t.ctor_copy, hc, hp]
      rw [modify_obj_ok ho1 (add_ref_ok m o (by omega) hlt)]
      rfl
    refine ⟨_, heq, ctor_copy_pres hi heq, by simp, ?_, ?_⟩
    · intro i
      rw [handle_append _ s.heap]
      simp
    · intro b
      have := holders_new_handle s (some a) b
      simp [State.new_handle, State.holders] at this ⊢
      exact this

/-- Specification of copy assignment. -/
theorem assign_copy_spec (m : Mixin) {s : State} {dst src : Nat} {ct co : counted_t}
    (hi : Inv s) (ht : s.handle dst = .ok ct) (ho : s.handle src = .ok co)
    (hov : ∀ a, co.p_ = some a → (s.holders a : Int) < INTPTR_MAX) :
    ∃ s1 : State, counted_t.assign_copy m s dst src = .ok s1 ∧ Pres s s1 ∧
      (∀ i, i < s.handles.length →
        s1.handle i = if i = dst then .ok ⟨co.p_, true⟩ else s.handle i) ∧
      (∀ b, s1.holders b + (if ct.p_ = some b then 1 else 0) =
        s.holders b + if co.p_ = some b then 1 else 0) := by
  have hlt := handle_lt ht
  obtain ⟨s1, e1, p1, _, k1, c1⟩ := ctor_copy_spec m hi ho hov
  have h1t : s1.handle dst = .ok ct := by
    rw [k1 dst, if_neg (by omega), ht]
  have h1n : s1.handle s.handles.length = .ok ⟨co.p_, true⟩ := by
    rw [k1, if_pos rfl]
  obtain ⟨s2, e2, p2, _, k2, c2⟩ := swap_spec p1.1 h1t h1n
  have h2n : s2.handle s.handles.length = .ok ⟨ct.p_, true⟩ := by
    rw [k2, if_pos rfl]
  obtain ⟨s3, e3, p3, _, k3, c3⟩ := dtor_spec m p2.1 h2n
  refine ⟨s3, ?_, (p1.trans p2).trans p3, ?_, ?_⟩
  · simp only [counted_t.assign_copy, e1, e2, e3]
  · intro i hlen
    have hne : i ≠ s.handles.length := by omega
    rw [k3 i, if_neg hne, k2 i, if_neg hne, k1 i, if_neg hne]
  · intro b
    have hb := c3 b
    simp only at hb
    rw [c2 b, c1 b] at hb
    exact hb

/-- Specification of move assignment. -/
theorem assign_move_spec (m : Mixin) {s : State} {dst src : Nat} {ct co : counted_t}
    (hi : Inv s) (ht : s.handle dst = .ok ct) (ho : s.handle src = .ok co) :
    ∃ s1 : State, counted_t.assign_move m s dst src = .ok s1 ∧ Pres s s1 ∧
      (∀ i, i < s.handles.length →
        s1.handle i = if i = dst then .ok ⟨co.p_, true⟩
          else if i = src then .ok ⟨none, true⟩ else s.handle i) ∧
      (∀ b, s1.holders b + (if dst ≠ src ∧ ct.p_ = some b then 1 else 0) =
        s.holders b) := by
  have hlt := handle_lt ht
  have hlo := handle_lt ho
  obtain ⟨s1, e1, p1, _, k1, c1⟩ := ctor_move_spec hi ho
  have h1t : s1.handle dst = .ok ⟨if dst = src then none else ct.p_, true⟩ := by
    rw [k1]
    by_cases hto : dst = src
    · simp [hto]
    · have hne : dst ≠ s.handles.length := by omega
      rw [if_neg hto, if_neg hne, ht, if_neg hto]
      exact congrArg Except.ok (handle_eta ht)
  have h1n : s1.handle s.handles.length = .ok ⟨co.p_, true⟩ := by
    have hne : s.handles.length ≠ src := by omega
    rw [k1 s.handles.length, if_neg hne, if_pos rfl]
  obtain ⟨s2, e2, p2, _, k2, c2⟩ := swap_spec p1.1 h1t h1n
  have h2n : s2.handle s.handles.length =
      .ok ⟨if dst = src then none else ct.p_, true⟩ := by
    rw [k2, if_pos rfl]
  obtain ⟨s3, e3, p3, _, k3, c3⟩ := dtor_spec m p2.1 h2n
  refine ⟨s3, ?_, (p1.trans p2).trans p3, ?_, ?_⟩
  · simp only [counted_t.assign_move, e1, e2, e3]
  · intro i hlen
    have hne : i ≠ s.handles.length := by omega
    rw [k3 i, if_neg hne, k2 i, if_neg hne, k1 i, if_neg hne]
  · intro b
    have hb := c3 b
    simp only at hb
    rw [c2 b, c1 b] at hb
    by_cases hto : dst = src
    · simp [hto] at hb ⊢
      exact hb
    · simp [hto] at hb ⊢
      exact hb

theorem obj_after {s s1 : State} (p : Pres s s1) {a : Nat} {o : Obj}
    (ho : s.heap[a]? = some o) (hpos : 0 < s1.holders a) :
    s1.heap[a]? = some ⟨(s1.holders a : Int), o.deleted⟩ ∧ o.deleted = 0 := by
  obtain ⟨o1, ho1, hle⟩ := p.2.1 a o ho
  obtain ⟨f1, _, f3, f4⟩ := p.1.1 a o1 ho1
  have h0 : o1.deleted = 0 := by
    by_contra hne
    have := f4 (by omega)
    omega
  have h00 : o.deleted = 0 := by omega
  refine ⟨?_, h00⟩
  rw [ho1, h00]
  cases o1
  simp_all

theorem holders_pos_of_handle {s : State} {h a : Nat} (hc : s.handle h = .ok ⟨some a, true⟩) :
    0 < s.holders a :=
  count_pos_of_get _ _ _ (handle_ok hc).1

theorem reset_eq {m : Mixin} {s : State} {h : Nat} {c : counted_t}
    (hc : s.handle h = .ok c) :
    counted_t.reset m s h = counted_t.dtor m
      ⟨s.heap, ((s.handles ++ [counted_t.mk none true]).set h (counted_t.mk none true)).set s.handles.length
        ⟨c.p_, true⟩⟩ s.handles.length := by
  have hlt := handle_lt hc
  have hne : h ≠ s.handles.length := by omega
  have h1 : (counted_t.ctor_default s).handle h = .ok c := by
    simp only [counted_t.ctor_default, State.new_handle]
    rw [handle_append _ s.heap, if_neg hne]
    exact hc
  have h2 : (counted_t.ctor_default s).handle s.handles.length = .ok ⟨none, true⟩ :=
    handle_mid _ _ _ _
  simp only [counted_t.reset]
  rw [swap_eq h1 h2]
  rfl

theorem unique_reachable {m : Mixin} {s : State} {h a : Nat} (hi : Inv s)
    (hc : s.handle h = .ok ⟨some a, true⟩) :
    counted_t.unique m s h = .ok (decide (s.holders a = 1)) := by
  obtain ⟨o, ho, hpos, hrc, _, _⟩ := inv_held hi hc rfl
  rw [unique_eq hc rfl ho (by omega), hrc]
  congr 1
  by_cases h1 : s.holders a = 1
  · simp [h1]
  · have : ¬ ((s.holders a : Int) = 1) := by omega
    simp [h1, this]

theorem move_chain_holders (m : Mixin) (a : Nat) (chain : List (Option Nat)) :
    ∀ (s : State) (h : Nat), Inv s → s.handle h = .ok ⟨some a, true⟩ →
      (∀ dst, some dst ∈ chain → dst = h ∨ ∃ d, s.handle dst = .ok d ∧ d.p_ ≠ some a) →
      ∃ (s1 : State) (h1 : Nat), move_chain m s h chain = .ok (s1, h1) ∧ Inv s1 ∧
        s1.handle h1 = .ok ⟨some a, true⟩ ∧ s1.holders a = s.holders a := by
  induction chain with
  | nil =>
    intro s h hi hh _
    exact ⟨s, h, rfl, hi, hh, rfl⟩
  | cons link rest ih =>
    intro s h hi hh hd
    have hlt := handle_lt hh
    cases link with
    | none =>
      obtain ⟨s1, e1, p1, _, k1, c1⟩ := ctor_move_spec hi hh
      have hne : s.handles.length ≠ h := by omega
      have hh1 : s1.handle s.handles.length = .ok ⟨some a, true⟩ := by
        rw [k1 s.handles.length, if_neg hne, if_pos rfl]
      have hd1 : ∀ dst, some dst ∈ rest →
          dst = s.handles.length ∨ ∃ d, s1.handle dst = .ok d ∧ d.p_ ≠ some a := by
        intro dst hmem
        by_cases hdh : dst = h
        · right
          exact ⟨⟨none, true⟩, by rw [k1 dst, if_pos hdh], by simp⟩
        · rcases hd dst (List.mem_cons_of_mem _ hmem) with h0 | ⟨d, hd0, hd1⟩
          · exact absurd h0 hdh
          · have hltd := handle_lt hd0
            have hne2 : dst ≠ s.handles.length := by omega
            right
            exact ⟨d, by rw [k1 dst, if_neg hdh, if_neg hne2, hd0], hd1⟩
      obtain ⟨s2, h2, e2, i2, hh2, c2⟩ := ih s1 s.handles.length p1.1 hh1 hd1
      refine ⟨s2, h2, ?_, i2, hh2, by rw [c2, c1 a]⟩
      simp only [move_chain, e1]
      exact e2
    | some dst0 =>
      have hcd : ∃ cd, s.handle dst0 = .ok cd ∧ (dst0 ≠ h → cd.p_ ≠ some a) := by
        rcases hd dst0 (List.mem_cons_self _ _) with h0 | ⟨d, hd0, hd1⟩
        · exact ⟨⟨some a, true⟩, by rw [h0]; exact hh, fun hne => absurd h0 hne⟩
        · exact ⟨d, hd0, fun _ => hd1⟩
      obtain ⟨cd, hcd0, hcd1⟩ := hcd
      have hltd0 := handle_lt hcd0
      obtain ⟨s1, e1, p1, k1, c1⟩ := assign_move_spec m hi hcd0 hh
      have hh1 : s1.handle dst0 = .ok ⟨some a, true⟩ := by
        rw [k1 dst0 hltd0, if_pos rfl]
      have hd1 : ∀ dst, some dst ∈ rest →
          dst = dst0 ∨ ∃ d, s1.handle dst = .ok d ∧ d.p_ ≠ some a := by
        intro dst hmem
        by_cases hdd : dst = dst0
        · exact Or.inl hdd
        · right
          by_cases hdh : dst = h
          · exact ⟨⟨none, true⟩, by rw [k1 dst (by omega), if_neg hdd, if_pos hdh], by simp⟩
          · rcases hd dst (List.mem_cons_of_mem _ hmem) with h0 | ⟨d, hd0, hd1⟩
            · exact absurd h0 hdh
            · have hltd := handle_lt hd0
              exact ⟨d, by rw [k1 dst hltd, if_neg hdd, if_neg hdh, hd0], hd1⟩
      obtain ⟨s2, h2, e2, i2, hh2, c2⟩ := ih s1 dst0 p1.1 hh1 hd1
      have hca := c1 a
      have hz : (if dst0 ≠ h ∧ cd.p_ = some a then 1 else 0) = 0 := by
        by_cases hne : dst0 = h
        · simp [hne]
        · have := hcd1 hne
          simp [this]
      rw [hz] at hca
      refine ⟨s2, h2, ?_, i2, hh2, by rw [c2]; omega⟩
      simp only [move_chain, e1]
      exact e2

/-! ## Member functions as sequences of primitive operations -/

/-- Move assignment is the sequence of its three primitive operations, so
what holds after every operation holds between them as well. -/
theorem assign_move_eq_exec (m : Mixin) (s : State) (dst src : Nat) :
    counted_t.assign_move m s dst src =
      exec m s [Op.ctor_move src, Op.swap dst s.handles.length, Op.dtor s.handles.length] := by
  simp only [counted_t.assign_move, exec, step]
  cases counted_t.ctor_move s src with
  | error e => rfl
  | ok s1 =>
    simp only
    cases counted_t.swap s1 dst s.handles.length with
    | error e => rfl
    | ok s2 =>
      simp only
      cases counted_t.dtor m s2 s.handles.length <;> rfl

/-- Copy assignment is the sequence of its three primitive operations. -/
theorem assign_copy_eq_exec (m : Mixin) (s : State) (dst src : Nat) :
    counted_t.assign_copy m s dst src =
      exec m s [Op.ctor_copy src, Op.swap dst s.handles.length, Op.dtor s.handles.length] := by
  simp only [counted_t.assign_copy, exec, step]
  cases counted_t.ctor_copy m s src with
  | error e => rfl
  | ok s1 =>
    simp only
    cases counted_t.swap s1 dst s.handles.length with
    | error e => rfl
    | ok s2 =>
      simp only
      cases counted_t.dtor m s2 s.handles.length <;> rfl

/-- The member `reset()` is the sequence of its three primitive operations. -/
theorem reset_eq_exec (m : Mixin) (s : State) (h : Nat) :
    counted_t.reset m s h =
      exec m s [Op.ctor_default, Op.swap h s.handles.length, Op.dtor s.handles.length] := by
  simp only [counted_t.reset, exec, step]
  cases counted_t.swap (counted_t.ctor_default s) h s.handles.length with
  | error e => rfl
  | ok s2 =>
    simp only
    cases counted_t.dtor m s2 s.handles.length <;> rfl

/-- The member `reset(T *)` is the sequence of its three primitive operations. -/
theorem reset_ptr_eq_exec (m : Mixin) (s : State) (h : Nat) (p : Option Nat)
    (hv : s.valid_ptr p = true) :
    counted_t.reset_ptr m s h p =
      exec m s [Op.ctor_ptr p, Op.swap h s.handles.length, Op.dtor s.handles.length] := by
  simp only [counted_t.reset_ptr, exec, step, hv, if_true]
  cases counted_t.ctor_ptr m s p with
  | error e => rfl
  | ok s1 =>
    simp only
    cases counted_t.swap s1 h s.handles.length with
    | error e => rfl
    | ok s2 =>
      simp only
      cases counted_t.dtor m s2 s.handles.length <;> rfl

/-! ## Re-seating a handle on its own object -/

theorem list_set_self {α : Type} (l : List α) (i : Nat) (x : α) (h : l[i]? = some x) :
    l.set i x = l := by
  induction l generalizing i with
  | nil => rfl
  | cons z t ih =>
    cases i with
    | zero =>
      simp at h
      subst h
      rfl
    | succ j =>
      simp at h
      simp [ih j h]

theorem heap_get_set {l : List Obj} {a : Nat} {o : Obj} (x : Obj) (h : l[a]? = some o) :
    (l.set a x)[a]? = some x := by
  rcases List.getElem?_eq_some.mp h with ⟨hlt, _⟩
  simp [List.getElem?_set, hlt]

/-- After a constructor has given the temporary slot a second reference to the
object `h` already holds, `swap` and the destructor of the temporary bring the
heap back to what it was. -/
theorem acquire_swap_release (m : Mixin) (s : State) (h a : Nat) (o : Obj)
    (hc : s.handle h = .ok ⟨some a, true⟩) (ho : s.heap[a]? = some o)
    (h1 : 1 ≤ o.refcount_) (h2 : o.refcount_ < INTPTR_MAX) :
    ∃ s2 s3 : State,
      counted_t.swap ⟨s.heap.set a ⟨o.refcount_ + 1, o.deleted⟩,
        s.handles ++ [counted_t.mk (some a) true]⟩ h s.handles.length = .ok s2 ∧
      counted_t.dtor m s2 s.handles.length = .ok s3 ∧
      s2.heap[a]? = some ⟨o.refcount_ + 1, o.deleted⟩ ∧
      s3.heap = s.heap ∧
      s3.handle h = .ok ⟨some a, true⟩ := by
  have hlt := handle_lt hc
  have hne : h ≠ s.handles.length := by omega
  have g1 : State.handle ⟨s.heap.set a ⟨o.refcount_ + 1, o.deleted⟩,
      s.handles ++ [counted_t.mk (some a) true]⟩ h = .ok ⟨some a, true⟩ := by
    rw [handle_append _ s.heap, if_neg hne]
    exact hc
  have g2 : State.handle ⟨s.heap.set a ⟨o.refcount_ + 1, o.deleted⟩,
      s.handles ++ [counted_t.mk (some a) true]⟩ s.handles.length = .ok ⟨some a, true⟩ :=
    handle_mid _ _ _ _
  have e2 := swap_eq g1 g2
  have hl2 : s.handles.length <
      ((s.handles ++ [counted_t.mk (some a) true]).set h (counted_t.mk (some a) true)).length := by
    simp
  have g3 : State.handle ⟨s.heap.set a ⟨o.refcount_ + 1, o.deleted⟩,
      ((s.handles ++ [counted_t.mk (some a) true]).set h (counted_t.mk (some a) true)).set
        s.handles.length (counted_t.mk (some a) true)⟩ s.handles.length =
      .ok ⟨some a, true⟩ := by
    rw [handle_set _ s.heap _ _ _ _ hl2, if_pos rfl]
    rfl
  have ho2 : (s.heap.set a ⟨o.refcount_ + 1, o.deleted⟩)[a]? =
      some ⟨o.refcount_ + 1, o.deleted⟩ := heap_get_set _ ho
  have e3 := @dtor_held_eq m _ _ _ _ _ g3 rfl ho2 (by simp only; omega) (by simp only; omega)
  refine ⟨_, _, e2, e3, ho2, ?_, ?_⟩
  · have hn1 : ¬ (o.refcount_ + 1 = 1) := by omega
    simp only [List.set_set, hn1, if_false, Int.add_sub_cancel]
    exact list_set_self _ _ _ ho
  · rw [handle_set _ s.heap _ _ _ _ (by simp), if_neg hne,
      handle_set _ s.heap _ _ _ _ hl2, if_neg hne,
      handle_set _ s.heap _ _ _ _ (by simp; omega), if_pos rfl]
    rfl

/-! ## The claims -/

/-- C1: an object created by `make_counted` starts alive with refcount 1 and
one holder; along every sequence of operations it is deleted at most once; it
is alive exactly while a handle holds it, and then its refcount is positive;
and its deletion count goes up, by one, exactly in the step in which its
number of holders goes from positive to zero. -/
theorem C1_destroyed_once_at_last_drop (m : Mixin) (k : Nat) (ops0 : List Op) (elide : Bool)
    (s0 s1 : State) (ops : List Op) (s : State) (op : Op) (s2 : State)
    (h0 : exec m (State.init k) ops0 = .ok s0)
    (h1 : make_counted m elide s0 = .ok s1)
    (h2 : exec m s1 ops = .ok s)
    (h3 : step m s op = .ok s2) :
    s1.heap[s0.heap.length]? = some ⟨1, 0⟩ ∧ s1.holders s0.heap.length = 1 ∧
    ∃ o o2 : Obj, s.heap[s0.heap.length]? = some o ∧ s2.heap[s0.heap.length]? = some o2 ∧
      o.deleted ≤ 1 ∧ o2.deleted ≤ 1 ∧
      (o.deleted = 0 ↔ 0 < s.holders s0.heap.length) ∧
      (0 < s.holders s0.heap.length → 0 < o.refcount_) ∧
      o2.deleted = o.deleted +
        (if 0 < s.holders s0.heap.length ∧ s2.holders s0.heap.length = 0 then 1 else 0) := by
  obtain ⟨p1, hm1⟩ := make_counted_pres (inv_reachable h0) h1
  have p2 := exec_pres p1.1 h2
  have p3 := step_pres p2.1 h3
  obtain ⟨o, ho, hmade⟩ := p2.2.2 _ hm1
  obtain ⟨o2, ho2, hmade2⟩ := p3.2.2 _ ⟨o, ho, hmade⟩
  obtain ⟨o3, ho3, hle⟩ := p3.2.1 _ o ho
  rw [ho2] at ho3
  injection ho3 with ho3
  subst ho3
  obtain ⟨f1, _, f3, f4⟩ := p2.1.1 _ o ho
  obtain ⟨_, _, g3, g4⟩ := p3.1.1 _ o2 ho2
  have hnew : s1.heap[s0.heap.length]? = some ⟨1, 0⟩ := by
    have e := make_counted_eq m elide s0
    rw [h1] at e
    injection e with e
    rw [e]
    exact list_get_mid _ _ _
  have hone : s1.holders s0.heap.length = 1 := by
    have := (p1.1.1 _ _ hnew).1
    simp only at this
    omega
  refine ⟨hnew, hone, o, o2, ho, ho2, f3, g3, ⟨hmade, ?_⟩, ?_, ?_⟩
  · intro hpos
    by_contra hne
    have := f4 (by omega)
    omega
  · intro hpos
    omega
  · by_cases hc : 0 < s.holders s0.heap.length ∧ s2.holders s0.heap.length = 0
    · rw [if_pos hc]
      have e1 : o.deleted ≠ 1 := fun h => by have := f4 h; omega
      have e2 : o2.deleted ≠ 0 := fun h => by have := hmade2 h; omega
      omega
    · rw [if_neg hc]
      by_cases hz : 0 < s.holders s0.heap.length
      · have hpos2 : 0 < s2.holders s0.heap.length := by
          by_contra hn
          exact hc ⟨hz, by omega⟩
        have e1 : o2.deleted ≠ 1 := fun h => by have := g4 h; omega
        omega
      · have e1 : o.deleted ≠ 0 := fun h => by have := hmade h; omega
        omega

/-- Instance of `C1_destroyed_once_at_last_drop` on a concrete execution. -/
theorem C1_destroyed_once_at_last_drop_witness :
    (State.mk [Obj.mk 1 0] [counted_t.mk (some 0) true]).heap[
      (State.init 0).heap.length]? = some ⟨1, 0⟩ ∧
    (State.mk [Obj.mk 1 0] [counted_t.mk (some 0) true]).holders
      (State.init 0).heap.length = 1 ∧
    ∃ o o2 : Obj,
      (State.mk [Obj.mk 1 0]
        [counted_t.mk (some 0) false, counted_t.mk (some 0) true]).heap[
          (State.init 0).heap.length]? = some o ∧
      (State.mk [Obj.mk 0 1]
        [counted_t.mk (some 0) false, counted_t.mk (some 0) false]).heap[
          (State.init 0).heap.length]? = some o2 ∧
      o.deleted ≤ 1 ∧ o2.deleted ≤ 1 ∧
      (o.deleted = 0 ↔ 0 < (State.mk [Obj.mk 1 0]
        [counted_t.mk (some 0) false, counted_t.mk (some 0) true]).holders
          (State.init 0).heap.length) ∧
      (0 < (State.mk [Obj.mk 1 0]
        [counted_t.mk (some 0) false, counted_t.mk (some 0) true]).holders
          (State.init 0).heap.length → 0 < o.refcount_) ∧
      o2.deleted = o.deleted +
        (if 0 < (State.mk [Obj.mk 1 0]
            [counted_t.mk (some 0) false, counted_t.mk (some 0) true]).holders
              (State.init 0).heap.length ∧
          (State.mk [Obj.mk 0 1]
            [counted_t.mk (some 0) false, counted_t.mk (some 0) false]).holders
              (State.init 0).heap.length = 0 then 1 else 0) :=
  C1_destroyed_once_at_last_drop Mixin.single_threaded_shared_mixin_t 0 [] true
    (State.init 0) (State.mk [Obj.mk 1 0] [counted_t.mk (some 0) true])
    [Op.ctor_copy 0, Op.dtor 0]
    (State.mk [Obj.mk 1 0] [counted_t.mk (some 0) false, counted_t.mk (some 0) true])
    (Op.dtor 1)
    (State.mk [Obj.mk 0 1] [counted_t.mk (some 0) false, counted_t.mk (some 0) false])
    (by decide) (by decide) (by decide) (by decide)

/-- C2: in every state reached from freshly constructed objects (refcount 0,
no handle) by the operations of `counted_t`, the refcount of every object, the
live ones in particular, is the number of constructed handles whose `p_` points
to it. -/
theorem C2_refcount_counts_handles (m : Mixin) (k : Nat) (ops : List Op) (s : State)
    (h : exec m (State.init k) ops = .ok s) (a : Nat) (o : Obj)
    (ho : s.heap[a]? = some o) :
    o.refcount_ = (s.holders a : Int) :=
  ((inv_reachable h).1 a o ho).1

/-- Instance of `C2_refcount_counts_handles` on a concrete execution. -/
theorem C2_refcount_counts_handles_witness :
    (Obj.mk 2 0).refcount_ =
      ((State.mk [Obj.mk 2 0]
        [counted_t.mk none true, counted_t.mk (some 0) true, counted_t.mk (some 0) true,
          counted_t.mk (some 0) false]).holders 0 : Int) :=
  C2_refcount_counts_handles Mixin.slow_shared_mixin_t 1
    [Op.ctor_ptr (some 0), Op.ctor_copy 0, Op.ctor_ptr (some 0), Op.assign_move 1 0]
    (State.mk [Obj.mk 2 0]
      [counted_t.mk none true, counted_t.mk (some 0) true, counted_t.mk (some 0) true,
        counted_t.mk (some 0) false])
    (by decide) 0 (Obj.mk 2 0) (by decide)

/-- C3 (counterexample): two handles hold one object, so `unique()` is false;
after move-assigning the first handle to the second, `unique()` on the handle
that received the object is true. -/
theorem C3_counterexample :
    exec Mixin.single_threaded_shared_mixin_t (State.init 0)
        [Op.make_counted true, Op.ctor_copy 0] =
      .ok (State.mk [Obj.mk 2 0] [counted_t.mk (some 0) true, counted_t.mk (some 0) true]) ∧
    counted_t.unique Mixin.single_threaded_shared_mixin_t
      (State.mk [Obj.mk 2 0] [counted_t.mk (some 0) true, counted_t.mk (some 0) true]) 0 =
        .ok false ∧
    ∃ s1 : State, move_chain Mixin.single_threaded_shared_mixin_t
        (State.mk [Obj.mk 2 0] [counted_t.mk (some 0) true, counted_t.mk (some 0) true]) 0
        [some 1] = .ok (s1, 1) ∧
      counted_t.unique Mixin.single_threaded_shared_mixin_t s1 1 = .ok true := by
  refine ⟨by decide, by decide, _, rfl, by decide⟩

/-- C3 (amended): in every reachable state and for both mixins, `unique()` on
a non-null handle returns true exactly when one handle holds its object; and
its value is unchanged along any chain of move constructions and of move
assignments whose destinations are the first handle or handles that did not
hold the object when the chain began. -/
theorem C3_unique_iff_single_holder (m : Mixin) (k : Nat) (ops : List Op) (s : State)
    (h a : Nat) (chain : List (Option Nat))
    (hr : exec m (State.init k) ops = .ok s)
    (hh : s.handle h = .ok ⟨some a, true⟩)
    (hd : ∀ dst, some dst ∈ chain → dst = h ∨ ∃ d, s.handle dst = .ok d ∧ d.p_ ≠ some a) :
    counted_t.unique m s h = .ok (decide (s.holders a = 1)) ∧
    ∃ (s1 : State) (h1 : Nat), move_chain m s h chain = .ok (s1, h1) ∧
      s1.handle h1 = .ok ⟨some a, true⟩ ∧
      counted_t.unique m s1 h1 = counted_t.unique m s h := by
  have hi := inv_reachable hr
  obtain ⟨s1, h1, e1, i1, hh1, c1⟩ := move_chain_holders m a chain s h hi hh hd
  refine ⟨unique_reachable hi hh, s1, h1, e1, hh1, ?_⟩
  rw [unique_reachable hi hh, unique_reachable i1 hh1, c1]

/-- Instance of `C3_unique_iff_single_holder` on a concrete execution. -/
theorem C3_unique_iff_single_holder_witness :
    counted_t.unique Mixin.slow_shared_mixin_t
        (State.mk [Obj.mk 1 0] [counted_t.mk (some 0) true, counted_t.mk none true]) 0 =
      .ok (decide ((State.mk [Obj.mk 1 0]
        [counted_t.mk (some 0) true, counted_t.mk none true]).holders 0 = 1)) ∧
    ∃ (s1 : State) (h1 : Nat), move_chain Mixin.slow_shared_mixin_t
        (State.mk [Obj.mk 1 0] [counted_t.mk (some 0) true, counted_t.mk none true]) 0
        [none, some 1] = .ok (s1, h1) ∧
      s1.handle h1 = .ok ⟨some 0, true⟩ ∧
      counted_t.unique Mixin.slow_shared_mixin_t s1 h1 =
        counted_t.unique Mixin.slow_shared_mixin_t
          (State.mk [Obj.mk 1 0] [counted_t.mk (some 0) true, counted_t.mk none true]) 0 :=
  C3_unique_iff_single_holder Mixin.slow_shared_mixin_t 0
    [Op.make_counted true, Op.ctor_default]
    (State.mk [Obj.mk 1 0] [counted_t.mk (some 0) true, counted_t.mk none true]) 0 0
    [none, some 1] (by decide) (by decide)
    (fun dst hmem => by
      have h1 : dst = 1 := by simpa using hmem
      subst h1
      exact Or.inr ⟨counted_t.mk none true, by decide, by decide⟩)

/-- C4: `make_counted` returns, for both mixins and with or without copy
elision, a non-null handle (the last slot) to a newly allocated object whose
refcount is exactly 1: `has()` and `unique()` are true on it, the objects that
existed are untouched, and the returned handle is the only new holder. -/
theorem C4_make_counted_refcount_one (m : Mixin) (elide : Bool) (s : State) :
    ∃ s1 : State, make_counted m elide s = .ok s1 ∧
      s1.heap = s.heap ++ [⟨1, 0⟩] ∧
      counted_t.get s1 (s1.handles.length - 1) = .ok (some s.heap.length) ∧
      counted_t.has s1 (s1.handles.length - 1) = .ok true ∧
      counted_t.unique m s1 (s1.handles.length - 1) = .ok true ∧
      ∀ b, s1.holders b = s.holders b + if b = s.heap.length then 1 else 0 := by
  refine ⟨_, make_counted_eq m elide s, rfl, ?_⟩
  have ho : (s.heap ++ [(⟨1, 0⟩ : Obj)])[s.heap.length]? = some ⟨1, 0⟩ := list_get_mid _ _ _
  cases elide with
  | true =>
    have hh := handle_mid (s.heap ++ [⟨1, 0⟩]) s.handles [] (some s.heap.length)
    simp only [if_true, List.length_append, List.length_singleton, Nat.add_sub_cancel]
    refine ⟨?_, ?_, ?_, ?_⟩
    · simp [counted_t.get, hh]
    · simp [counted_t.has, hh]
    · rw [unique_eq hh rfl ho (by decide)]
      rfl
    · intro b
      simp [State.holders, List.count_append, List.count_cons]
      by_cases hb : b = s.heap.length
      · simp [hb]
      · have : ¬ s.heap.length = b := fun h => hb h.symm
        simp [hb, this]
  | false =>
    have hh := handle_mid (s.heap ++ [⟨1, 0⟩]) (s.handles ++ [⟨none, false⟩]) []
      (some s.heap.length)
    simp only [List.length_append, List.length_singleton, List.append_assoc,
      List.singleton_append] at hh
    have hl : s.handles.length + (0 + 1 + 1) - 1 = s.handles.length + 1 := by omega
    simp only [Bool.false_eq_true, if_false, List.length_append, List.length_cons,
      List.length_nil, hl]
    refine ⟨?_, ?_, ?_, ?_⟩
    · simp [counted_t.get, hh]
    · simp [counted_t.has, hh]
    · rw [unique_eq hh rfl ho (by decide)]
      rfl
    · intro b
      simp [State.holders, List.count_append, List.count_cons]
      by_cases hb : b = s.heap.length
      · simp [hb]
      · have : ¬ s.heap.length = b := fun h => hb h.symm
        simp [hb, this]

/-- C5 (counterexample): two handles hold one object of refcount `n = 2`;
copy-assigning the first to the second, or the first to itself, leaves the
refcount at 2, not at `n + 1 = 3`. -/
theorem C5_counterexample :
    exec Mixin.single_threaded_shared_mixin_t (State.init 0)
        [Op.make_counted true, Op.ctor_copy 0] =
      .ok (State.mk [Obj.mk 2 0] [counted_t.mk (some 0) true, counted_t.mk (some 0) true]) ∧
    (∃ s1 : State, counted_t.assign_copy Mixin.single_threaded_shared_mixin_t
        (State.mk [Obj.mk 2 0] [counted_t.mk (some 0) true, counted_t.mk (some 0) true])
        1 0 = .ok s1 ∧
      s1.heap[0]? = some (Obj.mk 2 0)) ∧
    ∃ s2 : State, counted_t.assign_copy Mixin.single_threaded_shared_mixin_t
        (State.mk [Obj.mk 2 0] [counted_t.mk (some 0) true, counted_t.mk (some 0) true])
        0 0 = .ok s2 ∧
      s2.heap[0]? = some (Obj.mk 2 0) := by
  refine ⟨by decide, ⟨_, rfl, by decide⟩, _, rfl, by decide⟩

/-- C5 (amended): in every reachable state, for a handle `src` whose target
has a refcount `n` with `n + 1` representable: the copy constructor leaves
`src` unchanged, makes the new handle hold the target and leaves its refcount
at `n + 1`; copy assignment to `dst` leaves `src` unchanged, makes `dst` hold
the target, and leaves its refcount at `n + 1` when `dst` did not hold that
target before and at `n` when it did.  Copying a null handle yields a null
handle and raises no refcount. -/
theorem C5_copy_adds_one_reference (m : Mixin) (k : Nat) (ops : List Op) (s : State)
    (src dst : Nat) (cs cd : counted_t)
    (hr : exec m (State.init k) ops = .ok s)
    (hs : s.handle src = .ok cs) (hd : s.handle dst = .ok cd)
    (hov : ∀ a o, cs.p_ = some a → s.heap[a]? = some o → o.refcount_ < INTPTR_MAX) :
    (∃ s1 : State, counted_t.ctor_copy m s src = .ok s1 ∧
      s1.handle src = .ok cs ∧
      s1.handle s.handles.length = .ok ⟨cs.p_, true⟩ ∧
      match cs.p_ with
      | none => s1.heap = s.heap
      | some a => ∃ o : Obj, s.heap[a]? = some o ∧ 1 ≤ o.refcount_ ∧
          s1.heap[a]? = some ⟨o.refcount_ + 1, o.deleted⟩) ∧
    (∃ s2 : State, counted_t.assign_copy m s dst src = .ok s2 ∧
      s2.handle src = .ok cs ∧
      s2.handle dst = .ok ⟨cs.p_, true⟩ ∧
      match cs.p_ with
      | none => ∀ (b : Nat) (o o2 : Obj), s.heap[b]? = some o → s2.heap[b]? = some o2 →
          o2.refcount_ ≤ o.refcount_
      | some a => ∃ o : Obj, s.heap[a]? = some o ∧ 1 ≤ o.refcount_ ∧
          s2.heap[a]? =
            some ⟨if cd.p_ = some a then o.refcount_ else o.refcount_ + 1, o.deleted⟩) := by
  have hi := inv_reachable hr
  have hlts := handle_lt hs
  have hltd := handle_lt hd
  have hov2 : ∀ a, cs.p_ = some a → (s.holders a : Int) < INTPTR_MAX := by
    intro a hp
    obtain ⟨o, ho, _, hrc, _, _⟩ := inv_held hi hs hp
    have := hov a o hp ho
    omega
  obtain ⟨s1, e1, p1, _, k1, c1⟩ := ctor_copy_spec m hi hs hov2
  obtain ⟨s2, e2, p2, k2, c2⟩ := assign_copy_spec m hi hd hs hov2
  have hsrc2 : s2.handle src = .ok cs := by
    rw [k2 src hlts]
    by_cases hsd : src = dst
    · rw [if_pos hsd]
      exact congrArg Except.ok (handle_eta hs).symm
    · rw [if_neg hsd, hs]
  have hdst2 : s2.handle dst = .ok ⟨cs.p_, true⟩ := by
    rw [k2 dst hltd, if_pos rfl]
  have hnew1 : s1.handle s.handles.length = .ok ⟨cs.p_, true⟩ := by
    rw [k1 s.handles.length, if_pos rfl]
  refine ⟨⟨s1, e1, ?_, hnew1, ?_⟩, ⟨s2, e2, hsrc2, hdst2, ?_⟩⟩
  · rw [k1 src, if_neg (by omega), hs]
  · cases hp : cs.p_ with
    | none =>
      have : counted_t.ctor_copy m s src = .ok (s.new_handle none) := by
        simp [counted_t.ctor_copy, hs, hp]
      rw [this] at e1
      injection e1 with e1
      subst e1
      rfl
    | some a =>
      obtain ⟨o, ho, hpos, hrc, _, _⟩ := inv_held hi hs hp
      rw [hp] at hnew1
      have hpos1 := holders_pos_of_handle hnew1
      obtain ⟨g1, g2⟩ := obj_after p1 ho hpos1
      have hc := c1 a
      simp [hp] at hc
      refine ⟨o, ho, by omega, ?_⟩
      rw [g1, hc, hrc]
      simp
  · cases hp : cs.p_ with
    | none =>
      intro b o o2 ho ho2
      obtain ⟨f1, _⟩ := hi.1 b o ho
      obtain ⟨g1, _⟩ := p2.1.1 b o2 ho2
      have hc := c2 b
      simp [hp] at hc
      omega
    | some a =>
      obtain ⟨o, ho, hpos, hrc, _, _⟩ := inv_held hi hs hp
      rw [hp] at hdst2
      have hpos2 := holders_pos_of_handle hdst2
      obtain ⟨g1, g2⟩ := obj_after p2 ho hpos2
      have hc := c2 a
      simp [hp] at hc
      refine ⟨o, ho, by omega, ?_⟩
      rw [g1]
      by_cases hda : cd.p_ = some a
      · simp [hda] at hc ⊢
        omega
      · simp [hda] at hc ⊢
        omega

/-- Instance of `C5_copy_adds_one_reference` on a concrete execution. -/
theorem C5_copy_adds_one_reference_witness :
    (∃ s1 : State, counted_t.ctor_copy Mixin.slow_shared_mixin_t
        (State.mk [Obj.mk 1 0] [counted_t.mk (some 0) true, counted_t.mk none true]) 0 =
          .ok s1 ∧
      s1.handle 0 = .ok (counted_t.mk (some 0) true) ∧
      s1.handle 2 = .ok ⟨some 0, true⟩ ∧
      ∃ o : Obj, (State.mk [Obj.mk 1 0]
          [counted_t.mk (some 0) true, counted_t.mk none true]).heap[0]? = some o ∧
        1 ≤ o.refcount_ ∧ s1.heap[0]? = some ⟨o.refcount_ + 1, o.deleted⟩) ∧
    (∃ s2 : State, counted_t.assign_copy Mixin.slow_shared_mixin_t
        (State.mk [Obj.mk 1 0] [counted_t.mk (some 0) true, counted_t.mk none true]) 1 0 =
          .ok s2 ∧
      s2.handle 0 = .ok (counted_t.mk (some 0) true) ∧
      s2.handle 1 = .ok ⟨some 0, true⟩ ∧
      ∃ o : Obj, (State.mk [Obj.mk 1 0]
          [counted_t.mk (some 0) true, counted_t.mk none true]).heap[0]? = some o ∧
        1 ≤ o.refcount_ ∧
        s2.heap[0]? = some ⟨if (counted_t.mk none true).p_ = some 0 then o.refcount_
          else o.refcount_ + 1, o.deleted⟩) :=
  C5_copy_adds_one_reference Mixin.slow_shared_mixin_t 0
    [Op.make_counted true, Op.ctor_default]
    (State.mk [Obj.mk 1 0] [counted_t.mk (some 0) true, counted_t.mk none true]) 0 1
    (counted_t.mk (some 0) true) (counted_t.mk none true)
    (by decide) (by decide) (by decide)
    (fun a o ha ho => by
      cases ha
      have : o = Obj.mk 1 0 := by simpa using ho.symm
      subst this
      decide)

/-- C6 (counterexample): move-assigning a handle to itself leaves it holding
its object instead of null; and move-assigning `src` to another handle `dst`
that holds the same object lowers the refcount of that object from 2 to 1. -/
theorem C6_counterexample :
    (∃ s1 : State, counted_t.assign_move Mixin.single_threaded_shared_mixin_t
        (State.mk [Obj.mk 1 0] [counted_t.mk (some 0) true]) 0 0 = .ok s1 ∧
      s1.handle 0 = .ok (counted_t.mk (some 0) true)) ∧
    exec Mixin.single_threaded_shared_mixin_t (State.init 0)
        [Op.make_counted true, Op.ctor_copy 0] =
      .ok (State.mk [Obj.mk 2 0] [counted_t.mk (some 0) true, counted_t.mk (some 0) true]) ∧
    ∃ s2 : State, counted_t.assign_move Mixin.single_threaded_shared_mixin_t
        (State.mk [Obj.mk 2 0] [counted_t.mk (some 0) true, counted_t.mk (some 0) true])
        1 0 = .ok s2 ∧
      s2.heap[0]? = some (Obj.mk 1 0) := by
  refine ⟨⟨_, rfl, by decide⟩, by decide, _, rfl, by decide⟩

/-- C6 (amended): in every reachable state, for every handle `src`: the move
constructor gives the new handle the pointer `src` held, leaves `src` null and
leaves the whole heap as it was; move assignment to a handle `dst` gives `dst`
the pointer `src` held and, when `dst` is not `src` itself, leaves `src` null;
the refcount of the transferred object is then exactly as before, except that
it is one lower when `dst` is another handle that already held that object. -/
theorem C6_move_transfers_pointer (m : Mixin) (k : Nat) (ops : List Op) (s : State)
    (src dst : Nat) (cs cd : counted_t)
    (hr : exec m (State.init k) ops = .ok s)
    (hs : s.handle src = .ok cs) (hd : s.handle dst = .ok cd) :
    (∃ s1 : State, counted_t.ctor_move s src = .ok s1 ∧
      s1.handle s.handles.length = .ok ⟨cs.p_, true⟩ ∧
      s1.handle src = .ok ⟨none, true⟩ ∧
      s1.heap = s.heap) ∧
    (∃ s2 : State, counted_t.assign_move m s dst src = .ok s2 ∧
      s2.handle dst = .ok ⟨cs.p_, true⟩ ∧
      (dst ≠ src → s2.handle src = .ok ⟨none, true⟩) ∧
      ∀ (a : Nat) (o : Obj), cs.p_ = some a → s.heap[a]? = some o →
        s2.heap[a]? = some ⟨if dst ≠ src ∧ cd.p_ = some a then o.refcount_ - 1
          else o.refcount_, o.deleted⟩) := by
  have hi := inv_reachable hr
  have hlts := handle_lt hs
  have hltd := handle_lt hd
  obtain ⟨s1, e1, p1, _, k1, c1⟩ := ctor_move_spec hi hs
  obtain ⟨s2, e2, p2, k2, c2⟩ := assign_move_spec m hi hd hs
  have hdst2 : s2.handle dst = .ok ⟨cs.p_, true⟩ := by
    rw [k2 dst hltd, if_pos rfl]
  refine ⟨⟨s1, e1, ?_, ?_, ?_⟩, ⟨s2, e2, hdst2, ?_, ?_⟩⟩
  · have hne : s.handles.length ≠ src := by omega
    rw [k1 s.handles.length, if_neg hne, if_pos rfl]
  · rw [k1 src, if_pos rfl]
  · rw [ctor_move_eq hs] at e1
    injection e1 with e1
    subst e1
    rfl
  · intro hne
    have hne2 : src ≠ dst := fun e => hne e.symm
    rw [k2 src hlts, if_neg hne2, if_pos rfl]
  · intro a o hp ho
    obtain ⟨o1, ho1, hpos, hrc, _, _⟩ := inv_held hi hs hp
    rw [ho] at ho1
    injection ho1 with ho1
    subst ho1
    rw [hp] at hdst2
    have hpos2 := holders_pos_of_handle hdst2
    obtain ⟨g1, g2⟩ := obj_after p2 ho hpos2
    have hc := c2 a
    rw [g1]
    by_cases hcond : dst ≠ src ∧ cd.p_ = some a
    · rw [if_pos hcond] at hc
      rw [if_pos hcond]
      have : (s2.holders a : Int) = o.refcount_ - 1 := by omega
      rw [this]
    · rw [if_neg hcond] at hc
      rw [if_neg hcond]
      have : (s2.holders a : Int) = o.refcount_ := by omega
      rw [this]

/-- Instance of `C6_move_transfers_pointer` on a concrete execution. -/
theorem C6_move_transfers_pointer_witness :
    (∃ s1 : State, counted_t.ctor_move
        (State.mk [Obj.mk 1 0] [counted_t.mk (some 0) true, counted_t.mk none true]) 0 =
          .ok s1 ∧
      s1.handle 2 = .ok ⟨some 0, true⟩ ∧
      s1.handle 0 = .ok ⟨none, true⟩ ∧
      s1.heap = [Obj.mk 1 0]) ∧
    (∃ s2 : State, counted_t.assign_move Mixin.slow_shared_mixin_t
        (State.mk [Obj.mk 1 0] [counted_t.mk (some 0) true, counted_t.mk none true]) 1 0 =
          .ok s2 ∧
      s2.handle 1 = .ok ⟨some 0, true⟩ ∧
      (1 ≠ 0 → s2.handle 0 = .ok ⟨none, true⟩) ∧
      ∀ (a : Nat) (o : Obj), (counted_t.mk (some 0) true).p_ = some a →
        (State.mk [Obj.mk 1 0]
          [counted_t.mk (some 0) true, counted_t.mk none true]).heap[a]? = some o →
        s2.heap[a]? = some ⟨if 1 ≠ 0 ∧ (counted_t.mk none true).p_ = some a
          then o.refcount_ - 1 else o.refcount_, o.deleted⟩) :=
  C6_move_transfers_pointer Mixin.slow_shared_mixin_t 0
    [Op.make_counted true, Op.ctor_default]
    (State.mk [Obj.mk 1 0] [counted_t.mk (some 0) true, counted_t.mk none true]) 0 1
    (counted_t.mk (some 0) true) (counted_t.mk none true)
    (by decide) (by decide) (by decide)

/-- C7: destroying a handle or calling `reset()` on it releases the object it
holds: the refcount goes from `n ≥ 1` to `n - 1`, the object is deleted exactly
when `n = 1`, no other heap cell changes, and after `reset()` the handle is
null; on a null handle both leave the heap as it is and the handle null. -/
theorem C7_destroy_and_reset_release (m : Mixin) (s : State) (h : Nat) (c : counted_t)
    (hc : s.handle h = .ok c)
    (hobj : ∀ a, c.p_ = some a →
      ∃ o, s.heap[a]? = some o ∧ 1 ≤ o.refcount_ ∧ o.refcount_ ≤ INTPTR_MAX) :
    ∃ s1 s2 : State, counted_t.dtor m s h = .ok s1 ∧ counted_t.reset m s h = .ok s2 ∧
      s2.heap = s1.heap ∧
      s2.handle h = .ok ⟨none, true⟩ ∧
      s1.handles[h]? = some ⟨c.p_, false⟩ ∧
      s1.heap =
        match c.p_ with
        | none => s.heap
        | some a =>
          match s.heap[a]? with
          | none => s.heap
          | some o => s.heap.set a
              ⟨o.refcount_ - 1, if o.refcount_ = 1 then o.deleted + 1 else o.deleted⟩ := by
  have hlt := handle_lt hc
  have hne : h ≠ s.handles.length := by omega
  have hlt2 : s.handles.length <
      ((s.handles ++ [counted_t.mk none true]).set h (counted_t.mk none true)).length := by simp
  have hh2 : State.handle
      ⟨s.heap, ((s.handles ++ [counted_t.mk none true]).set h (counted_t.mk none true)).set s.handles.length
        ⟨c.p_, true⟩⟩ s.handles.length = .ok ⟨c.p_, true⟩ := by
    rw [handle_set _ s.heap _ _ _ _ hlt2]
    simp
  have hfin : ∀ (hp : List Obj) (x : counted_t), State.handle
      ⟨hp, (((s.handles ++ [counted_t.mk none true]).set h (counted_t.mk none true)).set s.handles.length
        ⟨c.p_, true⟩).set s.handles.length x⟩ h = .ok ⟨none, true⟩ := by
    intro hp x
    rw [handle_set _ s.heap _ _ _ _ (by simp), if_neg hne,
      handle_set _ s.heap _ _ _ _ hlt2, if_neg hne,
      handle_set _ s.heap _ _ _ _ (by simp; omega), if_pos rfl]
    rfl
  rw [reset_eq hc]
  cases hp : c.p_ with
  | none =>
    rw [hp] at hh2
    simp only [hp] at hfin
    rw [dtor_null_eq hc hp, dtor_null_eq hh2 rfl]
    refine ⟨_, _, rfl, rfl, rfl, hfin _ _, ?_, rfl⟩
    simp [hlt]
  | some a =>
    obtain ⟨o, ho, h1, h2⟩ := hobj a hp
    rw [hp] at hh2
    simp only [hp] at hfin
    rw [dtor_held_eq hc hp ho (by omega) h2,
      dtor_held_eq hh2 rfl ho (by omega) h2]
    refine ⟨_, _, rfl, rfl, rfl, hfin _ _, ?_, ?_⟩
    · simp [hlt]
    · simp [ho]

/-- Instance of `C7_destroy_and_reset_release` on a concrete execution. -/
theorem C7_destroy_and_reset_release_witness :
    ∃ s1 s2 : State,
      counted_t.dtor Mixin.slow_shared_mixin_t
        (State.mk [Obj.mk 1 0] [counted_t.mk (some 0) true]) 0 = .ok s1 ∧
      counted_t.reset Mixin.slow_shared_mixin_t
        (State.mk [Obj.mk 1 0] [counted_t.mk (some 0) true]) 0 = .ok s2 ∧
      s2.heap = s1.heap ∧
      s2.handle 0 = .ok ⟨none, true⟩ ∧
      s1.handles[0]? = some ⟨some 0, false⟩ ∧
      s1.heap = [Obj.mk 0 1] :=
  C7_destroy_and_reset_release Mixin.slow_shared_mixin_t
    (State.mk [Obj.mk 1 0] [counted_t.mk (some 0) true]) 0 (counted_t.mk (some 0) true)
    (by decide) (fun a ha => ⟨Obj.mk 1 0, by cases ha; rfl, by decide, by decide⟩)

/-- C8 (counterexample): on the slow mixin, releasing an object whose
refcount is `INTPTR_MIN` passes the assertion: the atomic decrement wraps
around to `INTPTR_MAX`, which is not negative. -/
theorem C8_counterexample :
    (Obj.mk INTPTR_MIN 0).refcount_ ≤ 0 ∧
    counted_t_release Mixin.slow_shared_mixin_t (Obj.mk INTPTR_MIN 0) =
      .ok (Obj.mk INTPTR_MAX 0) := by
  decide

/-- C8 (amended): for every refcount `r` that is zero or negative,
`counted_t_release` fails its assertion instead of completing, so the object
is not destroyed; on the slow mixin this needs `r - 1` to be representable,
that is `INTPTR_MIN < r`. -/
theorem C8_release_nonpositive_fails (m : Mixin) (o : Obj) (h : o.refcount_ ≤ 0)
    (hrep : m = Mixin.slow_shared_mixin_t → INTPTR_MIN < o.refcount_) :
    counted_t_release m o = .error Fault.rassert_failed := by
  cases m with
  | single_threaded_shared_mixin_t =>
    have : ¬ (0 < o.refcount_) := by omega
    simp [counted_t_release, rassert, this]
  | slow_shared_mixin_t =>
    have hlo := hrep rfl
    have hw : wrap_intptr (o.refcount_ - 1) = o.refcount_ - 1 :=
      wrap_intptr_eq (by unfold INTPTR_MIN at *; omega) (by unfold INTPTR_MAX; omega)
    have : ¬ (0 ≤ o.refcount_ - 1) := by omega
    simp [counted_t_release, rassert, hw, this]

/-- Instance of `C8_release_nonpositive_fails` on a concrete execution. -/
theorem C8_release_nonpositive_fails_witness :
    counted_t_release Mixin.slow_shared_mixin_t (Obj.mk 0 0) = .error Fault.rassert_failed :=
  C8_release_nonpositive_fails Mixin.slow_shared_mixin_t (Obj.mk 0 0) (by decide)
    (fun _ => by decide)

/-- C9 (counterexample): for both mixins `counted_t_add_ref` on an object
whose refcount is zero completes and leaves the refcount at 1. -/
theorem C9_counterexample :
    counted_t_add_ref Mixin.single_threaded_shared_mixin_t (Obj.mk 0 0) = .ok (Obj.mk 1 0) ∧
    counted_t_add_ref Mixin.slow_shared_mixin_t (Obj.mk 0 0) = .ok (Obj.mk 1 0) := by
  decide

/-- C9 (amended): for both mixins `counted_t_add_ref` on an object whose
refcount is zero succeeds and leaves the refcount at 1; it fails its assertion
when the refcount is negative. -/
theorem C9_add_ref_zero_ok_negative_fails (m : Mixin) (o : Obj)
    (hlo : INTPTR_MIN ≤ o.refcount_) (h : o.refcount_ ≤ 0) :
    counted_t_add_ref m o =
      if o.refcount_ = 0 then .ok ⟨1, o.deleted⟩ else .error Fault.rassert_failed := by
  by_cases h0 : o.refcount_ = 0
  · rw [add_ref_ok m o (by omega) (by rw [h0]; decide)]
    simp [h0]
  · have hw : wrap_intptr (o.refcount_ + 1) = o.refcount_ + 1 :=
      wrap_intptr_eq (by unfold INTPTR_MIN at *; omega) (by unfold INTPTR_MAX; omega)
    have hne : o.refcount_ ≠ INTPTR_MAX := by unfold INTPTR_MAX; omega
    have : ¬ (0 < o.refcount_ + 1) := by omega
    cases m <;> simp [counted_t_add_ref, rassert, hw, hne, this, h0]

/-- Instance of `C9_add_ref_zero_ok_negative_fails` on a concrete execution. -/
theorem C9_add_ref_zero_ok_negative_fails_witness :
    counted_t_add_ref Mixin.single_threaded_shared_mixin_t (Obj.mk (-1) 0) =
      .error Fault.rassert_failed :=
  C9_add_ref_zero_ok_negative_fails Mixin.single_threaded_shared_mixin_t (Obj.mk (-1) 0)
    (by decide) (by decide)

/-- C10 (counterexample): on the single-threaded mixin `unique()` on a handle
whose object has been released (refcount 0) returns false, and on a null
handle `unique()` stops at the null pointer, not at an assertion, on both
mixins. -/
theorem C10_counterexample :
    counted_t.unique Mixin.single_threaded_shared_mixin_t
      (State.mk [Obj.mk 0 1] [counted_t.mk (some 0) true]) 0 = .ok false ∧
    counted_t.unique Mixin.single_threaded_shared_mixin_t
      (State.mk [] [counted_t.mk none true]) 0 = .error Fault.null_dereference ∧
    counted_t.unique Mixin.slow_shared_mixin_t
      (State.mk [] [counted_t.mk none true]) 0 = .error Fault.null_dereference := by
  decide

/-- C10 (amended): on the slow mixin `unique()` on a non-null handle whose
object has refcount 0 (or less) fails the assertion of `counted_t_use_count`;
on a null handle `unique()` executes no assertion on either mixin, it reads
through the null pointer. -/
theorem C10_unique_on_null_or_released (m : Mixin) (s : State) (h : Nat) (c : counted_t)
    (hc : s.handle h = .ok c)
    (hbad : c.p_ = none ∨ (m = Mixin.slow_shared_mixin_t ∧
      ∃ a o, c.p_ = some a ∧ s.heap[a]? = some o ∧ o.refcount_ ≤ 0)) :
    counted_t.unique m s h =
      .error (if c.p_ = none then Fault.null_dereference else Fault.rassert_failed) := by
  rcases hbad with hn | ⟨hm, a, o, hp, ho, hr⟩
  · simp [counted_t.unique, hc, hn, State.read_obj]
  · subst hm
    have : ¬ (0 < o.refcount_) := by omega
    simp [counted_t.unique, hc, hp, State.read_obj, ho, counted_t_use_count, rassert, this]

/-- Instance of `C10_unique_on_null_or_released` on a concrete execution. -/
theorem C10_unique_on_null_or_released_witness :
    counted_t.unique Mixin.slow_shared_mixin_t
      (State.mk [Obj.mk 0 1] [counted_t.mk (some 0) true]) 0 = .error Fault.rassert_failed :=
  C10_unique_on_null_or_released Mixin.slow_shared_mixin_t
    (State.mk [Obj.mk 0 1] [counted_t.mk (some 0) true]) 0 (counted_t.mk (some 0) true)
    (by decide) (Or.inr ⟨rfl, 0, Obj.mk 0 1, rfl, by decide, by decide⟩)

/-- C11: for all handles `a` and `b`, null or not, holding the same or
different objects, `a.swap(b)` completes; afterwards `a` holds what `b` held
and `b` holds what `a` held, every other handle is as before, and the heap
(every refcount and every deletion count) is unchanged. -/
theorem C11_swap_exchanges_targets (s : State) (a b : Nat) (ca cb : counted_t)
    (ha : s.handle a = .ok ca) (hb : s.handle b = .ok cb) :
    ∃ s1 : State, counted_t.swap s a b = .ok s1 ∧
      s1.handle a = .ok ⟨cb.p_, true⟩ ∧
      s1.handle b = .ok ⟨ca.p_, true⟩ ∧
      (∀ i, i ≠ a → i ≠ b → s1.handle i = s.handle i) ∧
      s1.heap = s.heap ∧
      ∀ x, s1.holders x = s.holders x := by
  have hla := handle_lt ha
  have hlb := handle_lt hb
  have hlook : ∀ i, State.handle
      ⟨s.heap, (s.handles.set a (counted_t.mk cb.p_ true)).set b (counted_t.mk ca.p_ true)⟩ i =
      if i = b then .ok ⟨ca.p_, true⟩ else if i = a then .ok ⟨cb.p_, true⟩ else s.handle i := by
    intro i
    rw [handle_set _ s.heap _ _ _ _ (by simp; exact hlb), handle_set _ s.heap _ _ _ _ hla]
    simp
  refine ⟨_, swap_eq ha hb, ?_, ?_, ?_, rfl, fun x => holders_swap s a b ca cb x ha hb⟩
  · rw [hlook a]
    by_cases hab : a = b
    · subst hab
      rw [ha] at hb
      injection hb with hb
      subst hb
      simp
    · simp [hab]
  · rw [hlook b]
    simp
  · intro i hia hib
    rw [hlook i]
    simp [hia, hib]


/-- Instance of `C11_swap_exchanges_targets` on a null and a non-null handle. -/
theorem C11_swap_exchanges_targets_witness :
    ∃ s1 : State, counted_t.swap
        (State.mk [Obj.mk 1 0] [counted_t.mk (some 0) true, counted_t.mk none true]) 0 1 =
          .ok s1 ∧
      s1.handle 0 = .ok ⟨(counted_t.mk none true).p_, true⟩ ∧
      s1.handle 1 = .ok ⟨(counted_t.mk (some 0) true).p_, true⟩ ∧
      (∀ i, i ≠ 0 → i ≠ 1 → s1.handle i =
        (State.mk [Obj.mk 1 0]
          [counted_t.mk (some 0) true, counted_t.mk none true]).handle i) ∧
      s1.heap = [Obj.mk 1 0] ∧
      ∀ x, s1.holders x =
        (State.mk [Obj.mk 1 0] [counted_t.mk (some 0) true, counted_t.mk none true]).holders x :=
  C11_swap_exchanges_targets
    (State.mk [Obj.mk 1 0] [counted_t.mk (some 0) true, counted_t.mk none true]) 0 1
    (counted_t.mk (some 0) true) (counted_t.mk none true) (by decide) (by decide)

/-- C12: on every handle the boolean-like conversion is non-zero exactly when
the handle is non-null; it agrees with `has()` and with `get() != NULL`, and
`get()` and `operator->` return `p_`.  The three are `const` members whose
results depend on `p_` alone: they are functions of the state and return no
new state, so no refcount changes and no ownership moves. -/
theorem C12_boolean_conversion_is_non_null (s : State) (h : Nat) (c : counted_t)
    (hc : s.handle h = .ok c) :
    counted_t.to_booleanesque s h = .ok (decide (c.p_ ≠ none)) ∧
    counted_t.has s h = .ok (decide (c.p_ ≠ none)) ∧
    counted_t.get s h = .ok c.p_ ∧
    counted_t.arrow s h = .ok c.p_ ∧
    (counted_t.to_booleanesque s h = .ok true ↔ counted_t.get s h ≠ .ok none) ∧
    counted_t.to_booleanesque s h = counted_t.has s h := by
  have h1 : counted_t.to_booleanesque s h = .ok (decide (c.p_ ≠ none)) := by
    cases hp : c.p_ <;> simp [counted_t.to_booleanesque, hc, hp]
  have h2 : counted_t.has s h = .ok (decide (c.p_ ≠ none)) := by
    cases hp : c.p_ <;> simp [counted_t.has, hc, hp]
  have h3 : counted_t.get s h = .ok c.p_ := by
    simp [counted_t.get, hc]
  refine ⟨h1, h2, h3, h3, ?_, by rw [h1, h2]⟩
  rw [h1, h3]
  cases hp : c.p_ <;> simp


/-- Instance of `C12_boolean_conversion_is_non_null` on a non-null handle. -/
theorem C12_boolean_conversion_is_non_null_witness :
    counted_t.to_booleanesque (State.mk [Obj.mk 1 0] [counted_t.mk (some 0) true]) 0 =
      .ok (decide ((counted_t.mk (some 0) true).p_ ≠ none)) ∧
    counted_t.has (State.mk [Obj.mk 1 0] [counted_t.mk (some 0) true]) 0 =
      .ok (decide ((counted_t.mk (some 0) true).p_ ≠ none)) ∧
    counted_t.get (State.mk [Obj.mk 1 0] [counted_t.mk (some 0) true]) 0 =
      .ok (counted_t.mk (some 0) true).p_ ∧
    counted_t.arrow (State.mk [Obj.mk 1 0] [counted_t.mk (some 0) true]) 0 =
      .ok (counted_t.mk (some 0) true).p_ ∧
    (counted_t.to_booleanesque (State.mk [Obj.mk 1 0] [counted_t.mk (some 0) true]) 0 =
        .ok true ↔
      counted_t.get (State.mk [Obj.mk 1 0] [counted_t.mk (some 0) true]) 0 ≠ .ok none) ∧
    counted_t.to_booleanesque (State.mk [Obj.mk 1 0] [counted_t.mk (some 0) true]) 0 =
      counted_t.has (State.mk [Obj.mk 1 0] [counted_t.mk (some 0) true]) 0 :=
  C12_boolean_conversion_is_non_null (State.mk [Obj.mk 1 0] [counted_t.mk (some 0) true]) 0
    (counted_t.mk (some 0) true) (by decide)

end Counted

namespace Server

/-! ## The joins of the coordinator and the cycles of the toggler -/

theorem have_started_facts (s : server_t) :
    s.have_started_a_serializer.n_serializers = s.n_serializers ∧
    s.have_started_a_serializer.serializers = s.serializers ∧
    s.have_started_a_serializer.messages_out = s.messages_out - 1 ∧
    (s.messages_out = 1 →
      s.have_started_a_serializer.stage = Stage.StartingStore ∧
      s.have_started_a_serializer.issued = s.issued ++ [Request.start_store]) ∧
    (s.messages_out ≠ 1 →
      s.have_started_a_serializer.stage = s.stage ∧
      s.have_started_a_serializer.issued = s.issued) := by
  unfold server_t.have_started_a_serializer
  by_cases h : s.messages_out - 1 = 0
  · have h1 : s.messages_out = 1 := by omega
    simp [h, h1, server_t.do_start_store, server_t.issue]
  · have h1 : s.messages_out ≠ 1 := by omega
    simp [h, h1]

theorem ready_step (s : server_t) (i : Nat) :
    (s.on_serializer_ready i).n_serializers = s.n_serializers ∧
    (s.on_serializer_ready i).serializers.length = s.serializers.length ∧
    (s.on_serializer_ready i).messages_out = s.messages_out - 1 ∧
    (∀ j, (s.on_serializer_ready i).slot_started j =
      (s.slot_started j || (decide (j = i) && decide (i < s.serializers.length)))) ∧
    (s.messages_out = 1 →
      (s.on_serializer_ready i).stage = Stage.StartingStore ∧
      (s.on_serializer_ready i).issued = s.issued ++ [Request.start_store]) ∧
    (s.messages_out ≠ 1 →
      (s.on_serializer_ready i).stage = s.stage ∧
      (s.on_serializer_ready i).issued = s.issued) := by
  unfold server_t.on_serializer_ready
  cases hi : s.serializers[i]? with
  | none =>
    have hge : ¬ i < s.serializers.length := by
      intro hlt
      rw [List.getElem?_eq_getElem hlt] at hi
      exact Option.noConfusion hi
    obtain ⟨f1, f2, f3, f4, f5⟩ := have_started_facts s
    refine ⟨f1, by rw [f2], f3, ?_, f4, f5⟩
    intro j
    simp [server_t.slot_started, f2, hge]
  | some sl =>
    have hlt : i < s.serializers.length := by
      rcases List.getElem?_eq_some.mp hi with ⟨h, _⟩
      exact h
    obtain ⟨f1, f2, f3, f4, f5⟩ := have_started_facts
      { s with serializers := s.serializers.set i { sl with started := true } }
    refine ⟨f1, by rw [f2]; simp, f3, ?_, f4, f5⟩
    intro j
    simp only [server_t.slot_started, f2, List.getElem?_set]
    by_cases hji : j = i
    · subst hji
      simp [hlt]
    · have hne : ¬ i = j := fun e => hji e.symm
      simp [hji, hne]

theorem start_step (s : server_t) (i : Nat) :
    (s.start_a_serializer i).n_serializers = s.n_serializers ∧
    (s.start_a_serializer i).serializers.length = s.serializers.length ∧
    (s.start_a_serializer i).messages_out = s.messages_out ∧
    (∀ j, (s.start_a_serializer i).slot_started j = s.slot_started j) ∧
    (s.start_a_serializer i).stage = s.stage ∧
    (s.start_a_serializer i).issued = s.issued := by
  unfold server_t.start_a_serializer
  cases hi : s.serializers[i]? with
  | none => simp
  | some sl =>
    refine ⟨rfl, by simp, rfl, ?_, rfl, rfl⟩
    intro j
    simp only [server_t.slot_started, List.getElem?_set]
    by_cases hji : i = j
    · subst hji
      have hlt : i < s.serializers.length := by
        rcases List.getElem?_eq_some.mp hi with ⟨h, _⟩
        exact h
      simp [hlt, hi]
    · simp [hji]

/-- The join of the `StartingSerializers` stage: along startup events the
counter goes down by one per ready callback, and the stage changes, to
`StartingStore`, exactly when the counter reaches zero. -/
theorem startup_join (evs : List Event) :
    ∀ s : server_t, (∀ e ∈ evs, e.is_serializer_startup = true) →
      (s.run evs).n_serializers = s.n_serializers ∧
      (s.run evs).serializers.length = s.serializers.length ∧
      (s.run evs).messages_out = s.messages_out - ((ready_slots evs).length : Int) ∧
      (∀ j, (s.run evs).slot_started j =
        (s.slot_started j ||
          (decide (j ∈ ready_slots evs) && decide (j < s.serializers.length)))) ∧
      ((((ready_slots evs).length : Int) < s.messages_out ∨ s.messages_out ≤ 0) →
        (s.run evs).stage = s.stage ∧ (s.run evs).issued = s.issued) ∧
      (1 ≤ s.messages_out → s.messages_out ≤ ((ready_slots evs).length : Int) →
        (s.run evs).stage = Stage.StartingStore ∧
        (s.run evs).issued = s.issued ++ [Request.start_store]) := by
  induction evs with
  | nil =>
    intro s _
    refine ⟨rfl, rfl, by simp [server_t.run, ready_slots], by simp [server_t.run, ready_slots],
      fun _ => ⟨rfl, rfl⟩, ?_⟩
    intro h1 h2
    simp [ready_slots] at h2
    omega
  | cons e es ih =>
    intro s hall
    have he := hall e (List.mem_cons_self _ _)
    have hes : ∀ x ∈ es, x.is_serializer_startup = true :=
      fun x hx => hall x (List.mem_cons_of_mem _ hx)
    cases e with
    | start_a_serializer i =>
      obtain ⟨a1, a2, a3, a4, a5, a6⟩ := start_step s i
      obtain ⟨b1, b2, b3, b4, b5, b6⟩ := ih (s.start_a_serializer i) hes
      simp only [server_t.run, server_t.handle, ready_slots]
      rw [a3, a5, a6] at b5
      rw [a3, a6] at b6
      refine ⟨by rw [b1, a1], by rw [b2, a2], by rw [b3, a3], ?_, b5, b6⟩
      intro j
      rw [b4 j, a4 j, a2]
    | serializer_ready i =>
      obtain ⟨a1, a2, a3, a4, a5, a6⟩ := ready_step s i
      obtain ⟨b1, b2, b3, b4, b5, b6⟩ := ih (s.on_serializer_ready i) hes
      simp only [server_t.run, server_t.handle, ready_slots, List.length_cons]
      refine ⟨by rw [b1, a1], by rw [b2, a2], by rw [b3, a3]; push_cast; omega, ?_, ?_, ?_⟩
      · intro j
        rw [b4 j, a4 j, a2]
        by_cases hji : j = i
        · subst hji
          by_cases hl : j < s.serializers.length <;> simp [hl]
        · simp [hji]
      · intro hcase
        have hne : s.messages_out ≠ 1 := by
          rcases hcase with h | h
          · push_cast at h
            omega
          · omega
        obtain ⟨c1, c2⟩ := a6 hne
        have := b5 (by
          rw [a3]
          rcases hcase with h | h
          · left
            push_cast at h
            omega
          · right
            omega)
        rw [c1, c2] at this
        exact this
      · intro h1 h2
        push_cast at h2
        by_cases hm : s.messages_out = 1
        · obtain ⟨c1, c2⟩ := a5 hm
          have := b5 (by rw [a3]; right; omega)
          rw [c1, c2] at this
          exact this
        · obtain ⟨c1, c2⟩ := a6 hm
          have := b6 (by rw [a3]; omega) (by rw [a3]; omega)
          rw [c2] at this
          exact this
    | do_start => simp [Event.is_serializer_startup] at he
    | logger_ready => simp [Event.is_serializer_startup] at he
    | store_ready => simp [Event.is_serializer_startup] at he
    | conn_acceptor_ready => simp [Event.is_serializer_startup] at he
    | shutdown h => simp [Event.is_serializer_startup] at he
    | interrupt_delivered => simp [Event.is_serializer_startup] at he
    | conn_acceptor_shutdown => simp [Event.is_serializer_startup] at he
    | store_shutdown => simp [Event.is_serializer_startup] at he
    | shutdown_a_serializer i => simp [Event.is_serializer_startup] at he
    | serializer_shutdown i => simp [Event.is_serializer_startup] at he
    | logger_shutdown => simp [Event.is_serializer_startup] at he
    | message_flushed => simp [Event.is_serializer_startup] at he
    | threads_stopped => simp [Event.is_serializer_startup] at he

theorem ready_slots_append (pre post : List Event) :
    ready_slots (pre ++ post) = ready_slots pre ++ ready_slots post := by
  induction pre with
  | nil => rfl
  | cons e es ih =>
    cases e <;> simp [ready_slots, ih]

/-- A sequence of distinct slots of `range N` either misses a slot that comes
later, or has all `N` of them. -/
theorem perm_split (N : Nat) (l1 l2 : List Nat) (hperm : (l1 ++ l2).Perm (List.range N)) :
    (l1.length < N → ∃ i, i < N ∧ i ∉ l1) ∧
    (l1.length = N → ∀ i, i < N → i ∈ l1) := by
  have hlen : l1.length + l2.length = N := by
    have := hperm.length_eq
    simpa using this
  have hnd : (l1 ++ l2).Nodup := hperm.nodup_iff.mpr (List.nodup_range N)
  have hmem : ∀ i, i ∈ l1 ++ l2 ↔ i < N := by
    intro i
    rw [hperm.mem_iff]
    exact List.mem_range
  refine ⟨?_, ?_⟩
  · intro hlt
    cases h2 : l2 with
    | nil =>
      rw [h2] at hlen
      simp at hlen
      omega
    | cons i rest =>
      refine ⟨i, (hmem i).mp (by simp [h2]), ?_⟩
      intro hin
      rw [h2] at hnd
      have hd := (List.nodup_append.mp hnd).2.2
      exact hd hin (List.mem_cons_self _ _)
  · intro heq i hi
    have h2 : l2 = [] := by
      apply List.eq_nil_of_length_eq_zero
      omega
    have := (hmem i).mpr hi
    simpa [h2] using this

theorem shutdown_slots_append (pre post : List Event) :
    shutdown_slots (pre ++ post) = shutdown_slots pre ++ shutdown_slots post := by
  induction pre with
  | nil => rfl
  | cons e es ih =>
    cases e <;> simp [shutdown_slots, ih]

theorem have_shutdown_facts (s : server_t) :
    s.have_shutdown_a_serializer.n_serializers = s.n_serializers ∧
    s.have_shutdown_a_serializer.serializers = s.serializers ∧
    s.have_shutdown_a_serializer.messages_out = s.messages_out - 1 ∧
    (s.messages_out = 1 →
      s.have_shutdown_a_serializer.stage = Stage.StoppingLoggers ∧
      s.have_shutdown_a_serializer.issued = s.issued ++ [Request.shutdown_loggers]) ∧
    (s.messages_out ≠ 1 →
      s.have_shutdown_a_serializer.stage = s.stage ∧
      s.have_shutdown_a_serializer.issued = s.issued) := by
  unfold server_t.have_shutdown_a_serializer
  by_cases h : s.messages_out - 1 = 0
  · have h1 : s.messages_out = 1 := by omega
    simp [h, h1, server_t.do_shutdown_loggers, server_t.issue]
  · have h1 : s.messages_out ≠ 1 := by omega
    simp [h, h1]

theorem shutdown_step (s : server_t) (i : Nat) :
    (s.on_serializer_shutdown i).n_serializers = s.n_serializers ∧
    (s.on_serializer_shutdown i).serializers.length = s.serializers.length ∧
    (s.on_serializer_shutdown i).messages_out = s.messages_out - 1 ∧
    (∀ j, (s.on_serializer_shutdown i).slot_shut_down j =
      (s.slot_shut_down j || (decide (j = i) && decide (i < s.serializers.length)))) ∧
    (s.messages_out = 1 →
      (s.on_serializer_shutdown i).stage = Stage.StoppingLoggers ∧
      (s.on_serializer_shutdown i).issued = s.issued ++ [Request.shutdown_loggers]) ∧
    (s.messages_out ≠ 1 →
      (s.on_serializer_shutdown i).stage = s.stage ∧
      (s.on_serializer_shutdown i).issued = s.issued) := by
  unfold server_t.on_serializer_shutdown
  cases hi : s.serializers[i]? with
  | none =>
    have hge : ¬ i < s.serializers.length := by
      intro hlt
      rw [List.getElem?_eq_getElem hlt] at hi
      exact Option.noConfusion hi
    obtain ⟨f1, f2, f3, f4, f5⟩ := have_shutdown_facts s
    refine ⟨f1, by rw [f2], f3, ?_, f4, f5⟩
    intro j
    simp [server_t.slot_shut_down, f2, hge]
  | some sl =>
    have hlt : i < s.serializers.length := by
      rcases List.getElem?_eq_some.mp hi with ⟨h, _⟩
      exact h
    obtain ⟨f1, f2, f3, f4, f5⟩ := have_shutdown_facts
      { s with serializers :=
          s.serializers.set i { sl with created := false, shut_down := true } }
    refine ⟨f1, by rw [f2]; simp, f3, ?_, f4, f5⟩
    intro j
    simp only [server_t.slot_shut_down, f2, List.getElem?_set]
    by_cases hji : j = i
    · subst hji
      simp [hlt]
    · have hne : ¬ i = j := fun e => hji e.symm
      simp [hji, hne]

/-- The join of the `StoppingSerializers` stage: along shutdown events the
counter goes down by one per shutdown callback, and the stage changes, to
`StoppingLoggers`, exactly when the counter reaches zero. -/
theorem shutdown_join (evs : List Event) :
    ∀ s : server_t, (∀ e ∈ evs, e.is_serializer_shutdown = true) →
      (s.run evs).n_serializers = s.n_serializers ∧
      (s.run evs).serializers.length = s.serializers.length ∧
      (s.run evs).messages_out = s.messages_out - ((shutdown_slots evs).length : Int) ∧
      (∀ j, (s.run evs).slot_shut_down j =
        (s.slot_shut_down j ||
          (decide (j ∈ shutdown_slots evs) && decide (j < s.serializers.length)))) ∧
      ((((shutdown_slots evs).length : Int) < s.messages_out ∨ s.messages_out ≤ 0) →
        (s.run evs).stage = s.stage ∧ (s.run evs).issued = s.issued) ∧
      (1 ≤ s.messages_out → s.messages_out ≤ ((shutdown_slots evs).length : Int) →
        (s.run evs).stage = Stage.StoppingLoggers ∧
        (s.run evs).issued = s.issued ++ [Request.shutdown_loggers]) := by
  induction evs with
  | nil =>
    intro s _
    refine ⟨rfl, rfl, by simp [server_t.run, shutdown_slots],
      by simp [server_t.run, shutdown_slots], fun _ => ⟨rfl, rfl⟩, ?_⟩
    intro h1 h2
    simp [shutdown_slots] at h2
    omega
  | cons e es ih =>
    intro s hall
    have he := hall e (List.mem_cons_self _ _)
    have hes : ∀ x ∈ es, x.is_serializer_shutdown = true :=
      fun x hx => hall x (List.mem_cons_of_mem _ hx)
    cases e with
    | shutdown_a_serializer i =>
      exact ih s hes
    | serializer_shutdown i =>
      obtain ⟨a1, a2, a3, a4, a5, a6⟩ := shutdown_step s i
      obtain ⟨b1, b2, b3, b4, b5, b6⟩ := ih (s.on_serializer_shutdown i) hes
      simp only [server_t.run, server_t.handle, shutdown_slots, List.length_cons]
      refine ⟨by rw [b1, a1], by rw [b2, a2], by rw [b3, a3]; push_cast; omega, ?_, ?_, ?_⟩
      · intro j
        rw [b4 j, a4 j, a2]
        by_cases hji : j = i
        · subst hji
          by_cases hl : j < s.serializers.length <;> simp [hl]
        · simp [hji]
      · intro hcase
        have hne : s.messages_out ≠ 1 := by
          rcases hcase with h | h
          · push_cast at h
            omega
          · omega
        obtain ⟨c1, c2⟩ := a6 hne
        have := b5 (by
          rw [a3]
          rcases hcase with h | h
          · left
            push_cast at h
            omega
          · right
            omega)
        rw [c1, c2] at this
        exact this
      · intro h1 h2
        push_cast at h2
        by_cases hm : s.messages_out = 1
        · obtain ⟨c1, c2⟩ := a5 hm
          have := b5 (by rw [a3]; right; omega)
          rw [c1, c2] at this
          exact this
        · obtain ⟨c1, c2⟩ := a6 hm
          have := b6 (by rw [a3]; omega) (by rw [a3]; omega)
          rw [c2] at this
          exact this
    | do_start => simp [Event.is_serializer_shutdown] at he
    | logger_ready => simp [Event.is_serializer_shutdown] at he
    | store_ready => simp [Event.is_serializer_shutdown] at he
    | conn_acceptor_ready => simp [Event.is_serializer_shutdown] at he
    | shutdown h => simp [Event.is_serializer_shutdown] at he
    | interrupt_delivered => simp [Event.is_serializer_shutdown] at he
    | conn_acceptor_shutdown => simp [Event.is_serializer_shutdown] at he
    | store_shutdown => simp [Event.is_serializer_shutdown] at he
    | start_a_serializer i => simp [Event.is_serializer_shutdown] at he
    | serializer_ready i => simp [Event.is_serializer_shutdown] at he
    | logger_shutdown => simp [Event.is_serializer_shutdown] at he
    | message_flushed => simp [Event.is_serializer_shutdown] at he
    | threads_stopped => simp [Event.is_serializer_shutdown] at he

theorem run_append (s : server_t) (a b : List Event) : s.run (a ++ b) = (s.run a).run b := by
  induction a generalizing s with
  | nil => rfl
  | cons e es ih => exact ih (s.handle e)

theorem gc_run_append (t : gc_toggler_t) (a b : List GcEvent) :
    t.run (a ++ b) = (t.run a).run b := by
  induction a generalizing t with
  | nil => rfl
  | cons e es ih => exact ih (t.handle e)

theorem confirmations_append (a b : List GcEvent) :
    confirmations (a ++ b) = confirmations a + confirmations b := by
  induction a with
  | nil => simp [confirmations]
  | cons e es ih =>
    cases e
    · simp [confirmations, ih]
    · simp [confirmations, ih]
      omega

theorem disable_calls_append (a b : List GcEvent) :
    disable_calls (a ++ b) = disable_calls a ++ disable_calls b := by
  induction a with
  | nil => simp [disable_calls]
  | cons e es ih =>
    cases e <;> simp [disable_calls, ih]

theorem confirmations_replicate (k : Nat) :
    confirmations (List.replicate k GcEvent.confirmation) = k := by
  induction k with
  | zero => rfl
  | succ n ih => simp [List.replicate, confirmations, ih]

theorem disable_calls_replicate (k : Nat) :
    disable_calls (List.replicate k GcEvent.confirmation) = [] := by
  induction k with
  | zero => rfl
  | succ n ih => simp [List.replicate, disable_calls, ih]

theorem mark_mark (cb : all_gc_disabled_callback_t) : cb.mark.mark = cb.mark := rfl

theorem mark_original_idem (q : List all_gc_disabled_callback_t)
    (cb : all_gc_disabled_callback_t) :
    mark_original (mark_original q ++ [cb.mark]) = mark_original q ++ [cb.mark] := by
  cases q with
  | nil => rfl
  | cons x r => rfl

/-- While the toggler is `Disabling` and fewer than `N` confirmations have
arrived, it stays `Disabling` and invokes nothing; the callers are queued, and
as soon as there is a second caller every queued callback is marked. -/
theorem disabling_run (evs : List GcEvent) :
    ∀ t : gc_toggler_t, t.state_ = toggle_state_t.disabling →
      t.num_disabled_serializers_ + (confirmations evs : Int) < (t.n_serializers : Int) →
      (t.run evs).state_ = toggle_state_t.disabling ∧
      (t.run evs).invoked = t.invoked ∧
      (t.run evs).num_disabled_serializers_ =
        t.num_disabled_serializers_ + (confirmations evs : Int) ∧
      (t.run evs).n_serializers = t.n_serializers ∧
      (t.run evs).requests = t.requests ∧
      (t.run evs).callbacks_ =
        (if disable_calls evs = [] then t.callbacks_
          else mark_original t.callbacks_ ++
            (disable_calls evs).map all_gc_disabled_callback_t.mark) := by
  induction evs with
  | nil =>
    intro t hst _
    simp [gc_toggler_t.run, confirmations, disable_calls, hst]
  | cons e es ih =>
    intro t hst hlt
    cases e with
    | disable_gc cb =>
      have hstep : t.handle (GcEvent.disable_gc cb) =
          { t with callbacks_ := mark_original t.callbacks_ ++ [cb.mark] } := by
        simp [gc_toggler_t.handle, gc_toggler_t.disable_gc, hst]
      have g1 : (t.handle (GcEvent.disable_gc cb)).state_ = t.state_ := by rw [hstep]
      have g2 : (t.handle (GcEvent.disable_gc cb)).invoked = t.invoked := by rw [hstep]
      have g3 : (t.handle (GcEvent.disable_gc cb)).num_disabled_serializers_ =
          t.num_disabled_serializers_ := by rw [hstep]
      have g4 : (t.handle (GcEvent.disable_gc cb)).n_serializers = t.n_serializers := by
        rw [hstep]
      have g5 : (t.handle (GcEvent.disable_gc cb)).requests = t.requests := by rw [hstep]
      have g6 : (t.handle (GcEvent.disable_gc cb)).callbacks_ =
          mark_original t.callbacks_ ++ [cb.mark] := by rw [hstep]
      simp only [confirmations] at hlt
      obtain ⟨a1, a2, a3, a4, a5, a6⟩ := ih (t.handle (GcEvent.disable_gc cb))
        (by rw [g1]; exact hst) (by rw [g3, g4]; exact hlt)
      simp only [gc_toggler_t.run, confirmations, disable_calls]
      refine ⟨a1, by rw [a2, g2], by rw [a3, g3], by rw [a4, g4], by rw [a5, g5], ?_⟩
      rw [a6, g6]
      simp only [mark_original_idem]
      by_cases hr : disable_calls es = []
      · simp [hr]
      · simp [hr]
    | confirmation =>
      simp only [confirmations] at hlt
      push_cast at hlt
      have hne : ¬ (t.num_disabled_serializers_ + 1 = (t.n_serializers : Int)) := by omega
      have hstep : t.handle GcEvent.confirmation =
          { t with num_disabled_serializers_ := t.num_disabled_serializers_ + 1 } := by
        simp [gc_toggler_t.handle, gc_toggler_t.on_gc_disabled, hne]
      have g1 : (t.handle GcEvent.confirmation).state_ = t.state_ := by rw [hstep]
      have g2 : (t.handle GcEvent.confirmation).invoked = t.invoked := by rw [hstep]
      have g3 : (t.handle GcEvent.confirmation).num_disabled_serializers_ =
          t.num_disabled_serializers_ + 1 := by rw [hstep]
      have g4 : (t.handle GcEvent.confirmation).n_serializers = t.n_serializers := by
        rw [hstep]
      have g5 : (t.handle GcEvent.confirmation).requests = t.requests := by rw [hstep]
      have g6 : (t.handle GcEvent.confirmation).callbacks_ = t.callbacks_ := by rw [hstep]
      obtain ⟨a1, a2, a3, a4, a5, a6⟩ := ih (t.handle GcEvent.confirmation)
        (by rw [g1]; exact hst) (by rw [g3, g4]; omega)
      simp only [gc_toggler_t.run, confirmations, disable_calls]
      refine ⟨a1, by rw [a2, g2], ?_, by rw [a4, g4], by rw [a5, g5], by rw [a6, g6]⟩
      rw [a3, g3]
      push_cast
      omega

/-- The confirmation that makes the count reach `N` turns `Disabling` into
`Disabled` and invokes every queued callback once, in queue order, each with
the flag it carries. -/
theorem last_confirmation (t : gc_toggler_t)
    (hlast : t.num_disabled_serializers_ + 1 = (t.n_serializers : Int)) :
    t.on_gc_disabled.state_ = toggle_state_t.disabled ∧
    t.on_gc_disabled.invoked = t.invoked ++ t.callbacks_ ∧
    t.on_gc_disabled.callbacks_ = t.callbacks_ ∧
    t.on_gc_disabled.n_serializers = t.n_serializers ∧
    t.on_gc_disabled.num_disabled_serializers_ = (t.n_serializers : Int) := by
  simp [gc_toggler_t.on_gc_disabled, hlast]

/-- One whole cycle for a single requester: from `Enabled` with an empty
queue, `disable_gc(cb)` followed by `k ≤ N` confirmations. -/
theorem single_cycle (t : gc_toggler_t) (cb : all_gc_disabled_callback_t) (k : Nat)
    (hst : t.state_ = toggle_state_t.enabled) (hq : t.callbacks_ = [])
    (hN : 1 ≤ t.n_serializers) :
    (t.disable_gc cb).2 = false ∧
    (t.disable_gc cb).1.num_disabled_serializers_ = 0 ∧
    (t.disable_gc cb).1.requests =
      t.requests ++ (List.range t.n_serializers).map GcRequest.disable_gc ∧
    (k < t.n_serializers →
      (t.run (GcEvent.disable_gc cb :: List.replicate k GcEvent.confirmation)).state_ =
        toggle_state_t.disabling ∧
      (t.run (GcEvent.disable_gc cb :: List.replicate k GcEvent.confirmation)).invoked =
        t.invoked ∧
      (t.run (GcEvent.disable_gc cb ::
        List.replicate k GcEvent.confirmation)).num_disabled_serializers_ = (k : Int)) ∧
    (k = t.n_serializers →
      (t.run (GcEvent.disable_gc cb :: List.replicate k GcEvent.confirmation)).state_ =
        toggle_state_t.disabled ∧
      (t.run (GcEvent.disable_gc cb :: List.replicate k GcEvent.confirmation)).invoked =
        t.invoked ++ [cb] ∧
      (t.run (GcEvent.disable_gc cb :: List.replicate k GcEvent.confirmation)).callbacks_ =
        [cb] ∧
      (t.run (GcEvent.disable_gc cb :: List.replicate k GcEvent.confirmation)).n_serializers =
        t.n_serializers ∧
      (t.run (GcEvent.disable_gc cb ::
        List.replicate k GcEvent.confirmation)).num_disabled_serializers_ = (k : Int)) := by
  have hstep : t.handle (GcEvent.disable_gc cb) =
      { t with
        state_ := toggle_state_t.disabling
        num_disabled_serializers_ := 0
        callbacks_ := [cb]
        requests := t.requests ++ (List.range t.n_serializers).map GcRequest.disable_gc } := by
    simp [gc_toggler_t.handle, gc_toggler_t.disable_gc, hst, hq]
  have hcall : (t.disable_gc cb).1 = t.handle (GcEvent.disable_gc cb) := rfl
  have g1 : (t.handle (GcEvent.disable_gc cb)).state_ = toggle_state_t.disabling := by
    rw [hstep]
  have g2 : (t.handle (GcEvent.disable_gc cb)).invoked = t.invoked := by rw [hstep]
  have g3 : (t.handle (GcEvent.disable_gc cb)).num_disabled_serializers_ = 0 := by rw [hstep]
  have g4 : (t.handle (GcEvent.disable_gc cb)).n_serializers = t.n_serializers := by
    rw [hstep]
  have g6 : (t.handle (GcEvent.disable_gc cb)).callbacks_ = [cb] := by rw [hstep]
  refine ⟨by simp [gc_toggler_t.disable_gc, hst], by rw [hcall, g3],
    by rw [hcall, hstep], ?_, ?_⟩
  · intro hlt
    obtain ⟨a1, a2, a3, _, _, _⟩ := disabling_run (List.replicate k GcEvent.confirmation)
      (t.handle (GcEvent.disable_gc cb)) g1
      (by rw [g3, g4, confirmations_replicate]; omega)
    rw [confirmations_replicate, g3] at a3
    simp only [gc_toggler_t.run]
    exact ⟨a1, by rw [a2, g2], by rw [a3]; simp⟩
  · intro heq
    obtain ⟨j, hj⟩ : ∃ j, k = j + 1 := ⟨k - 1, by omega⟩
    obtain ⟨a1, a2, a3, a4, _, a6⟩ := disabling_run (List.replicate j GcEvent.confirmation)
      (t.handle (GcEvent.disable_gc cb)) g1
      (by rw [g3, g4, confirmations_replicate]; omega)
    rw [confirmations_replicate, g3] at a3
    rw [disable_calls_replicate] at a6
    simp only [if_true] at a6
    have hrep : List.replicate k GcEvent.confirmation =
        List.replicate j GcEvent.confirmation ++ [GcEvent.confirmation] := by
      rw [hj, List.replicate_succ']
    obtain ⟨b1, b2, b3, b4, b5⟩ := last_confirmation
      ((t.handle (GcEvent.disable_gc cb)).run (List.replicate j GcEvent.confirmation))
      (by rw [a3, a4, g4]; omega)
    simp only [gc_toggler_t.run]
    rw [hrep, gc_run_append]
    simp only [gc_toggler_t.run, gc_toggler_t.handle]
    simp only [gc_toggler_t.handle] at b1 b2 b3 b4 b5 a2 a4 a6 g2 g4 g6
    refine ⟨b1, by rw [b2, a2, a6, g2, g6], by rw [b3, a6, g6], by rw [b4, a4, g4],
      by rw [b5, a4, g4, heq]⟩

/-! ## The claims on the coordinator and the toggler -/

/-- C13: a coordinator with `N ≥ 1` serializer slots that has entered
`StartingSerializers` stays in that stage, without starting the store, at
every point of every arrival order of the `N` ready callbacks (interleaved in
any way with the creation of the serializers) at which fewer than `N` slots
have reported; some slot has then not reported.  At the points at which all
`N` have reported the stage is `StartingStore`, every slot has its flag set,
and the store has been started exactly once. -/
theorem C13_store_starts_after_all_serializers (N : Nat) (hN : 1 ≤ N) (s0 : server_t)
    (hn : s0.n_serializers = N) (hlen : s0.serializers.length = N)
    (hns : ∀ i, s0.slot_started i = false)
    (pre post : List Event)
    (hev : ∀ e ∈ pre ++ post, e.is_serializer_startup = true)
    (hperm : (ready_slots (pre ++ post)).Perm (List.range N)) :
    (s0.on_logger_ready.stage = Stage.StartingSerializers ∧
      s0.on_logger_ready.issued =
        s0.issued ++ (List.range N).map Request.start_serializer) ∧
    ((ready_slots pre).length < N →
      (s0.on_logger_ready.run pre).stage = Stage.StartingSerializers ∧
      (s0.on_logger_ready.run pre).issued = s0.on_logger_ready.issued ∧
      ∃ i, i < N ∧ (s0.on_logger_ready.run pre).slot_started i = false) ∧
    ((ready_slots pre).length = N →
      (s0.on_logger_ready.run pre).stage = Stage.StartingStore ∧
      (s0.on_logger_ready.run pre).issued =
        s0.on_logger_ready.issued ++ [Request.start_store] ∧
      ∀ i, i < N → (s0.on_logger_ready.run pre).slot_started i = true) := by
  have hst : s0.on_logger_ready.stage = Stage.StartingSerializers := rfl
  have hmo : s0.on_logger_ready.messages_out = (N : Int) := by
    simp [server_t.on_logger_ready, server_t.do_start_serializers, hn]
  have hser : s0.on_logger_ready.serializers = s0.serializers := rfl
  have hfl : ∀ i, s0.on_logger_ready.slot_started i = false := hns
  have hpre : ∀ e ∈ pre, e.is_serializer_startup = true :=
    fun e he => hev e (List.mem_append_left _ he)
  obtain ⟨_, _, _, b4, b5, b6⟩ := startup_join pre s0.on_logger_ready hpre
  rw [ready_slots_append] at hperm
  obtain ⟨q1, q2⟩ := perm_split N _ _ hperm
  refine ⟨⟨hst, by simp [server_t.on_logger_ready, server_t.do_start_serializers, hn]⟩, ?_, ?_⟩
  · intro hlt
    obtain ⟨c1, c2⟩ := b5 (Or.inl (by rw [hmo]; exact_mod_cast hlt))
    obtain ⟨i, hi, hnot⟩ := q1 hlt
    refine ⟨by rw [c1, hst], c2, i, hi, ?_⟩
    rw [b4 i, hfl i]
    simp [hnot]
  · intro heq
    obtain ⟨c1, c2⟩ := b6 (by rw [hmo]; exact_mod_cast hN) (by rw [hmo, heq])
    refine ⟨c1, c2, ?_⟩
    intro i hi
    rw [b4 i, hser, hlen]
    simp [q2 heq i hi, hi]

/-- Instance of `C13_store_starts_after_all_serializers`: two slots, the
second reports first. -/
theorem C13_store_starts_after_all_serializers_witness :
    ((server_t.ctor 2).do_start.on_logger_ready.stage = Stage.StartingSerializers ∧
      (server_t.ctor 2).do_start.on_logger_ready.issued =
        (server_t.ctor 2).do_start.issued ++ (List.range 2).map Request.start_serializer) ∧
    ((ready_slots [Event.start_a_serializer 1, Event.serializer_ready 1]).length < 2 →
      ((server_t.ctor 2).do_start.on_logger_ready.run
        [Event.start_a_serializer 1, Event.serializer_ready 1]).stage =
          Stage.StartingSerializers ∧
      ((server_t.ctor 2).do_start.on_logger_ready.run
        [Event.start_a_serializer 1, Event.serializer_ready 1]).issued =
          (server_t.ctor 2).do_start.on_logger_ready.issued ∧
      ∃ i, i < 2 ∧ ((server_t.ctor 2).do_start.on_logger_ready.run
        [Event.start_a_serializer 1, Event.serializer_ready 1]).slot_started i = false) ∧
    ((ready_slots [Event.start_a_serializer 1, Event.serializer_ready 1]).length = 2 →
      ((server_t.ctor 2).do_start.on_logger_ready.run
        [Event.start_a_serializer 1, Event.serializer_ready 1]).stage = Stage.StartingStore ∧
      ((server_t.ctor 2).do_start.on_logger_ready.run
        [Event.start_a_serializer 1, Event.serializer_ready 1]).issued =
          (server_t.ctor 2).do_start.on_logger_ready.issued ++ [Request.start_store] ∧
      ∀ i, i < 2 → ((server_t.ctor 2).do_start.on_logger_ready.run
        [Event.start_a_serializer 1, Event.serializer_ready 1]).slot_started i = true) :=
  C13_store_starts_after_all_serializers 2 (by decide) (server_t.ctor 2).do_start rfl rfl
    (fun i => by
      match i with
      | 0 => rfl
      | 1 => rfl
      | _ + 2 => rfl)
    [Event.start_a_serializer 1, Event.serializer_ready 1]
    [Event.start_a_serializer 0, Event.serializer_ready 0]
    (by decide) (by decide)

/-- C14: `shutdown()` only dispatches the interrupt message, from the home
context and from any other alike; the handler of the message calls
`do_shutdown()`, and from there the connection acceptor is stopped first, then
the store, then all `N ≥ 1` serializers, then the log controller, then the
messages are flushed, then the threads are stopped.  Each request is issued
only when the callback of the step before it has arrived; the log controller
is not stopped while fewer than `N` shutdown callbacks of serializers have
arrived, in whatever order they arrive. -/
theorem C14_shutdown_order (N : Nat) (hN : 1 ≤ N) (s : server_t) (from_home : Bool)
    (hn : s.n_serializers = N) (hlen : s.serializers.length = N)
    (hns : ∀ i, s.slot_shut_down i = false)
    (pre post : List Event)
    (hev : ∀ e ∈ pre ++ post, e.is_serializer_shutdown = true)
    (hperm : (shutdown_slots (pre ++ post)).Perm (List.range N)) :
    (s.shutdown from_home).stage = s.stage ∧
    (s.shutdown from_home).issued = s.issued ∧
    (s.shutdown from_home).deliver_interrupt =
      interrupt_message_t.on_cpu_switch
        { s.shutdown from_home with interrupts_queued := s.interrupts_queued } ∧
    (s.run [Event.shutdown from_home, Event.interrupt_delivered]).stage =
      Stage.StoppingAcceptor ∧
    (s.run [Event.shutdown from_home, Event.interrupt_delivered]).issued =
      s.issued ++ [Request.shutdown_conn_acceptor] ∧
    (s.run [Event.shutdown from_home, Event.interrupt_delivered,
      Event.conn_acceptor_shutdown]).stage = Stage.StoppingStore ∧
    (s.run [Event.shutdown from_home, Event.interrupt_delivered,
      Event.conn_acceptor_shutdown]).issued =
      s.issued ++ [Request.shutdown_conn_acceptor, Request.shutdown_store] ∧
    (s.run [Event.shutdown from_home, Event.interrupt_delivered,
      Event.conn_acceptor_shutdown, Event.store_shutdown]).stage =
      Stage.StoppingSerializers ∧
    (s.run [Event.shutdown from_home, Event.interrupt_delivered,
      Event.conn_acceptor_shutdown, Event.store_shutdown]).issued =
      s.issued ++ [Request.shutdown_conn_acceptor, Request.shutdown_store] ++
        (List.range N).map Request.shutdown_serializer ∧
    ((shutdown_slots pre).length < N →
      (s.run ([Event.shutdown from_home, Event.interrupt_delivered,
        Event.conn_acceptor_shutdown, Event.store_shutdown] ++ pre)).stage =
        Stage.StoppingSerializers ∧
      (s.run ([Event.shutdown from_home, Event.interrupt_delivered,
        Event.conn_acceptor_shutdown, Event.store_shutdown] ++ pre)).issued =
        s.issued ++ [Request.shutdown_conn_acceptor, Request.shutdown_store] ++
          (List.range N).map Request.shutdown_serializer ∧
      ∃ i, i < N ∧ (s.run ([Event.shutdown from_home, Event.interrupt_delivered,
        Event.conn_acceptor_shutdown, Event.store_shutdown] ++ pre)).slot_shut_down i =
          false) ∧
    (s.run ([Event.shutdown from_home, Event.interrupt_delivered,
      Event.conn_acceptor_shutdown, Event.store_shutdown] ++ (pre ++ post))).stage =
      Stage.StoppingLoggers ∧
    (s.run ([Event.shutdown from_home, Event.interrupt_delivered,
      Event.conn_acceptor_shutdown, Event.store_shutdown] ++ (pre ++ post))).issued =
      s.issued ++ [Request.shutdown_conn_acceptor, Request.shutdown_store] ++
        (List.range N).map Request.shutdown_serializer ++ [Request.shutdown_loggers] ∧
    (∀ i, i < N → (s.run ([Event.shutdown from_home, Event.interrupt_delivered,
      Event.conn_acceptor_shutdown, Event.store_shutdown] ++ (pre ++ post))).slot_shut_down i =
        true) ∧
    (s.run ([Event.shutdown from_home, Event.interrupt_delivered,
      Event.conn_acceptor_shutdown, Event.store_shutdown] ++ (pre ++ post) ++
      [Event.logger_shutdown])).stage = Stage.FlushingMessages ∧
    (s.run ([Event.shutdown from_home, Event.interrupt_delivered,
      Event.conn_acceptor_shutdown, Event.store_shutdown] ++ (pre ++ post) ++
      [Event.logger_shutdown])).issued =
      s.issued ++ [Request.shutdown_conn_acceptor, Request.shutdown_store] ++
        (List.range N).map Request.shutdown_serializer ++
        [Request.shutdown_loggers, Request.message_flush] ∧
    (s.run ([Event.shutdown from_home, Event.interrupt_delivered,
      Event.conn_acceptor_shutdown, Event.store_shutdown] ++ (pre ++ post) ++
      [Event.logger_shutdown, Event.message_flushed])).stage = Stage.StoppingThreads ∧
    (s.run ([Event.shutdown from_home, Event.interrupt_delivered,
      Event.conn_acceptor_shutdown, Event.store_shutdown] ++ (pre ++ post) ++
      [Event.logger_shutdown, Event.message_flushed])).issued =
      s.issued ++ [Request.shutdown_conn_acceptor, Request.shutdown_store] ++
        (List.range N).map Request.shutdown_serializer ++
        [Request.shutdown_loggers, Request.message_flush, Request.stop_threads] ∧
    (s.run ([Event.shutdown from_home, Event.interrupt_delivered,
      Event.conn_acceptor_shutdown, Event.store_shutdown] ++ (pre ++ post) ++
      [Event.logger_shutdown, Event.message_flushed, Event.threads_stopped])).stage =
      Stage.Stopped ∧
    (s.run ([Event.shutdown from_home, Event.interrupt_delivered,
      Event.conn_acceptor_shutdown, Event.store_shutdown] ++ (pre ++ post) ++
      [Event.logger_shutdown, Event.message_flushed, Event.threads_stopped])).issued =
      s.issued ++ [Request.shutdown_conn_acceptor, Request.shutdown_store] ++
        (List.range N).map Request.shutdown_serializer ++
        [Request.shutdown_loggers, Request.message_flush, Request.stop_threads] ∧
    ∀ evs : List Event,
      s.run (Event.shutdown true :: evs) = s.run (Event.shutdown false :: evs) := by
  have e4 : s.run [Event.shutdown from_home, Event.interrupt_delivered,
      Event.conn_acceptor_shutdown, Event.store_shutdown] =
      { s with
        stage := Stage.StoppingSerializers
        messages_out := (N : Int)
        issued := s.issued ++ [Request.shutdown_conn_acceptor, Request.shutdown_store] ++
          (List.range N).map Request.shutdown_serializer } := by
    simp [server_t.run, server_t.handle, server_t.shutdown, server_t.deliver_interrupt,
      interrupt_message_t.on_cpu_switch, server_t.do_shutdown,
      server_t.do_shutdown_conn_acceptor, server_t.on_conn_acceptor_shutdown,
      server_t.do_shutdown_store, server_t.on_store_shutdown,
      server_t.do_shutdown_serializers, server_t.issue, hn]
  obtain ⟨s4, hs4⟩ : ∃ s4, s4 = s.run [Event.shutdown from_home, Event.interrupt_delivered,
      Event.conn_acceptor_shutdown, Event.store_shutdown] := ⟨_, rfl⟩
  have f1 : s4.stage = Stage.StoppingSerializers := by rw [hs4, e4]
  have f2 : s4.messages_out = (N : Int) := by rw [hs4, e4]
  have f3 : s4.serializers = s.serializers := by rw [hs4, e4]
  have f4 : s4.issued = s.issued ++ [Request.shutdown_conn_acceptor, Request.shutdown_store] ++
      (List.range N).map Request.shutdown_serializer := by rw [hs4, e4]
  have hpre : ∀ e ∈ pre, e.is_serializer_shutdown = true :=
    fun e he => hev e (List.mem_append_left _ he)
  have hlall : (shutdown_slots (pre ++ post)).length = N := by
    simpa using hperm.length_eq
  rw [shutdown_slots_append] at hperm
  obtain ⟨q1, _⟩ := perm_split N _ _ hperm
  have hall : ((shutdown_slots pre ++ shutdown_slots post) ++ []).Perm (List.range N) := by
    simpa using hperm
  obtain ⟨_, q2⟩ := perm_split N _ _ hall
  obtain ⟨_, _, _, b4, b5, _⟩ := shutdown_join pre s4 hpre
  obtain ⟨_, _, _, c4, _, c6⟩ := shutdown_join (pre ++ post) s4 hev
  obtain ⟨d1, d2⟩ := c6 (by rw [f2]; exact_mod_cast hN) (by rw [f2, hlall])
  rw [f4] at d2
  refine ⟨rfl, rfl, rfl, rfl, ?_, rfl, ?_, ?_, ?_, ?_, ?_, ?_, ?_, ?_, ?_, ?_, ?_, ?_, ?_, ?_⟩
  · simp [server_t.run, server_t.handle, server_t.shutdown, server_t.deliver_interrupt,
      interrupt_message_t.on_cpu_switch, server_t.do_shutdown,
      server_t.do_shutdown_conn_acceptor, server_t.issue]
  · simp [server_t.run, server_t.handle, server_t.shutdown, server_t.deliver_interrupt,
      interrupt_message_t.on_cpu_switch, server_t.do_shutdown,
      server_t.do_shutdown_conn_acceptor, server_t.on_conn_acceptor_shutdown,
      server_t.do_shutdown_store, server_t.issue]
  · rw [← hs4, f1]
  · rw [← hs4, f4]
  · intro hlt
    rw [run_append, ← hs4]
    obtain ⟨x1, x2⟩ := b5 (Or.inl (by rw [f2]; exact_mod_cast hlt))
    obtain ⟨i, hi, hnot⟩ := q1 hlt
    rw [f1] at x1
    rw [f4] at x2
    refine ⟨x1, x2, i, hi, ?_⟩
    rw [b4 i]
    have hz : s4.slot_shut_down i = false := by
      have := hns i
      simp only [server_t.slot_shut_down, f3] at this ⊢
      exact this
    simp [hz, hnot]
  · rw [run_append, ← hs4]
    exact d1
  · rw [run_append, ← hs4]
    exact d2
  · intro i hi
    rw [run_append, ← hs4, c4 i, f3, hlen]
    have hmem : i ∈ shutdown_slots (pre ++ post) := by
      rw [shutdown_slots_append]
      have := q2 (by simpa [shutdown_slots_append] using hlall) i hi
      simpa using this
    simp [hmem, hi]
  · rw [run_append, run_append, ← hs4]
    simp [server_t.run, server_t.handle, server_t.on_logger_shutdown,
      server_t.do_message_flush, server_t.issue]
  · rw [run_append, run_append, ← hs4]
    simp [server_t.run, server_t.handle, server_t.on_logger_shutdown,
      server_t.do_message_flush, server_t.issue, d2]
  · rw [run_append, run_append, ← hs4]
    simp [server_t.run, server_t.handle, server_t.on_logger_shutdown,
      server_t.do_message_flush, server_t.on_message_flush, server_t.do_stop_threads,
      server_t.issue]
  · rw [run_append, run_append, ← hs4]
    simp [server_t.run, server_t.handle, server_t.on_logger_shutdown,
      server_t.do_message_flush, server_t.on_message_flush, server_t.do_stop_threads,
      server_t.issue, d2]
  · rw [run_append, run_append, ← hs4]
    simp [server_t.run, server_t.handle, server_t.on_logger_shutdown,
      server_t.do_message_flush, server_t.on_message_flush, server_t.do_stop_threads,
      server_t.on_threads_stopped, server_t.issue]
  · rw [run_append, run_append, ← hs4]
    simp [server_t.run, server_t.handle, server_t.on_logger_shutdown,
      server_t.do_message_flush, server_t.on_message_flush, server_t.do_stop_threads,
      server_t.on_threads_stopped, server_t.issue, d2]
  · intro evs
    rfl

/-- Instance of `C14_shutdown_order`: a server with two serializers that has
reached `Running` is shut down from a context that is not its home; the
second serializer confirms first. -/
theorem C14_shutdown_order_witness :
    (((server_t.ctor 2).run [Event.do_start, Event.logger_ready, Event.start_a_serializer 0,
        Event.start_a_serializer 1, Event.serializer_ready 1, Event.serializer_ready 0,
        Event.store_ready, Event.conn_acceptor_ready]).run
      ([Event.shutdown false, Event.interrupt_delivered,
        Event.conn_acceptor_shutdown, Event.store_shutdown] ++
        ([Event.serializer_shutdown 1] ++
          [Event.shutdown_a_serializer 0, Event.serializer_shutdown 0]) ++
        [Event.logger_shutdown, Event.message_flushed, Event.threads_stopped])).stage =
      Stage.Stopped ∧
    (((server_t.ctor 2).run [Event.do_start, Event.logger_ready, Event.start_a_serializer 0,
        Event.start_a_serializer 1, Event.serializer_ready 1, Event.serializer_ready 0,
        Event.store_ready, Event.conn_acceptor_ready]).run
      ([Event.shutdown false, Event.interrupt_delivered,
        Event.conn_acceptor_shutdown, Event.store_shutdown] ++
        ([Event.serializer_shutdown 1] ++
          [Event.shutdown_a_serializer 0, Event.serializer_shutdown 0]) ++
        [Event.logger_shutdown, Event.message_flushed, Event.threads_stopped])).issued =
      ((server_t.ctor 2).run [Event.do_start, Event.logger_ready, Event.start_a_serializer 0,
        Event.start_a_serializer 1, Event.serializer_ready 1, Event.serializer_ready 0,
        Event.store_ready, Event.conn_acceptor_ready]).issued ++
        [Request.shutdown_conn_acceptor, Request.shutdown_store] ++
        (List.range 2).map Request.shutdown_serializer ++
        [Request.shutdown_loggers, Request.message_flush, Request.stop_threads] := by
  obtain ⟨_, _, _, _, _, _, _, _, _, _, _, _, _, _, _, _, _, h18, h19, _⟩ :=
    C14_shutdown_order 2 (by decide)
      ((server_t.ctor 2).run [Event.do_start, Event.logger_ready, Event.start_a_serializer 0,
        Event.start_a_serializer 1, Event.serializer_ready 1, Event.serializer_ready 0,
        Event.store_ready, Event.conn_acceptor_ready])
      false rfl rfl
      (fun i => by
        match i with
        | 0 => rfl
        | 1 => rfl
        | _ + 2 => rfl)
      [Event.serializer_shutdown 1]
      [Event.shutdown_a_serializer 0, Event.serializer_shutdown 0]
      (by decide) (by decide)
  exact ⟨h18, h19⟩

/-- C15: the first `disable_gc` arrives in `Enabled`, at least one more
arrives while `Disabling`, and the calls are interleaved in any way with the
first `N - 1` confirmations.  Up to any point before the `N`-th confirmation
the toggler is `Disabling` and has invoked nothing.  The `N`-th confirmation
makes it `Disabled` and invokes `on_gc_disabled()` once on every queued
callback, in queue order, the first requester's included, each with
`multiple_users_seen = true`. -/
theorem C15_concurrent_disablers_all_marked (t : gc_toggler_t)
    (cb1 : all_gc_disabled_callback_t) (mid : List GcEvent)
    (hst : t.state_ = toggle_state_t.enabled) (hq : t.callbacks_ = [])
    (hconf : confirmations mid + 1 = t.n_serializers)
    (hmore : disable_calls mid ≠ []) :
    (∀ pre post, mid = pre ++ post →
      (t.run (GcEvent.disable_gc cb1 :: pre)).state_ = toggle_state_t.disabling ∧
      (t.run (GcEvent.disable_gc cb1 :: pre)).invoked = t.invoked) ∧
    (t.run (GcEvent.disable_gc cb1 :: mid ++ [GcEvent.confirmation])).state_ =
      toggle_state_t.disabled ∧
    (t.run (GcEvent.disable_gc cb1 :: mid)).callbacks_ =
      (cb1 :: disable_calls mid).map all_gc_disabled_callback_t.mark ∧
    (t.run (GcEvent.disable_gc cb1 :: mid ++ [GcEvent.confirmation])).invoked =
      t.invoked ++ (cb1 :: disable_calls mid).map all_gc_disabled_callback_t.mark ∧
    (∀ cb ∈ (cb1 :: disable_calls mid).map all_gc_disabled_callback_t.mark,
      cb.multiple_users_seen = true) ∧
    ((cb1 :: disable_calls mid).map all_gc_disabled_callback_t.mark).map
        all_gc_disabled_callback_t.id =
      (cb1 :: disable_calls mid).map all_gc_disabled_callback_t.id := by
  have hstep : t.handle (GcEvent.disable_gc cb1) =
      { t with
        state_ := toggle_state_t.disabling
        num_disabled_serializers_ := 0
        callbacks_ := [cb1]
        requests := t.requests ++ (List.range t.n_serializers).map GcRequest.disable_gc } := by
    simp [gc_toggler_t.handle, gc_toggler_t.disable_gc, hst, hq]
  have g1 : (t.handle (GcEvent.disable_gc cb1)).state_ = toggle_state_t.disabling := by
    rw [hstep]
  have g2 : (t.handle (GcEvent.disable_gc cb1)).invoked = t.invoked := by rw [hstep]
  have g3 : (t.handle (GcEvent.disable_gc cb1)).num_disabled_serializers_ = 0 := by
    rw [hstep]
  have g4 : (t.handle (GcEvent.disable_gc cb1)).n_serializers = t.n_serializers := by
    rw [hstep]
  have g6 : (t.handle (GcEvent.disable_gc cb1)).callbacks_ = [cb1] := by rw [hstep]
  obtain ⟨a1, a2, a3, a4, _, a6⟩ := disabling_run mid (t.handle (GcEvent.disable_gc cb1)) g1
    (by rw [g3, g4]; omega)
  rw [g6, if_neg hmore] at a6
  obtain ⟨b1, b2, _, _, _⟩ := last_confirmation
    ((t.handle (GcEvent.disable_gc cb1)).run mid) (by rw [a3, a4, g3, g4]; omega)
  refine ⟨?_, ?_, ?_, ?_, ?_, ?_⟩
  · intro pre post hsplit
    have hc : confirmations pre ≤ confirmations mid := by
      rw [hsplit, confirmations_append]
      omega
    obtain ⟨c1, c2, _⟩ := disabling_run pre (t.handle (GcEvent.disable_gc cb1)) g1
      (by rw [g3, g4]; omega)
    simp only [gc_toggler_t.run]
    exact ⟨c1, by rw [c2, g2]⟩
  · rw [gc_run_append]
    exact b1
  · simp only [gc_toggler_t.run]
    rw [a6]
    rfl
  · rw [gc_run_append]
    simp only [gc_toggler_t.run, gc_toggler_t.handle] at b2 a2 a6 g2 ⊢
    rw [b2, a2, a6, g2]
    rfl
  · intro cb hcb
    rcases List.mem_map.mp hcb with ⟨x, _, hx⟩
    rw [← hx]
    rfl
  · rw [List.map_map]
    rfl

/-- Instance of `C15_concurrent_disablers_all_marked`: two serializers, three
requesters. -/
theorem C15_concurrent_disablers_all_marked_witness :
    (gc_toggler_t.ctor 2).run [GcEvent.disable_gc (all_gc_disabled_callback_t.ctor 1),
      GcEvent.disable_gc (all_gc_disabled_callback_t.ctor 2), GcEvent.confirmation,
      GcEvent.disable_gc (all_gc_disabled_callback_t.ctor 3), GcEvent.confirmation] =
    { state_ := toggle_state_t.disabled
      num_disabled_serializers_ := 2
      callbacks_ := [⟨1, true⟩, ⟨2, true⟩, ⟨3, true⟩]
      n_serializers := 2
      invoked := [⟨1, true⟩, ⟨2, true⟩, ⟨3, true⟩]
      requests := [GcRequest.disable_gc 0, GcRequest.disable_gc 1] } ∧
    ((gc_toggler_t.ctor 2).run (GcEvent.disable_gc (all_gc_disabled_callback_t.ctor 1) ::
      [GcEvent.disable_gc (all_gc_disabled_callback_t.ctor 2), GcEvent.confirmation,
        GcEvent.disable_gc (all_gc_disabled_callback_t.ctor 3)] ++
      [GcEvent.confirmation])).invoked =
    (gc_toggler_t.ctor 2).invoked ++
      (all_gc_disabled_callback_t.ctor 1 ::
        disable_calls [GcEvent.disable_gc (all_gc_disabled_callback_t.ctor 2),
          GcEvent.confirmation,
          GcEvent.disable_gc (all_gc_disabled_callback_t.ctor 3)]).map
        all_gc_disabled_callback_t.mark :=
  ⟨by decide,
    (C15_concurrent_disablers_all_marked (gc_toggler_t.ctor 2)
      (all_gc_disabled_callback_t.ctor 1)
      [GcEvent.disable_gc (all_gc_disabled_callback_t.ctor 2), GcEvent.confirmation,
        GcEvent.disable_gc (all_gc_disabled_callback_t.ctor 3)]
      rfl rfl (by decide) (by decide)).2.2.2.1⟩

/-- C16: a single `disable_gc(cb)` made in `Enabled`, with a callback fresh
from its constructor and no other call: it does not fire synchronously; after
fewer than `N` confirmations the toggler is `Disabling` and has invoked
nothing; after the `N`-th it is `Disabled` and has invoked `cb` once, with
`multiple_users_seen = false`. -/
theorem C16_single_disabler_not_marked (t : gc_toggler_t) (id k : Nat)
    (hst : t.state_ = toggle_state_t.enabled) (hq : t.callbacks_ = [])
    (hN : 1 ≤ t.n_serializers) :
    (t.disable_gc (all_gc_disabled_callback_t.ctor id)).2 = false ∧
    (k < t.n_serializers →
      (t.run (GcEvent.disable_gc (all_gc_disabled_callback_t.ctor id) ::
        List.replicate k GcEvent.confirmation)).state_ = toggle_state_t.disabling ∧
      (t.run (GcEvent.disable_gc (all_gc_disabled_callback_t.ctor id) ::
        List.replicate k GcEvent.confirmation)).invoked = t.invoked) ∧
    (k = t.n_serializers →
      (t.run (GcEvent.disable_gc (all_gc_disabled_callback_t.ctor id) ::
        List.replicate k GcEvent.confirmation)).state_ = toggle_state_t.disabled ∧
      (t.run (GcEvent.disable_gc (all_gc_disabled_callback_t.ctor id) ::
        List.replicate k GcEvent.confirmation)).invoked = t.invoked ++ [⟨id, false⟩]) := by
  obtain ⟨a1, _, _, a4, a5⟩ := single_cycle t (all_gc_disabled_callback_t.ctor id) k hst hq hN
  refine ⟨a1, fun h => ⟨(a4 h).1, (a4 h).2.1⟩, fun h => ⟨(a5 h).1, (a5 h).2.1⟩⟩

/-- Instance of `C16_single_disabler_not_marked`: two serializers, both
confirmations arrived. -/
theorem C16_single_disabler_not_marked_witness :
    ((gc_toggler_t.ctor 2).run (GcEvent.disable_gc (all_gc_disabled_callback_t.ctor 7) ::
        List.replicate 2 GcEvent.confirmation)).state_ = toggle_state_t.disabled ∧
      ((gc_toggler_t.ctor 2).run (GcEvent.disable_gc (all_gc_disabled_callback_t.ctor 7) ::
        List.replicate 2 GcEvent.confirmation)).invoked =
          (gc_toggler_t.ctor 2).invoked ++ [⟨7, false⟩] :=
  (C16_single_disabler_not_marked (gc_toggler_t.ctor 2) 7 2 rfl rfl (by decide)).2.2 rfl

/-- C17: from `Enabled` with an empty queue, a `disable_gc` that completes
leaves the toggler `Disabled`; `enable_gc` then returns it to `Enabled` with
an empty queue; and a second `disable_gc` goes like the first: the
confirmation count, left at `N`, restarts at zero, nothing fires before `N`
new confirmations, the `N`-th fires the new callback alone, and state and
count are at every point those of a first cycle. -/
theorem C17_disable_enable_round_trip (t : gc_toggler_t)
    (cb cb2 : all_gc_disabled_callback_t) (k : Nat)
    (hst : t.state_ = toggle_state_t.enabled) (hq : t.callbacks_ = [])
    (hN : 1 ≤ t.n_serializers) (hk : k ≤ t.n_serializers) :
    (t.run (GcEvent.disable_gc cb ::
      List.replicate t.n_serializers GcEvent.confirmation)).state_ =
        toggle_state_t.disabled ∧
    ∃ (t2 : gc_toggler_t) (out : Bool),
      (t.run (GcEvent.disable_gc cb ::
        List.replicate t.n_serializers GcEvent.confirmation)).enable_gc = some (t2, out) ∧
      t2.state_ = toggle_state_t.enabled ∧
      t2.callbacks_ = [] ∧
      t2.invoked = t.invoked ++ [cb] ∧
      t2.num_disabled_serializers_ = (t.n_serializers : Int) ∧
      (t2.disable_gc cb2).1.num_disabled_serializers_ = 0 ∧
      (k < t.n_serializers →
        (t2.run (GcEvent.disable_gc cb2 :: List.replicate k GcEvent.confirmation)).state_ =
          toggle_state_t.disabling ∧
        (t2.run (GcEvent.disable_gc cb2 :: List.replicate k GcEvent.confirmation)).invoked =
          t2.invoked) ∧
      (k = t.n_serializers →
        (t2.run (GcEvent.disable_gc cb2 :: List.replicate k GcEvent.confirmation)).state_ =
          toggle_state_t.disabled ∧
        (t2.run (GcEvent.disable_gc cb2 :: List.replicate k GcEvent.confirmation)).invoked =
          t2.invoked ++ [cb2]) ∧
      (t2.run (GcEvent.disable_gc cb2 :: List.replicate k GcEvent.confirmation)).state_ =
        (t.run (GcEvent.disable_gc cb2 :: List.replicate k GcEvent.confirmation)).state_ ∧
      (t2.run (GcEvent.disable_gc cb2 ::
          List.replicate k GcEvent.confirmation)).num_disabled_serializers_ =
        (t.run (GcEvent.disable_gc cb2 ::
          List.replicate k GcEvent.confirmation)).num_disabled_serializers_ := by
  obtain ⟨_, _, _, _, a5⟩ := single_cycle t cb t.n_serializers hst hq hN
  obtain ⟨c1, c2, c3, c4, c5⟩ := a5 rfl
  obtain ⟨t1, ht1⟩ : ∃ t1, t1 = t.run (GcEvent.disable_gc cb ::
      List.replicate t.n_serializers GcEvent.confirmation) := ⟨_, rfl⟩
  rw [← ht1] at c1 c2 c3 c4 c5 ⊢
  obtain ⟨t2, ht2⟩ : ∃ t2 : gc_toggler_t, t2 =
      { t1 with
        state_ := toggle_state_t.enabled
        callbacks_ := []
        requests := t1.requests ++ (List.range t1.n_serializers).map GcRequest.enable_gc } :=
    ⟨_, rfl⟩
  have hen : t1.enable_gc = some (t2, false) := by
    rw [ht2]
    simp [gc_toggler_t.enable_gc, c1, c3]
  have h2s : t2.state_ = toggle_state_t.enabled := by rw [ht2]
  have h2q : t2.callbacks_ = [] := by rw [ht2]
  have h2n : t2.n_serializers = t.n_serializers := by rw [ht2]; exact c4
  have h2i : t2.invoked = t.invoked ++ [cb] := by rw [ht2]; exact c2
  have h2c : t2.num_disabled_serializers_ = (t.n_serializers : Int) := by rw [ht2]; exact c5
  obtain ⟨_, d2, _, d4, d5⟩ := single_cycle t2 cb2 k h2s h2q (by rw [h2n]; exact hN)
  obtain ⟨_, _, _, e4, e5⟩ := single_cycle t cb2 k hst hq hN
  rw [h2n] at d4 d5
  refine ⟨c1, t2, false, hen, h2s, h2q, h2i, h2c, d2,
    fun h => ⟨(d4 h).1, (d4 h).2.1⟩, fun h => ⟨(d5 h).1, (d5 h).2.1⟩, ?_, ?_⟩
  · rcases Nat.lt_or_eq_of_le hk with h | h
    · rw [(d4 h).1, (e4 h).1]
    · rw [(d5 h).1, (e5 h).1]
  · rcases Nat.lt_or_eq_of_le hk with h | h
    · rw [(d4 h).2.2, (e4 h).2.2]
    · rw [(d5 h).2.2.2.2, (e5 h).2.2.2.2]

/-- Instance of `C17_disable_enable_round_trip`: two serializers, the second
cycle complete. -/
theorem C17_disable_enable_round_trip_witness :
    ((gc_toggler_t.ctor 2).run (GcEvent.disable_gc (all_gc_disabled_callback_t.ctor 1) ::
      List.replicate (gc_toggler_t.ctor 2).n_serializers GcEvent.confirmation)).state_ =
        toggle_state_t.disabled ∧
    ((gc_toggler_t.ctor 2).run (GcEvent.disable_gc (all_gc_disabled_callback_t.ctor 1) ::
      List.replicate 2 GcEvent.confirmation)).enable_gc =
      some ({ state_ := toggle_state_t.enabled
              num_disabled_serializers_ := 2
              callbacks_ := []
              n_serializers := 2
              invoked := [⟨1, false⟩]
              requests := [GcRequest.disable_gc 0, GcRequest.disable_gc 1,
                GcRequest.enable_gc 0, GcRequest.enable_gc 1] }, false) :=
  ⟨(C17_disable_enable_round_trip (gc_toggler_t.ctor 2)
      (all_gc_disabled_callback_t.ctor 1) (all_gc_disabled_callback_t.ctor 2) 2
      rfl rfl (by decide) (by decide)).1, by decide⟩

end Server

namespace Counted

/-! ## The claims on re-seating and on the two mixins -/

/-- C18: for a non-null handle `h` whose object has refcount `n ≥ 1`,
move-assigning `h` to itself completes with the heap untouched at each of its
three steps, and `h.get()` is the object.  Copy-assigning `h` to itself and
`h.reset(h.get())` complete whenever `n + 1` is representable: between the
construction of the temporary and its destruction the refcount is `n + 1`,
never 0.  All three leave `h` holding the same object and the heap exactly as
it was (refcount `n`, not deleted).  In every state reached from freshly
constructed objects by the operations of `counted_t`, `n` is the number of
handles holding the object, so `n + 1` is representable unless `INTPTR_MAX`
handles exist. -/
theorem C18_reseating_keeps_object (m : Mixin) (s : State) (h a : Nat) (o : Obj)
    (hc : s.handle h = .ok ⟨some a, true⟩) (ho : s.heap[a]? = some o)
    (h1 : 1 ≤ o.refcount_) :
    (∃ s1 s2 s3 : State, counted_t.ctor_move s h = .ok s1 ∧
      counted_t.swap s1 h s.handles.length = .ok s2 ∧
      counted_t.dtor m s2 s.handles.length = .ok s3 ∧
      counted_t.assign_move m s h h = .ok s3 ∧
      s1.heap = s.heap ∧ s2.heap = s.heap ∧
      s3.heap = s.heap ∧ s3.handle h = .ok ⟨some a, true⟩) ∧
    counted_t.get s h = .ok (some a) ∧
    (o.refcount_ < INTPTR_MAX →
      (∃ s1 s2 s3 : State, counted_t.ctor_copy m s h = .ok s1 ∧
        counted_t.swap s1 h s.handles.length = .ok s2 ∧
        counted_t.dtor m s2 s.handles.length = .ok s3 ∧
        counted_t.assign_copy m s h h = .ok s3 ∧
        s1.heap[a]? = some ⟨o.refcount_ + 1, o.deleted⟩ ∧
        s2.heap[a]? = some ⟨o.refcount_ + 1, o.deleted⟩ ∧
        s3.heap = s.heap ∧ s3.handle h = .ok ⟨some a, true⟩) ∧
      (∃ s1 s2 s3 : State, counted_t.ctor_ptr m s (some a) = .ok s1 ∧
        counted_t.swap s1 h s.handles.length = .ok s2 ∧
        counted_t.dtor m s2 s.handles.length = .ok s3 ∧
        counted_t.reset_ptr m s h (some a) = .ok s3 ∧
        s1.heap[a]? = some ⟨o.refcount_ + 1, o.deleted⟩ ∧
        s2.heap[a]? = some ⟨o.refcount_ + 1, o.deleted⟩ ∧
        s3.heap = s.heap ∧ s3.handle h = .ok ⟨some a, true⟩)) ∧
    (∀ (k : Nat) (ops : List Op), exec m (State.init k) ops = .ok s →
      o.refcount_ = (s.holders a : Int) ∧
      ((s.handles.length : Int) < INTPTR_MAX → o.refcount_ < INTPTR_MAX)) := by
  have hlt := handle_lt hc
  have hne : h ≠ s.handles.length := by omega
  refine ⟨?_, by simp [counted_t.get, hc], ?_, ?_⟩
  · have emove := ctor_move_eq hc
    have hl1 : h < (s.handles ++ [counted_t.mk (some a) true]).length := by simp; omega
    have k1 : State.handle ⟨s.heap,
        (s.handles ++ [counted_t.mk (some a) true]).set h (counted_t.mk none true)⟩ h =
        .ok ⟨none, true⟩ := by
      rw [handle_set _ s.heap _ _ _ _ hl1, if_pos rfl]
      rfl
    have k2 : State.handle ⟨s.heap,
        (s.handles ++ [counted_t.mk (some a) true]).set h (counted_t.mk none true)⟩
        s.handles.length = .ok ⟨some a, true⟩ := by
      have hne2 : s.handles.length ≠ h := fun e => hne e.symm
      rw [handle_set _ s.heap _ _ _ _ hl1, if_neg hne2]
      exact handle_mid _ _ _ _
    have eswap := swap_eq k1 k2
    have hl2 : s.handles.length <
        (((s.handles ++ [counted_t.mk (some a) true]).set h (counted_t.mk none true)).set h
          (counted_t.mk (some a) true)).length := by simp
    have k3 : State.handle ⟨s.heap,
        (((s.handles ++ [counted_t.mk (some a) true]).set h (counted_t.mk none true)).set h
          (counted_t.mk (some a) true)).set s.handles.length (counted_t.mk none true)⟩
        s.handles.length = .ok ⟨none, true⟩ := by
      rw [handle_set _ s.heap _ _ _ _ hl2, if_pos rfl]
      rfl
    have edtor := @dtor_null_eq m _ _ _ k3 rfl
    refine ⟨_, _, _, emove, eswap, edtor, ?_, rfl, rfl, rfl, ?_⟩
    · simp only [counted_t.assign_move, emove, eswap, edtor]
    · rw [handle_set _ s.heap _ _ _ _ (by simp), if_neg hne,
        handle_set _ s.heap _ _ _ _ hl2, if_neg hne,
        handle_set _ s.heap _ _ _ _ (by simp; omega), if_pos rfl]
      rfl
  · intro h2
    have ho1 : (s.new_handle (some a)).heap[a]? = some o := ho
    have hadd := modify_obj_ok ho1 (add_ref_ok m o (by omega) h2)
    have ecopy : counted_t.ctor_copy m s h =
        .ok ⟨s.heap.set a ⟨o.refcount_ + 1, o.deleted⟩,
          s.handles ++ [counted_t.mk (some a) true]⟩ := by
      simp only [counted_t.ctor_copy, hc]
      rw [hadd]
      rfl
    have eptr : counted_t.ctor_ptr m s (some a) =
        .ok ⟨s.heap.set a ⟨o.refcount_ + 1, o.deleted⟩,
          s.handles ++ [counted_t.mk (some a) true]⟩ := by
      simp only [counted_t.ctor_ptr]
      rw [hadd]
      rfl
    obtain ⟨s2, s3, e2, e3, g2, g3, g4⟩ := acquire_swap_release m s h a o hc ho h1 h2
    refine ⟨⟨_, s2, s3, ecopy, e2, e3, ?_, heap_get_set _ ho, g2, g3, g4⟩,
      ⟨_, s2, s3, eptr, e2, e3, ?_, heap_get_set _ ho, g2, g3, g4⟩⟩
    · simp only [counted_t.assign_copy, ecopy, e2, e3]
    · simp only [counted_t.reset_ptr, eptr, e2, e3]
  · intro k ops hex
    have hr := ((inv_reachable hex).1 a o ho).1
    refine ⟨hr, fun hsize => ?_⟩
    have hle : s.holders a ≤ s.handles.length := List.count_le_length _ _
    rw [hr]
    have : (s.holders a : Int) ≤ (s.handles.length : Int) := by exact_mod_cast hle
    omega

/-- Instance of `C18_reseating_keeps_object` on the unique handle (`n = 1`)
that `make_counted` returns. -/
theorem C18_reseating_keeps_object_witness :
    exec Mixin.single_threaded_shared_mixin_t (State.init 0) [Op.make_counted true] = .ok (State.mk [Obj.mk 1 0] [counted_t.mk (some 0) true]) ∧
    (∃ s1 s2 s3 : State, counted_t.ctor_move (State.mk [Obj.mk 1 0] [counted_t.mk (some 0) true]) 0 = .ok s1 ∧
      counted_t.swap s1 0 (State.mk [Obj.mk 1 0] [counted_t.mk (some 0) true]).handles.length = .ok s2 ∧
      counted_t.dtor Mixin.single_threaded_shared_mixin_t s2 (State.mk [Obj.mk 1 0] [counted_t.mk (some 0) true]).handles.length = .ok s3 ∧
      counted_t.assign_move Mixin.single_threaded_shared_mixin_t (State.mk [Obj.mk 1 0] [counted_t.mk (some 0) true]) 0 0 = .ok s3 ∧
      s1.heap = [Obj.mk 1 0] ∧ s2.heap = [Obj.mk 1 0] ∧
      s3.heap = [Obj.mk 1 0] ∧ s3.handle 0 = .ok ⟨some 0, true⟩) ∧
    counted_t.get (State.mk [Obj.mk 1 0] [counted_t.mk (some 0) true]) 0 = .ok (some 0) ∧
    (∃ s1 s2 s3 : State, counted_t.ctor_copy Mixin.single_threaded_shared_mixin_t (State.mk [Obj.mk 1 0] [counted_t.mk (some 0) true]) 0 = .ok s1 ∧
      counted_t.swap s1 0 (State.mk [Obj.mk 1 0] [counted_t.mk (some 0) true]).handles.length = .ok s2 ∧
      counted_t.dtor Mixin.single_threaded_shared_mixin_t s2 (State.mk [Obj.mk 1 0] [counted_t.mk (some 0) true]).handles.length = .ok s3 ∧
      counted_t.assign_copy Mixin.single_threaded_shared_mixin_t (State.mk [Obj.mk 1 0] [counted_t.mk (some 0) true]) 0 0 = .ok s3 ∧
      s1.heap[0]? = some ⟨(Obj.mk 1 0).refcount_ + 1, (Obj.mk 1 0).deleted⟩ ∧
      s2.heap[0]? = some ⟨(Obj.mk 1 0).refcount_ + 1, (Obj.mk 1 0).deleted⟩ ∧
      s3.heap = [Obj.mk 1 0] ∧ s3.handle 0 = .ok ⟨some 0, true⟩) ∧
    (∃ s1 s2 s3 : State, counted_t.ctor_ptr Mixin.single_threaded_shared_mixin_t (State.mk [Obj.mk 1 0] [counted_t.mk (some 0) true]) (some 0) = .ok s1 ∧
      counted_t.swap s1 0 (State.mk [Obj.mk 1 0] [counted_t.mk (some 0) true]).handles.length = .ok s2 ∧
      counted_t.dtor Mixin.single_threaded_shared_mixin_t s2 (State.mk [Obj.mk 1 0] [counted_t.mk (some 0) true]).handles.length = .ok s3 ∧
      counted_t.reset_ptr Mixin.single_threaded_shared_mixin_t (State.mk [Obj.mk 1 0] [counted_t.mk (some 0) true]) 0 (some 0) = .ok s3 ∧
      s1.heap[0]? = some ⟨(Obj.mk 1 0).refcount_ + 1, (Obj.mk 1 0).deleted⟩ ∧
      s2.heap[0]? = some ⟨(Obj.mk 1 0).refcount_ + 1, (Obj.mk 1 0).deleted⟩ ∧
      s3.heap = [Obj.mk 1 0] ∧ s3.handle 0 = .ok ⟨some 0, true⟩) ∧
    (Obj.mk 1 0).refcount_ = ((State.mk [Obj.mk 1 0] [counted_t.mk (some 0) true]).holders 0 : Int) ∧
    (Obj.mk 1 0).refcount_ < INTPTR_MAX := by
  have t := C18_reseating_keeps_object Mixin.single_threaded_shared_mixin_t (State.mk [Obj.mk 1 0] [counted_t.mk (some 0) true]) 0 0 (Obj.mk 1 0)
    (by decide) (by decide) (by decide)
  have hex : exec Mixin.single_threaded_shared_mixin_t (State.init 0) [Op.make_counted true] = .ok (State.mk [Obj.mk 1 0] [counted_t.mk (some 0) true]) := by decide
  have hfit := (t.2.2.2 0 [Op.make_counted true] hex).2 (by decide)
  exact ⟨hex, t.1, t.2.1, (t.2.2.1 hfit).1, (t.2.2.1 hfit).2,
    (t.2.2.2 0 [Op.make_counted true] hex).1, hfit⟩

/-- C19: for every refcount `r` with `r - 1` and `r + 1` representable in
`intptr_t`, the two mixins agree: `counted_t_add_ref` gives the same result on
both (the same assertion failure, or the same new refcount), and so does
`counted_t_release` (the same assertion failure, or the same new refcount and
the same decision to delete); no other fault occurs. -/
theorem C19_mixins_interchangeable (o : Obj)
    (hlo : INTPTR_MIN < o.refcount_) (hhi : o.refcount_ < INTPTR_MAX) :
    counted_t_add_ref Mixin.single_threaded_shared_mixin_t o =
      counted_t_add_ref Mixin.slow_shared_mixin_t o ∧
    counted_t_release Mixin.single_threaded_shared_mixin_t o =
      counted_t_release Mixin.slow_shared_mixin_t o ∧
    counted_t_add_ref Mixin.slow_shared_mixin_t o =
      (if 0 ≤ o.refcount_ then .ok ⟨o.refcount_ + 1, o.deleted⟩
        else .error Fault.rassert_failed) ∧
    counted_t_release Mixin.slow_shared_mixin_t o =
      (if 0 < o.refcount_ then
        .ok ⟨o.refcount_ - 1, if o.refcount_ = 1 then o.deleted + 1 else o.deleted⟩
        else .error Fault.rassert_failed) := by
  have a1 : ∀ m, counted_t_add_ref m o =
      (if 0 ≤ o.refcount_ then .ok ⟨o.refcount_ + 1, o.deleted⟩
        else .error Fault.rassert_failed) := by
    intro m
    by_cases h0 : 0 ≤ o.refcount_
    · rw [if_pos h0, add_ref_ok m o h0 hhi]
    · rw [if_neg h0]
      have hw : wrap_intptr (o.refcount_ + 1) = o.refcount_ + 1 :=
        wrap_intptr_eq (by unfold INTPTR_MIN at *; omega) (by unfold INTPTR_MAX at *; omega)
      have hne : o.refcount_ ≠ INTPTR_MAX := by omega
      have hn : ¬ (0 < o.refcount_ + 1) := by omega
      cases m <;> simp [counted_t_add_ref, rassert, hw, hne, hn]
  have r1 : ∀ m, counted_t_release m o =
      (if 0 < o.refcount_ then
        .ok ⟨o.refcount_ - 1, if o.refcount_ = 1 then o.deleted + 1 else o.deleted⟩
        else .error Fault.rassert_failed) := by
    intro m
    by_cases h0 : 0 < o.refcount_
    · rw [if_pos h0, release_ok m o h0 (by omega)]
    · rw [if_neg h0]
      have hw : wrap_intptr (o.refcount_ - 1) = o.refcount_ - 1 :=
        wrap_intptr_eq (by unfold INTPTR_MIN at *; omega) (by unfold INTPTR_MAX at *; omega)
      have hn : ¬ (0 ≤ o.refcount_ - 1) := by omega
      cases m <;> simp [counted_t_release, rassert, hw, h0, hn]
  exact ⟨by rw [a1, a1], by rw [r1, r1], a1 _, r1 _⟩


/-- Instance of `C19_mixins_interchangeable` at refcount 1. -/
theorem C19_mixins_interchangeable_witness :
    counted_t_add_ref Mixin.single_threaded_shared_mixin_t (Obj.mk 1 0) =
      counted_t_add_ref Mixin.slow_shared_mixin_t (Obj.mk 1 0) ∧
    counted_t_release Mixin.single_threaded_shared_mixin_t (Obj.mk 1 0) =
      counted_t_release Mixin.slow_shared_mixin_t (Obj.mk 1 0) ∧
    counted_t_add_ref Mixin.slow_shared_mixin_t (Obj.mk 1 0) =
      (if 0 ≤ (Obj.mk 1 0).refcount_ then .ok ⟨(Obj.mk 1 0).refcount_ + 1, (Obj.mk 1 0).deleted⟩
        else .error Fault.rassert_failed) ∧
    counted_t_release Mixin.slow_shared_mixin_t (Obj.mk 1 0) =
      (if 0 < (Obj.mk 1 0).refcount_ then
        .ok ⟨(Obj.mk 1 0).refcount_ - 1,
          if (Obj.mk 1 0).refcount_ = 1 then (Obj.mk 1 0).deleted + 1 else (Obj.mk 1 0).deleted⟩
        else .error Fault.rassert_failed) :=
  C19_mixins_interchangeable (Obj.mk 1 0) (by decide) (by decide)

end Counted
